import Mathlib

/-!
Verification development for the Brain_Creator_Factory execution engine.

This file gives a shallow embedding in Lean 4 of the core data model and
operations of the engine (`src/core/graph.py`, `src/core/state.py`,
`src/core/memory.py`, `src/core/controller.py`, `src/core/learning.py`)
and proves properties about them.

Modelling conventions:
- Python dicts/JSON data are modelled by the inductive type `Value`
  (null / bool / number / string / array / object), with objects as
  association lists preserving insertion order (CPython dict semantics).
- Python floats are modelled as exact rationals (`Rat`); all the constants
  involved (0.5, 0.7, 0.8, 0.9, 0.1, 2.0, ...) are exactly representable.
- `datetime.utcnow()` timestamps are modelled as natural numbers supplied
  by the caller ("now"); wall-clock time strictly increases between calls.
  Timestamp fields that no verified property depends on (audit/signal
  timestamps, `created_at` metadata) are omitted from the model.
- `uuid.uuid4()` fresh identifiers are modelled by a counter threaded
  through the store (memory records) or by a fixed placeholder where the
  identifier value is irrelevant to every property proved here.
- Python exceptions are modelled with `Except String`; code that catches
  all exceptions is modelled by matching on the `.error` case.
- `eval`-based expression evaluation (guards, criteria, preconditions) is
  modelled by the AST `PyExpr` together with the fallible evaluator
  `evalExpr`; evaluation failures (`NameError`, `TypeError`, division by
  zero, ...) are the `.error` results.  Decision-rule condition strings
  ("> 0.8", "== 'x'", "default", ...) are modelled by the string-level
  evaluator `evalCondition`, which covers the comparison fragment of the
  mini-language; conditions outside the modelled fragment evaluate to
  `.error`, which exercises the same skip-on-error paths as a Python
  evaluation error.
-/

/-- JSON-like runtime values: the model of Python dicts, lists and scalars
used for state data, LLM outputs and serialized graphs. -/
inductive Value where
  | null : Value
  | bool : Bool → Value
  | num : Rat → Value
  | str : String → Value
  | arr : List Value → Value
  | obj : List (String × Value) → Value

/-- Look up a key in an object's field list (first binding wins, as in a
Python dict that never holds duplicate keys). -/
def lookupField : List (String × Value) → String → Option Value
  | [], _ => none
  | (k, v) :: rest, key => if k = key then some v else lookupField rest key

/-- Set a key in an object's field list: replace the first binding if the
key is present, else append (CPython dict assignment order semantics). -/
def setField : List (String × Value) → String → Value → List (String × Value)
  | [], key, v => [(key, v)]
  | (k, w) :: rest, key, v =>
    if k = key then (key, v) :: rest else (k, w) :: setField rest key v

/-- Python truthiness of a value (`bool(v)`). -/
def Value.truthy : Value → Bool
  | .null => false
  | .bool b => b
  | .num q => q ≠ 0
  | .str s => s ≠ ""
  | .arr l => !l.isEmpty
  | .obj l => !l.isEmpty

/-- Structural equality on values, mirroring Python `==` on JSON-like data
(cross-type comparisons are simply unequal). -/
def Value.beq : Value → Value → Bool
  | .null, .null => true
  | .bool a, .bool b => a = b
  | .num a, .num b => a = b
  | .str a, .str b => a = b
  | .arr a, .arr b => beqList a b
  | .obj a, .obj b => beqObj a b
  | _, _ => false
where
  beqList : List Value → List Value → Bool
    | [], [] => true
    | x :: xs, y :: ys => Value.beq x y && beqList xs ys
    | _, _ => false
  beqObj : List (String × Value) → List (String × Value) → Bool
    | [], [] => true
    | (k, x) :: xs, (l, y) :: ys => k = l && Value.beq x y && beqObj xs ys
    | _, _ => false

instance : BEq Value := ⟨Value.beq⟩

/-- `"a.b.c".split(".")` as a character-list computation (a
kernel-reduction-friendly equivalent of `String.splitOn "."`). -/
def splitDots (s : String) : List String :=
  (s.data.splitOn '.').map List.asString

/-- `s.startswith(pre)` as a character-list computation. -/
def strStartsWith (s pre : String) : Bool :=
  pre.data.isPrefixOf s.data

/-- `s.endswith(suf)` as a character-list computation. -/
def strEndsWith (s suf : String) : Bool :=
  suf.data.isSuffixOf s.data

/-- `s.strip()` as a character-list computation. -/
def strTrim (s : String) : String :=
  (((s.data.dropWhile Char.isWhitespace).reverse.dropWhile
    Char.isWhitespace).reverse).asString

/-- `State.get` path walk: follow a dot-separated path through nested
objects, returning `none` (the Python `default`) when a component is
missing or the current value is not a dict (`state.py::State.get`). -/
def getParts : Value → List String → Option Value
  | v, [] => some v
  | .obj fields, p :: rest =>
    match lookupField fields p with
    | some v => getParts v rest
    | none => none
  | _, _ :: _ => none

/-- Dot-path lookup used by `State.get` and `_get_nested_value`. -/
def getPath (v : Value) (path : String) : Option Value :=
  getParts v (splitDots path)

/-- `State.set` path walk (`state.py::State.set`): create missing
intermediate dicts and assign at the last component.  Returns `none` when
an intermediate component holds a non-dict value, where the Python code
raises `TypeError`. -/
def setParts : Value → List String → Value → Option Value
  | _, [], v => some v
  | .obj fields, [p], v => some (.obj (setField fields p v))
  | .obj fields, p :: q :: rest, v =>
    let child := match lookupField fields p with
      | some c => c
      | none => .obj []
    match setParts child (q :: rest) v with
    | some c' => some (.obj (setField fields p c'))
    | none => none
  | _, _ :: _, _ => none

/-- Dot-path assignment used by `State.set`. -/
def setPath (v : Value) (path : String) (x : Value) : Option Value :=
  setParts v (splitDots path) x

mutual

/-- Per-key combination of `state.py::State.apply_patch.deep_merge`:
merge recursively when the current value and the update are both dicts,
else take the update. -/
def deepMergeVal : Value → Value → Value
  | .obj b, .obj u => .obj (deepMergeObj b u)
  | _, v => v
termination_by _ u => sizeOf u

/-- The recursive dict merge of `state.py::State.apply_patch.deep_merge`. -/
def deepMergeObj : List (String × Value) → List (String × Value) → List (String × Value)
  | result, [] => result
  | result, (k, v) :: rest =>
    let merged := match lookupField result k with
      | some cur => deepMergeVal cur v
      | none => v
    deepMergeObj (setField result k merged) rest
termination_by _ upd => sizeOf upd

end

/-- `State.apply_patch`: deep-merge a patch object into the working data. -/
def applyPatchData : Value → Value → Value
  | .obj base, .obj updates => .obj (deepMergeObj base updates)
  | base, _ => base

/-- Comparison operators of the guard/criterion expression mini-language. -/
inductive CmpOp where
  | lt | le | gt | ge
deriving DecidableEq

/-- AST of the restricted Python expressions fed to `eval` by guards,
gate criteria and decision preconditions.  The constructors cover the
comparison/boolean/len/arithmetic fragment actually used by the engine's
expression strings; `evalExpr` is the (fallible) evaluation. -/
inductive PyExpr where
  | lit (v : Value)
  | var (name : String)
  | attr (e : PyExpr) (field : String)
  | cmp (op : CmpOp) (a b : PyExpr)
  | eqE (a b : PyExpr)
  | neE (a b : PyExpr)
  | andE (a b : PyExpr)
  | orE (a b : PyExpr)
  | notE (a : PyExpr)
  | lenE (a : PyExpr)
  | divE (a b : PyExpr)

/-- Python ordering comparison on values: numbers compare numerically,
strings lexicographically, anything else raises `TypeError`. -/
def compareVals (op : CmpOp) : Value → Value → Except String Bool
  | .num a, .num b =>
    .ok (match op with
      | .lt => decide (a < b)
      | .le => decide (a ≤ b)
      | .gt => decide (b < a)
      | .ge => decide (b ≤ a))
  | .str a, .str b =>
    .ok (match op with
      | .lt => decide (a < b)
      | .le => decide (a < b ∨ a = b)
      | .gt => decide (b < a)
      | .ge => decide (b < a ∨ a = b))
  | _, _ => .error "TypeError: unorderable types"

/-- Evaluate an expression against an environment object.  `.error`
models a Python exception escaping `eval` (NameError, AttributeError,
TypeError, ZeroDivisionError, ...). -/
def evalExpr : PyExpr → Value → Except String Value
  | .lit v, _ => .ok v
  | .var n, env =>
    match env with
    | .obj fields =>
      match lookupField fields n with
      | some v => .ok v
      | none => .error ("NameError: name " ++ n ++ " is not defined")
    | _ => .error "NameError: no environment"
  | .attr e f, env => do
    let v ← evalExpr e env
    match v with
    | .obj fields =>
      match lookupField fields f with
      | some w => .ok w
      | none => .error ("AttributeError: " ++ f)
    | _ => .error ("AttributeError: " ++ f)
  | .cmp op a b, env => do
    let va ← evalExpr a env
    let vb ← evalExpr b env
    let r ← compareVals op va vb
    .ok (.bool r)
  | .eqE a b, env => do
    let va ← evalExpr a env
    let vb ← evalExpr b env
    .ok (.bool (va == vb))
  | .neE a b, env => do
    let va ← evalExpr a env
    let vb ← evalExpr b env
    .ok (.bool (!(va == vb)))
  | .andE a b, env => do
    let va ← evalExpr a env
    if va.truthy then evalExpr b env else .ok va
  | .orE a b, env => do
    let va ← evalExpr a env
    if va.truthy then .ok va else evalExpr b env
  | .notE a, env => do
    let va ← evalExpr a env
    .ok (.bool (!va.truthy))
  | .lenE a, env => do
    let va ← evalExpr a env
    match va with
    | .str s => .ok (.num s.length)
    | .arr l => .ok (.num l.length)
    | .obj l => .ok (.num l.length)
    | _ => .error "TypeError: object has no len"
  | .divE a b, env => do
    let va ← evalExpr a env
    let vb ← evalExpr b env
    match va, vb with
    | .num x, .num y =>
      if y = 0 then .error "ZeroDivisionError" else .ok (.num (x / y))
    | _, _ => .error "TypeError: unsupported operand types"

/-- `context.py::build_eval_env`: the eval locals are the flattened
context fields plus a `state` binding to the whole context. -/
def buildEvalEnv (ctx : Value) : Value :=
  match ctx with
  | .obj fields => .obj (fields ++ [("state", .obj fields)])
  | v => .obj [("state", v)]

/-- `graph.py::Guard`: a guard condition on an edge. -/
structure Guard where
  expression : PyExpr
  description : Option String := none

/-- `graph.py::Guard.evaluate`: evaluate the guard expression against the
state context; any evaluation error is caught, logged and turned into
`False`. -/
def Guard.evaluate (g : Guard) (state : Value) : Bool :=
  match evalExpr g.expression (buildEvalEnv state) with
  | .ok v => v.truthy
  | .error _ => false

/-! ## Graph data model (`src/core/graph.py`) -/

/-- `graph.py::NodeType`: the eight node kinds. -/
inductive NodeType where
  | prime | flow | tributary | delta | sediment | gate | decision | terminal
deriving DecidableEq

/-- `graph.py::EdgeType`: the six transition kinds. -/
inductive EdgeType where
  | laminar | turbulent | dredging | permeable | decomposes | depends
deriving DecidableEq

/-- `graph.py::Stage`: workflow stages. -/
inductive Stage where
  | intake | research | planning | execution | verification | finalization
  | complete | escalated
deriving DecidableEq

/-- `graph.py::RelationType`: relationship type tags. -/
inductive RelationType where
  | informs | grounds | enables | blocks | correlates | indicates
deriving DecidableEq

def NodeType.toStr : NodeType → String
  | .prime => "prime"
  | .flow => "flow"
  | .tributary => "tributary"
  | .delta => "delta"
  | .sediment => "sediment"
  | .gate => "gate"
  | .decision => "decision"
  | .terminal => "terminal"

/-- `NodeType(value)`: `none` models the `ValueError` raised on an unknown
enum value. -/
def NodeType.fromStr : String → Option NodeType
  | "prime" => some .prime
  | "flow" => some .flow
  | "tributary" => some .tributary
  | "delta" => some .delta
  | "sediment" => some .sediment
  | "gate" => some .gate
  | "decision" => some .decision
  | "terminal" => some .terminal
  | _ => none

def EdgeType.toStr : EdgeType → String
  | .laminar => "laminar"
  | .turbulent => "turbulent"
  | .dredging => "dredging"
  | .permeable => "permeable"
  | .decomposes => "decomposes"
  | .depends => "depends"

def EdgeType.fromStr : String → Option EdgeType
  | "laminar" => some .laminar
  | "turbulent" => some .turbulent
  | "dredging" => some .dredging
  | "permeable" => some .permeable
  | "decomposes" => some .decomposes
  | "depends" => some .depends
  | _ => none

def Stage.toStr : Stage → String
  | .intake => "intake"
  | .research => "research"
  | .planning => "planning"
  | .execution => "execution"
  | .verification => "verification"
  | .finalization => "finalization"
  | .complete => "complete"
  | .escalated => "escalated"

/-- `Node.from_dict` wraps `Stage(value)` in try/except and falls back to
`Stage.EXECUTION` on any error, so the string decoding is total. -/
def Stage.fromStrOrDefault : String → Stage
  | "intake" => .intake
  | "research" => .research
  | "planning" => .planning
  | "execution" => .execution
  | "verification" => .verification
  | "finalization" => .finalization
  | "complete" => .complete
  | "escalated" => .escalated
  | _ => .execution

def RelationType.toStr : RelationType → String
  | .informs => "informs"
  | .grounds => "grounds"
  | .enables => "enables"
  | .blocks => "blocks"
  | .correlates => "correlates"
  | .indicates => "indicates"

def RelationType.fromStr : String → Option RelationType
  | "informs" => some .informs
  | "grounds" => some .grounds
  | "enables" => some .enables
  | "blocks" => some .blocks
  | "correlates" => some .correlates
  | "indicates" => some .indicates
  | _ => none

/-- `graph.py::MemoryOperation`: per-node memory configuration.  `dredge`
entries are opaque query dicts. -/
structure MemoryOperation where
  dredge : List Value := []
  write : Bool := false
  source : Option String := none
  require_triplets : Bool := false
  conflict_action : String := "flag"

/-- `graph.py::ParallelConfig`. -/
structure ParallelConfig where
  spawn : Bool := false
  max_concurrent : Int := 3
  strategy : String := "all"
  wait_for_all : Bool := true
deriving DecidableEq, Repr

/-- `graph.py::GateConfig`: criteria are (name, check-expression) pairs;
the check expression string is modelled by its `PyExpr` AST. -/
structure GateConfig where
  criteria : List (String × PyExpr) := []
  on_pass : String := ""
  on_fail : String := ""
  max_retries : Int := 3

/-- `graph.py::DecisionConfig`: rules are kept as raw dicts (as in the
source, which stores `List[Dict[str, str]]` and reads `condition` /
`target` keys at execution time).  `variable_` models the Python field
`variable`, which is a reserved word in Lean. -/
structure DecisionConfig where
  variable_ : String := ""
  rules : List (List (String × Value)) := []
  precondition : Option PyExpr := none
  description : String := ""

/-- `graph.py::DependencyConfig`. -/
structure DependencyConfig where
  required_nodes : List String := []
  require_all : Bool := true
  required_state : List (String × Value) := []

/-- `graph.py::DecompositionConfig`. -/
structure DecompositionConfig where
  parent_id : String := ""
  decomposition_type : String := "sequential"
  max_children : Int := 4
  require_all_children : Bool := true
deriving DecidableEq, Repr

/-- `graph.py::OutputSchema`. -/
structure OutputSchema where
  type : String := "object"
  required : List String := []
  properties : List (String × Value) := []

/-- `graph.py::StateWrite`. -/
structure StateWrite where
  path : String
  from_ : String
  transform : Option String := none
deriving DecidableEq, Repr

/-- `graph.py::Node`.  The `version`/`updated_at` metadata fields are not
read by any engine operation and are omitted from the model. -/
structure Node where
  id : String
  type : NodeType
  stage : Stage
  purpose : String
  prompt : String := ""
  output_schema : Option OutputSchema := none
  skill_name : Option String := none
  skill_config : List (String × Value) := []
  state_writes : List StateWrite := []
  memory : MemoryOperation := {}
  parallel : ParallelConfig := {}
  gate : Option GateConfig := none
  decision : Option DecisionConfig := none
  on_reach : List (List (String × Value)) := []

/-- `graph.py::EdgeAction`. -/
structure EdgeAction where
  action : String
  parameters : List (String × Value) := []

/-- `graph.py::Edge`. -/
structure Edge where
  id : String
  from_node : String
  to_node : String
  type : EdgeType
  guard : Guard
  priority : Int := 1
  max_retries : Option Int := none
  dependency : Option DependencyConfig := none
  decomposition : Option DecompositionConfig := none
  on_traverse : List EdgeAction := []
  success_count : Int := 0
  failure_count : Int := 0
  weight : Rat := 1

/-- `graph.py::Relationship`.  `created_at`/`updated_at` timestamps are
omitted from the model. -/
structure Relationship where
  id : String
  from_concept : String
  to_concept : String
  type : RelationType
  weight : Rat := 1
  observations : List String := []

/-- `graph.py::Relationship.update_weight`: add the delta, clamped to
[0, 2], and append the observation. -/
def Relationship.update_weight (r : Relationship) (delta : Rat) (observation : String) : Relationship :=
  { r with
    weight := max 0 (min 2 (r.weight + delta)),
    observations := r.observations ++ [observation] }

/-- `graph.py::Graph`: nodes keyed by id (insertion-ordered dict,
modelled as an association list), an edge list and relationships. -/
structure Graph where
  name : String := ""
  version : String := "1.0.0"
  start_node : String := ""
  terminal_nodes : List String := []
  nodes : List (String × Node) := []
  edges : List Edge := []
  relationships : List Relationship := []

/-- Dict lookup in the node map. -/
def Graph.getNode (g : Graph) (node_id : String) : Option Node :=
  match g.nodes.find? (fun p => p.1 = node_id) with
  | some (_, n) => some n
  | none => none

/-- Dict key membership in the node map. -/
def Graph.hasNode (g : Graph) (node_id : String) : Bool :=
  g.nodes.any (fun p => p.1 = node_id)

/-- `Graph.get_outgoing_edges`: the edges leaving a node (or with the
wildcard source), sorted ascending by priority; Python `sorted` is
stable, as is `List.mergeSort`. -/
def Graph.get_outgoing_edges (g : Graph) (node_id : String) : List Edge :=
  (g.edges.filter (fun e => e.from_node = node_id || e.from_node = "*")).mergeSort
    (fun a b => a.priority ≤ b.priority)

/-- `Graph.validate`: collect the complete list of structural violations.
Error strings follow the source messages (without the quote characters).
The final check iterates the node ids in insertion order rather than
Python's unordered set difference; only the multiset of errors is
specified. -/
def Graph.validate (g : Graph) : List String :=
  (if !g.hasNode g.start_node then
    ["Start node " ++ g.start_node ++ " not found in nodes"]
   else []) ++
  (g.terminal_nodes.filterMap (fun term =>
    if !g.hasNode term then
      some ("Terminal node " ++ term ++ " not found in nodes")
    else none)) ++
  (g.edges.flatMap (fun e =>
    (if e.from_node != "*" && !g.hasNode e.from_node then
      ["Edge " ++ e.id ++ " references unknown from_node " ++ e.from_node]
     else []) ++
    (if !g.hasNode e.to_node then
      ["Edge " ++ e.id ++ " references unknown to_node " ++ e.to_node]
     else []))) ++
  (g.edges.filterMap (fun e =>
    if e.type == EdgeType.turbulent && e.max_retries.isNone then
      some ("Turbulent edge " ++ e.id ++ " missing max_retries")
    else none)) ++
  ((g.nodes.map Prod.fst).filterMap (fun node_id =>
    if !g.terminal_nodes.contains node_id && (g.get_outgoing_edges node_id).isEmpty then
      some ("Node " ++ node_id ++ " has no outgoing edges")
    else none))

/-- `Graph.update_edge_stats`: bump the success or failure counter of the
first edge with the given id. -/
def Graph.update_edge_stats (g : Graph) (edge_id : String) (success : Bool) : Graph :=
  { g with edges := updateFirst g.edges }
where
  updateFirst : List Edge → List Edge
    | [] => []
    | e :: rest =>
      if e.id = edge_id then
        (if success then { e with success_count := e.success_count + 1 }
         else { e with failure_count := e.failure_count + 1 }) :: rest
      else e :: updateFirst rest

/-- The relationship scan of `Graph.update_relationship_weight`: update
the first matching relationship via `update_weight`, or append a new one
with weight `1.0 + delta` (the fresh uuid is modelled by a fixed
placeholder id, which no property here depends on). -/
def updateRelationshipList (from_concept to_concept : String) (delta : Rat)
    (observation : String) : List Relationship → List Relationship
  | [] =>
    [{ id := "new-relationship",
       from_concept := from_concept,
       to_concept := to_concept,
       type := RelationType.correlates,
       weight := 1 + delta,
       observations := [observation] }]
  | r :: rest =>
    if r.from_concept = from_concept ∧ r.to_concept = to_concept then
      r.update_weight delta observation :: rest
    else r :: updateRelationshipList from_concept to_concept delta observation rest

/-- `graph.py::Graph.update_relationship_weight`. -/
def Graph.update_relationship_weight
    (g : Graph) (from_concept to_concept : String) (delta : Rat)
    (observation : String) : Graph :=
  { g with relationships :=
      updateRelationshipList from_concept to_concept delta observation g.relationships }

/-! ## Run-time state (`src/core/state.py`) -/

/-- Read a string-keyed counter dict (`dict.get(k, 0)`). -/
def getCount : List (String × Nat) → String → Nat
  | [], _ => 0
  | (k, n) :: rest, key => if k = key then n else getCount rest key

/-- Increment a string-keyed counter dict entry (dict assignment:
replace in place or append). -/
def bumpCount : List (String × Nat) → String → List (String × Nat)
  | [], key => [(key, 1)]
  | (k, n) :: rest, key =>
    if k = key then (k, n + 1) :: rest else (k, n) :: bumpCount rest key

/-- `state.py::Counters`. -/
structure Counters where
  total_steps : Nat := 0
  node_visits : List (String × Nat) := []
  retries : List (String × Nat) := []
  total_retries : Nat := 0
  memory_writes : Nat := 0
  parallel_tasks_spawned : Nat := 0
  parallel_tasks_completed : Nat := 0
  skills_invoked : Nat := 0

/-- `Counters.visit_node`: bump the step counter and the node's visit
count. -/
def Counters.visit_node (c : Counters) (node_id : String) : Counters :=
  { c with
    total_steps := c.total_steps + 1,
    node_visits := bumpCount c.node_visits node_id }

/-- `Counters.add_retry`. -/
def Counters.add_retry (c : Counters) (edge_id : String) : Counters :=
  { c with
    retries := bumpCount c.retries edge_id,
    total_retries := c.total_retries + 1 }

/-- `Counters.get_retries`. -/
def Counters.get_retries (c : Counters) (edge_id : String) : Nat :=
  getCount c.retries edge_id

/-- `Counters.to_dict` rendered as a context value. -/
def Counters.toValue (c : Counters) : Value :=
  .obj [
    ("total_steps", .num c.total_steps),
    ("node_visits", .obj (c.node_visits.map (fun p => (p.1, Value.num p.2)))),
    ("retries", .obj (c.retries.map (fun p => (p.1, Value.num p.2)))),
    ("total_retries", .num c.total_retries),
    ("memory_writes", .num c.memory_writes),
    ("parallel_tasks_spawned", .num c.parallel_tasks_spawned),
    ("parallel_tasks_completed", .num c.parallel_tasks_completed),
    ("skills_invoked", .num c.skills_invoked)]

/-- One entry of `LearningSignals.successes` (timestamp omitted). -/
structure SuccessSignal where
  node_id : String
  edge_id : String
  details : Value := .obj []

/-- One entry of `LearningSignals.failures` (timestamp omitted). -/
structure FailureSignal where
  node_id : String
  reason : String
  details : Value := .obj []

/-- One entry of `LearningSignals.improvements` (timestamp omitted). -/
structure ImprovementSignal where
  suggestion : String
  context : Value := .obj []

/-- One entry of `LearningSignals.observations` (timestamp omitted). -/
structure ObservationSignal where
  observation : String
  data : Value := .obj []

/-- `state.py::LearningSignals`. -/
structure LearningSignals where
  successes : List SuccessSignal := []
  failures : List FailureSignal := []
  improvements : List ImprovementSignal := []
  observations : List ObservationSignal := []

def LearningSignals.record_success (s : LearningSignals) (node_id edge_id : String)
    (details : Value := .obj []) : LearningSignals :=
  { s with successes := s.successes ++ [{ node_id, edge_id, details }] }

def LearningSignals.record_failure (s : LearningSignals) (node_id reason : String)
    (details : Value := .obj []) : LearningSignals :=
  { s with failures := s.failures ++ [{ node_id, reason, details }] }

def LearningSignals.record_improvement (s : LearningSignals) (suggestion : String)
    (context : Value := .obj []) : LearningSignals :=
  { s with improvements := s.improvements ++ [{ suggestion, context }] }

def LearningSignals.record_observation (s : LearningSignals) (observation : String)
    (data : Value := .obj []) : LearningSignals :=
  { s with observations := s.observations ++ [{ observation, data }] }

/-- `state.py::ParallelTask` (timestamps omitted). -/
structure ParallelTask where
  task_id : String
  skill : String
  instruction : String
  status : String := "pending"
  result : Option Value := none
  error : Option String := none

/-- `state.py::ParallelState`. -/
structure ParallelState where
  active_tasks : List ParallelTask := []
  completed_tasks : List ParallelTask := []
  failed_tasks : List ParallelTask := []

def ParallelState.spawn_task (p : ParallelState) (task_id skill instruction : String) :
    ParallelState :=
  { p with active_tasks := p.active_tasks ++
      [{ task_id, skill, instruction, status := "pending" }] }

def ParallelState.start_task (p : ParallelState) (task_id : String) : ParallelState :=
  { p with active_tasks := go p.active_tasks }
where
  go : List ParallelTask → List ParallelTask
    | [] => []
    | t :: rest =>
      if t.task_id = task_id then { t with status := "running" } :: rest
      else t :: go rest

/-- `ParallelState.complete_task`: move the first matching active task to
the completed list with its result. -/
def ParallelState.complete_task (p : ParallelState) (task_id : String) (result : Value) :
    ParallelState :=
  go p.active_tasks []
where
  go : List ParallelTask → List ParallelTask → ParallelState
    | [], acc => { p with active_tasks := acc.reverse }
    | t :: rest, acc =>
      if t.task_id = task_id then
        let t' := { t with status := "completed", result := some result }
        { p with
          active_tasks := acc.reverse ++ rest,
          completed_tasks := p.completed_tasks ++ [t'] }
      else go rest (t :: acc)

/-- `ParallelState.fail_task`: move the first matching active task to the
failed list with its error. -/
def ParallelState.fail_task (p : ParallelState) (task_id error : String) : ParallelState :=
  go p.active_tasks []
where
  go : List ParallelTask → List ParallelTask → ParallelState
    | [], acc => { p with active_tasks := acc.reverse }
    | t :: rest, acc =>
      if t.task_id = task_id then
        let t' := { t with status := "failed", error := some error }
        { p with
          active_tasks := acc.reverse ++ rest,
          failed_tasks := p.failed_tasks ++ [t'] }
      else go rest (t :: acc)

/-- `state.py::AuditEvent` (timestamp omitted). -/
structure AuditEvent where
  node_id : String
  stage : String
  action : String
  summary : String
  signals : Value := .obj []
  details : Value := .obj []

/-- `state.py::State`: the complete runtime state of one run.
`current_node` is `Optional[str]` in the source but is always assigned
the start node before the loop runs; it is modelled as a plain string. -/
structure State where
  brain_id : String := ""
  run_id : String := ""
  current_node : String := ""
  stage : Stage := .intake
  user_request : String := ""
  data : Value := .obj []
  counters : Counters := {}
  parallel : ParallelState := {}
  audit : List AuditEvent := []
  signals : LearningSignals := {}
  brain : Value := .obj []

/-- `State.get` (returning `none` for the Python `None` default). -/
def State.get (s : State) (path : String) : Option Value :=
  getPath s.data path

/-- `State.set`.  On the non-dict-intermediate path the source raises
`TypeError`; here the data is left unchanged (no property proved in this
file exercises that path). -/
def State.set (s : State) (path : String) (v : Value) : State :=
  { s with data := (setPath s.data path v).getD s.data }

/-- `State.apply_patch`. -/
def State.apply_patch (s : State) (patch : Value) : State :=
  { s with data := applyPatchData s.data patch }

/-- `State.add_audit`. -/
def State.add_audit (s : State) (node_id action summary : String)
    (signals : Value := .obj []) (details : Value := .obj []) : State :=
  { s with audit := s.audit ++
      [{ node_id, stage := s.stage.toStr, action, summary, signals, details }] }

/-- `State.to_context`. -/
def State.to_context (s : State) : Value :=
  .obj [
    ("brain_id", .str s.brain_id),
    ("run_id", .str s.run_id),
    ("current_node", .str s.current_node),
    ("stage", .str s.stage.toStr),
    ("user_request", .str s.user_request),
    ("data", s.data),
    ("counters", s.counters.toValue),
    ("brain", s.brain)]

/-! ## Memory store (`src/core/memory.py`) -/

/-- `memory.py::Triplet`. -/
structure Triplet where
  subject : String
  predicate : String
  object : String
deriving DecidableEq, Repr

/-- `memory.py::Provenance` (timestamp omitted). -/
structure Provenance where
  source : String
  kind : String
  confidence : Rat := 1
  run_id : Option String := none
  node_id : Option String := none
  note : Option String := none

/-- `memory.py::Fact` (named `MemFact` here because Mathlib already
declares a `Fact` type class). -/
structure MemFact where
  fact_id : String
  text : String
  confidence : Rat := 1
  kind : String := "fact"
  provenance : List Provenance := []
  triplets : List Triplet := []
  tags : List String := []
  metadata : List (String × Value) := []

/-- `memory.py::MemoryRecord`.  Record ids (`uuid4` in the source) are
modelled as naturals generated from the store's freshness counter;
timestamps are naturals. -/
structure MemoryRecord where
  record_id : Nat
  fact : MemFact
  valid_from : Nat
  valid_to : Option Nat := none
  run_id : Option String := none
  node_id : Option String := none
  supersedes : Option Nat := none

/-- `MemoryRecord.is_valid`: valid at `now` when `now` is not before
`valid_from` and not after `valid_to` (when a `valid_to` is set). -/
def MemoryRecord.is_valid (r : MemoryRecord) (now : Nat) : Bool :=
  if now < r.valid_from then false
  else match r.valid_to with
    | some t => !(t < now)
    | none => true

/-- `memory.py::MemoryStore` in-memory representation: the append-only
record list, the (subject, predicate) → record-ids index, and the
fresh-id counter modelling `uuid4`. -/
structure MemoryStore where
  records : List MemoryRecord := []
  triplet_index : List ((String × String) × List Nat) := []
  next_id : Nat := 0

/-- Append a record id under a (subject, predicate) index key. -/
def indexInsert : List ((String × String) × List Nat) → String × String → Nat →
    List ((String × String) × List Nat)
  | [], key, rid => [(key, [rid])]
  | (k, rids) :: rest, key, rid =>
    if k = key then (k, rids ++ [rid]) :: rest
    else (k, rids) :: indexInsert rest key rid

/-- Look up an index key. -/
def indexFind : List ((String × String) × List Nat) → String × String → Option (List Nat)
  | [], _ => none
  | (k, rids) :: rest, key => if k = key then some rids else indexFind rest key

/-- `MemoryStore._index_record`: index every triplet of the record's
fact. -/
def MemoryStore.index_record (m : MemoryStore) (r : MemoryRecord) : MemoryStore :=
  { m with
    triplet_index := r.fact.triplets.foldl
      (fun idx t => indexInsert idx (t.subject, t.predicate) r.record_id)
      m.triplet_index }

/-- `MemoryStore._get_record`: first record with the given id. -/
def MemoryStore.get_record (m : MemoryStore) (rid : Nat) : Option MemoryRecord :=
  m.records.find? (fun r => r.record_id = rid)

/-- `MemoryStore.check_triplet_conflicts`: for each triplet of the new
fact, every currently-valid indexed record holding a triplet with the
same subject and predicate but a different object contributes one
conflict message. -/
def MemoryStore.check_triplet_conflicts (m : MemoryStore) (fact : MemFact) (now : Nat) :
    List String :=
  fact.triplets.flatMap (fun t =>
    match indexFind m.triplet_index (t.subject, t.predicate) with
    | none => []
    | some rids =>
      rids.flatMap (fun rid =>
        match m.get_record rid with
        | some r =>
          if r.is_valid now then
            r.fact.triplets.filterMap (fun ex =>
              if ex.subject = t.subject ∧ ex.predicate = t.predicate ∧
                  ex.object ≠ t.object then
                some ("Conflict: (" ++ t.subject ++ ", " ++ t.predicate ++
                  "): existing=" ++ ex.object ++ " vs new=" ++ t.object)
              else none)
          else []
        | none => []))

/-- Create one durable record for a fact (the record-construction and
bookkeeping block of `MemoryStore.write`): a fresh id from the freshness
counter, validity from `now`, appended to the record list and indexed. -/
def writeOne (m : MemoryStore) (fact : MemFact) (run_id node_id : String) (now : Nat) :
    MemoryStore × Nat :=
  let record : MemoryRecord :=
    { record_id := m.next_id,
      fact := fact,
      valid_from := now,
      run_id := some run_id,
      node_id := some node_id }
  (MemoryStore.index_record
    { m with records := m.records ++ [record], next_id := m.next_id + 1 } record,
   record.record_id)

/-- The body of the `MemoryStore.write` loop over the fact list,
accumulating written record ids and conflict messages. -/
def writeLoop (run_id node_id : String) (check_conflicts : Bool) (now : Nat) :
    MemoryStore → List MemFact → List Nat → List String →
    MemoryStore × List Nat × List String
  | m, [], written, conflicts => (m, written, conflicts)
  | m, fact :: rest, written, conflicts =>
    if check_conflicts ∧ !fact.triplets.isEmpty ∧
        !(m.check_triplet_conflicts fact now).isEmpty then
      writeLoop run_id node_id check_conflicts now m rest written
        (conflicts ++ m.check_triplet_conflicts fact now)
    else
      let (m', rid) := writeOne m fact run_id node_id now
      writeLoop run_id node_id check_conflicts now m' rest
        (written ++ [rid]) conflicts

/-- `MemoryStore.write`: append one durable record per fact, skipping any
fact whose triplets conflict with currently valid records when conflict
checking is enabled; returns the store plus (written ids, conflicts). -/
def MemoryStore.write (m : MemoryStore) (facts : List MemFact) (run_id node_id : String)
    (check_conflicts : Bool) (now : Nat) : MemoryStore × List Nat × List String :=
  writeLoop run_id node_id check_conflicts now m facts [] []

/-- The record scan of `MemoryStore.invalidate`: close the validity
window of the first currently-valid record with the given id; `none`
when no such record exists. -/
def invalidateScan (rid : Nat) (now : Nat) : List MemoryRecord → Option (List MemoryRecord)
  | [] => none
  | r :: rest =>
    if r.record_id = rid ∧ r.is_valid now then
      some ({ r with valid_to := some now } :: rest)
    else
      match invalidateScan rid now rest with
      | some rest' => some (r :: rest')
      | none => none

/-- `MemoryStore.invalidate`: returns `true` and the updated store when a
currently-valid record with the id was found, else `false` and the store
unchanged. -/
def MemoryStore.invalidate (m : MemoryStore) (rid : Nat) (now : Nat) :
    Bool × MemoryStore :=
  match invalidateScan rid now m.records with
  | some records' => (true, { m with records := records' })
  | none => (false, m)

/-- Well-formedness of the in-memory store, maintained by `load` and
`write`: the triplet index covers every triplet of every record, record
ids are below the freshness counter, and record ids are pairwise
distinct (`uuid4` freshness). -/
def storeWF (m : MemoryStore) : Prop :=
  (∀ r ∈ m.records, ∀ t ∈ r.fact.triplets,
    ∃ rids, indexFind m.triplet_index (t.subject, t.predicate) = some rids ∧
      r.record_id ∈ rids) ∧
  (∀ r ∈ m.records, r.record_id < m.next_id) ∧
  (m.records.map MemoryRecord.record_id).Nodup

/-- The no-contradiction property of C3: no two distinct currently-valid
records hold triplets that share subject and predicate but disagree on
object. -/
def noContradiction (m : MemoryStore) (now : Nat) : Prop :=
  ∀ r1 ∈ m.records, ∀ r2 ∈ m.records, r1.record_id ≠ r2.record_id →
    r1.is_valid now = true → r2.is_valid now = true →
    ∀ t1 ∈ r1.fact.triplets, ∀ t2 ∈ r2.fact.triplets,
      t1.subject = t2.subject → t1.predicate = t2.predicate → t1.object = t2.object

/-! ## Decision-rule condition mini-language (`controller.py::_execute_decision`) -/

/-- Digits of a decimal numeral to a natural number. -/
def digitsToNat? (l : List Char) : Option Nat :=
  if l.isEmpty ∨ !l.all Char.isDigit then none
  else some (l.foldl (fun acc c => acc * 10 + (c.toNat - 48)) 0)

/-- Parse a decimal literal ("0.8", "-1.5", "12") to an exact rational. -/
def parseRat (s : String) : Option Rat :=
  let (neg, body) :=
    if strStartsWith s "-" then (true, (s.drop 1).data) else (false, s.data)
  let q : Option Rat :=
    match body.splitOn '.' with
    | [ip] => (digitsToNat? ip).map (fun n => mkRat n 1)
    | [ip, fp] => do
      let n ← digitsToNat? ip
      let f ← digitsToNat? fp
      pure (mkRat (n * 10 ^ fp.length + f) (10 ^ fp.length))
    | _ => none
  q.map (fun r => if neg then -r else r)

/-- Parse the right-hand-side literal of a condition string: `True`,
`False`, `None`, a quoted string, or a decimal numeral. -/
def parseLiteral (s : String) : Option Value :=
  if s = "True" then some (.bool true)
  else if s = "False" then some (.bool false)
  else if s = "None" then some .null
  else if s.length ≥ 2 ∧ strStartsWith s "\x27" ∧ strEndsWith s "\x27" then
    some (.str ((s.drop 1).dropRight 1))
  else if s.length ≥ 2 ∧ strStartsWith s "\"" ∧ strEndsWith s "\"" then
    some (.str ((s.drop 1).dropRight 1))
  else (parseRat s).map Value.num

/-- Evaluate one decision-rule condition string against the variable
value, as `eval("value " ++ condition, ..., {"value": value})` does in
`_execute_decision`.  The comparison fragment of the condition
mini-language is modelled exactly; conditions outside it (membership
tests, arbitrary `$value` expressions) yield `.error`, taking the same
skip-on-error path as a Python evaluation error. -/
def evalCondition (condition : String) (value : Value) : Except String Bool :=
  if strStartsWith condition ">=" then cmpLit .ge (condition.drop 2)
  else if strStartsWith condition "<=" then cmpLit .le (condition.drop 2)
  else if strStartsWith condition "==" then
    eqLit (condition.drop 2) (fun b => b)
  else if strStartsWith condition "!=" then
    eqLit (condition.drop 2) (fun b => !b)
  else if strStartsWith condition ">" then cmpLit .gt (condition.drop 1)
  else if strStartsWith condition "<" then cmpLit .lt (condition.drop 1)
  else if strStartsWith condition "is " then
    let rhs := strTrim (condition.drop 3)
    if rhs = "None" then .ok (value == Value.null)
    else .error "unmodelled identity test"
  else .error "unmodelled condition expression"
where
  cmpLit (op : CmpOp) (rest : String) : Except String Bool :=
    match parseLiteral (strTrim rest) with
    | some lit => compareVals op value lit
    | none => .error "SyntaxError: bad literal"
  eqLit (rest : String) (f : Bool → Bool) : Except String Bool :=
    match parseLiteral (strTrim rest) with
    | some lit => .ok (f (value == lit))
    | none => .error "SyntaxError: bad literal"

/-! ## Controller (`src/core/controller.py`) -/

/-- `controller.py::RunOutcome`. -/
inductive RunOutcome where
  | success | failure | escalated | max_steps | error
deriving DecidableEq, Repr

/-- `controller.py::NodeResult`.  `signals` is the result's signal dict. -/
structure NodeResult where
  success : Bool
  output : Value := .obj []
  state_patch : Value := .obj []
  parallel_tasks : List Value := []
  memory_writes : List MemFact := []
  signals : List (String × Value) := []
  error : Option String := none

/-- The two externally supplied capabilities (`LLMClient.complete` and
`SkillExecutor.execute`); `.error` models an exception raised by the
capability.  `skill_execute = none` models an absent skill executor. -/
structure Capabilities where
  llm_complete : String → Option Value → Except String Value
  skill_execute : Option (String → String → Value → List (String × Value) →
    Except String Value) := none

/-- `memory.py::Triplet.from_dict`. -/
def Triplet.from_dict (v : Value) : Triplet :=
  match v with
  | .obj fields =>
    { subject := strOr (lookupField fields "subject") "",
      predicate := strOr (lookupField fields "predicate") "",
      object := strOr (lookupField fields "object") "" }
  | _ => { subject := "", predicate := "", object := "" }
where
  strOr : Option Value → String → String
    | some (.str s), _ => s
    | _, d => d

/-- `memory.py::Provenance.from_dict` (timestamp omitted). -/
def Provenance.from_dict (v : Value) : Provenance :=
  match v with
  | .obj fields =>
    { source := strOr (lookupField fields "source") "unknown",
      kind := strOr (lookupField fields "kind") "unknown",
      confidence := numOr (lookupField fields "confidence") 1,
      run_id := strOpt (lookupField fields "run_id"),
      node_id := strOpt (lookupField fields "node_id"),
      note := strOpt (lookupField fields "note") }
  | _ => { source := "unknown", kind := "unknown" }
where
  strOr : Option Value → String → String
    | some (.str s), _ => s
    | _, d => d
  numOr : Option Value → Rat → Rat
    | some (.num q), _ => q
    | _, d => d
  strOpt : Option Value → Option String
    | some (.str s) => some s
    | _ => none

/-- `memory.py::Fact.from_dict`.  The fresh uuid used when `fact_id` is
absent is modelled by a placeholder. -/
def MemFact.from_dict (v : Value) : MemFact :=
  match v with
  | .obj fields =>
    { fact_id := strOr (lookupField fields "fact_id") "generated-fact-id",
      text := strOr (lookupField fields "text") "",
      confidence := numOr (lookupField fields "confidence") 1,
      kind := strOr (lookupField fields "kind") "fact",
      provenance := listOf (lookupField fields "provenance") Provenance.from_dict,
      triplets := listOf (lookupField fields "triplets") Triplet.from_dict,
      tags := strList (lookupField fields "tags"),
      metadata := objOr (lookupField fields "metadata") }
  | _ => { fact_id := "generated-fact-id", text := "" }
where
  strOr : Option Value → String → String
    | some (.str s), _ => s
    | _, d => d
  numOr : Option Value → Rat → Rat
    | some (.num q), _ => q
    | _, d => d
  listOf {α : Type} : Option Value → (Value → α) → List α
    | some (.arr l), f => l.map f
    | _, _ => []
  strList : Option Value → List String
    | some (.arr l) => l.filterMap (fun x => match x with | .str s => some s | _ => none)
    | _ => []
  objOr : Option Value → List (String × Value)
    | some (.obj l) => l
    | _ => []

/-- `controller.py::BrainController._render_template`.  The `{{path}}`
substitution produces a prompt string whose content no verified property
depends on (the completion capability is an arbitrary function of the
prompt); the template text is passed through unchanged. -/
def renderTemplate (template : String) (_state : State) : String :=
  template

/-- `controller.py::BrainController._extract_state_patch`: copy values
found at each state-write's `output.<path>` into the patch at the write's
target path, then update with any direct `state_patch` object in the
output.  The source raises `TypeError` when a patch path runs through a
non-dict; as with `State.set` this path is modelled as a skip and is not
exercised by any property proved here. -/
def extractStatePatch (node : Node) (llm_output : Value) : Value :=
  let base := node.state_writes.foldl (fun patch write =>
    let from_path :=
      if strStartsWith write.from_ "output." then write.from_.drop 7 else write.from_
    match getPath llm_output from_path with
    | some v =>
      if v == Value.null then patch
      else (setPath patch write.path v).getD patch
    | none => patch) (Value.obj [])
  match base, llm_output with
  | .obj fields, .obj outFields =>
    match lookupField outFields "state_patch" with
    | some (.obj patchFields) =>
      .obj (patchFields.foldl (fun acc p => setField acc p.1 p.2) fields)
    | _ => .obj fields
  | _, _ => base

/-- `controller.py::BrainController._execute_prime`.  Memory dredging
only affects the rendered prompt and is subsumed by quantifying over the
completion capability. -/
def executePrime (caps : Capabilities) (node : Node) (s : State) :
    Except String NodeResult := do
  let prompt := renderTemplate node.prompt s
  let llm_output ← caps.llm_complete prompt (node.output_schema.map (fun _ => .obj []))
  let conf := match llm_output with
    | .obj fields => (lookupField fields "confidence").getD (.num 1)
    | _ => .num 1
  pure {
    success := true,
    output := llm_output,
    state_patch := extractStatePatch node llm_output,
    signals := [("summary", .str "Initialized riverbed schema"), ("confidence", conf)] }

/-- `controller.py::BrainController._execute_flow`. -/
def executeFlow (caps : Capabilities) (node : Node) (s : State) :
    Except String NodeResult := do
  let prompt := renderTemplate node.prompt s
  let llm_output ← caps.llm_complete prompt (node.output_schema.map (fun _ => .obj []))
  let fields := match llm_output with
    | .obj fields => fields
    | _ => []
  let parallel_tasks := match lookupField fields "parallel_tasks" with
    | some (.arr l) => l
    | _ => []
  let memory_writes :=
    if node.memory.write then
      match lookupField fields "facts" with
      | some (.arr l) => l.map MemFact.from_dict
      | _ => []
    else []
  let conf := (lookupField fields "confidence").getD (.num (mkRat 4 5))
  pure {
    success := true,
    output := llm_output,
    state_patch := extractStatePatch node llm_output,
    parallel_tasks := parallel_tasks,
    memory_writes := memory_writes,
    signals := [("summary", .str "FLOW step completed"), ("confidence", conf)] }

/-- `controller.py::BrainController._execute_tributary`: skill failures
are caught and reported as a failed `NodeResult`, never raised. -/
def executeTributary (caps : Capabilities) (node : Node) (s : State) :
    NodeResult × State :=
  match caps.skill_execute with
  | none => ({ success := false, error := some "No skill executor configured" }, s)
  | some exec =>
    match node.skill_name with
    | none => ({ success := false, error := some "Tributary node missing skill_name" }, s)
    | some skill_name =>
      match exec skill_name node.prompt s.to_context node.skill_config with
      | .error e =>
        ({ success := false, error := some e,
           signals := [("summary", .str ("Skill " ++ skill_name ++ " failed: " ++ e))] }, s)
      | .ok result =>
        let s := { s with counters :=
          { s.counters with skills_invoked := s.counters.skills_invoked + 1 } }
        let fields := match result with
          | .obj fields => fields
          | _ => []
        let memory_writes := match lookupField fields "facts" with
          | some (.arr l) => l.map MemFact.from_dict
          | _ => []
        let patch := (lookupField fields "state_patch").getD (.obj [])
        (({ success := true,
            output := result,
            state_patch := patch,
            memory_writes := memory_writes,
            signals := [("summary", .str ("Skill " ++ skill_name ++ " executed"))] }
          : NodeResult), s)

/-- `controller.py::BrainController._execute_delta`: merge completed
parallel task results into a state patch. -/
def executeDelta (_node : Node) (s : State) : NodeResult :=
  let completed := s.parallel.completed_tasks
  let failed := s.parallel.failed_tasks
  let merged_results := completed.filterMap (fun task =>
    match task.result with
    | some r =>
      if r.truthy then
        some (Value.obj [
          ("task_id", .str task.task_id),
          ("skill", .str task.skill),
          ("result", r)])
      else none
    | none => none)
  { success := true,
    output := .obj [("merged", .arr merged_results)],
    state_patch := .obj [
      ("merged_results", .arr merged_results),
      ("parallel_complete", .bool true),
      ("parallel_success_count", .num completed.length),
      ("parallel_failure_count", .num failed.length)],
    signals := [("summary", .str ("Merged " ++ toString completed.length ++ " parallel results"))] }

/-- `controller.py::BrainController._execute_sediment`: write the facts
found at the configured working-tree path to the memory store.  Entries
that are Python `Fact` objects rather than dicts cannot occur in the
`Value` data model; the dict branch is modelled. -/
def executeSediment (node : Node) (s : State) (mem : MemoryStore) (now : Nat) :
    NodeResult × State × MemoryStore :=
  let facts_path := node.memory.source.getD "pending_facts"
  let facts_data := match s.get facts_path with
    | some (.arr l) => l
    | _ => []
  let facts := facts_data.filterMap (fun fd =>
    match fd with
    | .obj _ => some (MemFact.from_dict fd)
    | _ => none)
  if facts.isEmpty then
    ({ success := true,
       state_patch := .obj [("sediment_written", .num 0)],
       signals := [("summary", .str "No facts to write")] }, s, mem)
  else
    let (mem', written, conflicts) :=
      mem.write facts s.run_id node.id node.memory.require_triplets now
    let s := { s with counters :=
      { s.counters with memory_writes := s.counters.memory_writes + written.length } }
    let basePatch : List (String × Value) := [
      ("sediment_written", .num written.length),
      ("sediment_conflicts", .arr (conflicts.map Value.str))]
    let (patch, s) :=
      if !conflicts.isEmpty ∧ node.memory.conflict_action = "flag" then
        (basePatch ++ [("memory_conflicts", .arr (conflicts.map Value.str))],
         let conflictData := Value.obj [("conflicts", .arr (conflicts.map Value.str))]
         { s with signals := s.signals.record_observation "Memory conflict detected" conflictData })
      else (basePatch, s)
    (({ success := true,
        state_patch := .obj patch,
        signals := [("summary", .str ("SEDIMENT wrote " ++ toString written.length ++ " facts"))] }
      : NodeResult), s, mem')

/-- `controller.py::BrainController._execute_gate`: evaluate every
criterion; a criterion that fails to evaluate counts as failed; the gate
passes only if all pass; on failure a failure learning signal is
recorded. -/
def executeGate (node : Node) (s : State) : NodeResult × State :=
  match node.gate with
  | none => ({ success := false, error := some "Gate node missing gate_config" }, s)
  | some gate =>
    let env := buildEvalEnv s.to_context
    let results := gate.criteria.map (fun c =>
      match evalExpr c.2 env with
      | .ok v => Value.obj [("name", .str c.1), ("passed", .bool v.truthy)]
      | .error e => Value.obj [("name", .str c.1), ("passed", .bool false), ("error", .str e)])
    let passed := gate.criteria.all (fun c =>
      match evalExpr c.2 env with
      | .ok v => v.truthy
      | .error _ => false)
    let state_patch := Value.obj [
      ("verification_passed", .bool passed),
      ("gate_results", .arr results),
      ("gates", .obj [(node.id, .obj [
        ("passed", .bool passed),
        ("results", .arr results)])])]
    let s :=
      if passed then s
      else
        let failData := Value.obj [("results", .arr results)]
        { s with signals := s.signals.record_failure node.id "Gate check failed" failData }
    (({ success := true,
        state_patch := state_patch,
        signals := [("summary", .str (if passed then "Gate passed" else "Gate failed")),
                    ("passed", .bool passed)] } : NodeResult), s)

/-- `controller.py::BrainController._get_nested_value`: dot-notation
lookup in the eval environment, `None` (here `Value.null`) when a
component is missing. -/
def getNestedValue (context : Value) (path : String) : Value :=
  (getPath context path).getD Value.null

/-- The rule loop of `_execute_decision`: evaluate the ordered rules
against the variable value; the first rule whose condition is the
literal `default` or evaluates truthy is the match; a rule whose
condition fails to evaluate is skipped and logged as an observation
`(some rule, observations)` or `(none, observations)` on no match. -/
def evalRules (value : Value) :
    List (List (String × Value)) → Option (List (String × Value)) × List ObservationSignal
  | [] => (none, [])
  | rule :: rest =>
    let condition := match lookupField rule "condition" with
      | some (.str c) => c
      | _ => ""
    if condition = "default" then (some rule, [])
    else
      match evalCondition condition value with
      | .ok true => (some rule, [])
      | .ok false => evalRules value rest
      | .error e =>
        let (m, obs) := evalRules value rest
        (m, { observation := "Decision rule evaluation error: " ++ e,
              data := .obj [("rule", .obj rule)] } :: obs)

/-- `controller.py::BrainController._execute_decision`: pure routing.
Checks the precondition (an evaluation error there fails the node, an
unsatisfied precondition short-circuits), then runs the rule loop and
records the matched target in the state patch. -/
def executeDecision (node : Node) (s : State) : NodeResult × State :=
  match node.decision with
  | none => ({ success := false, error := some "Decision node missing decision_config" }, s)
  | some config =>
    let env := buildEvalEnv s.to_context
    let preconditionResult : Except String Bool :=
      match config.precondition with
      | none => .ok true
      | some p =>
        match evalExpr p env with
        | .ok v => .ok v.truthy
        | .error e => .error e
    match preconditionResult with
    | .error e =>
      ({ success := false,
         error := some ("Decision precondition evaluation error: " ++ e) }, s)
    | .ok false =>
      ({ success := true,
         state_patch := .obj [("decision_precondition_failed", .bool true)],
         signals := [("summary", .str "Decision precondition not met"),
                     ("matched_rule", .null)] }, s)
    | .ok true =>
      let variable_value := getNestedValue env config.variable_
      let (matched_rule, observations) := evalRules variable_value config.rules
      let s := { s with signals :=
        { s.signals with observations := s.signals.observations ++ observations } }
      let matched_target := matched_rule.map (fun rule =>
        match lookupField rule "target" with
        | some (.str t) => t
        | _ => "")
      let targetValue := match matched_target with
        | some t => Value.str t
        | none => Value.null
      let ruleValue := match matched_rule with
        | some rule => Value.obj rule
        | none => Value.null
      (({ success := true,
          state_patch := .obj [
            ("decision_variable", .str config.variable_),
            ("decision_value", variable_value),
            ("decision_matched_rule", ruleValue),
            ("decision_target", targetValue)],
          signals := [
            ("summary", .str "Decision evaluated"),
            ("matched_target", targetValue),
            ("matched_rule", ruleValue)] } : NodeResult), s)

/-- `controller.py::BrainController._execute_terminal`: run the
`on_reach` actions (observation signals for `trigger_learning`) and set
the completion flag `done` in the state patch. -/
def executeTerminal (node : Node) (s : State) : NodeResult × State :=
  let s := node.on_reach.foldl (fun s action =>
    if lookupField action "action" == some (.str "trigger_learning") then
      let outcome := (lookupField action "outcome").getD (.str "unknown")
      let obsData := Value.obj [("outcome", outcome)]
      { s with signals :=
          s.signals.record_observation ("Terminal reached: " ++ node.id) obsData }
    else s) s
  (({ success := true,
      state_patch := .obj [("done", .bool true)],
      signals := [("summary", .str ("Reached terminal node: " ++ node.id))] }
    : NodeResult), s)

/-- `controller.py::BrainController._execute_node`: dispatch on the node
kind.  `.error` models an exception escaping the executor (caught by the
run loop's try/except). -/
def executeNode (caps : Capabilities) (node : Node) (s : State) (mem : MemoryStore)
    (now : Nat) : Except String (NodeResult × State × MemoryStore) :=
  match node.type with
  | .prime => do
    let r ← executePrime caps node s
    pure (r, s, mem)
  | .flow => do
    let r ← executeFlow caps node s
    pure (r, s, mem)
  | .tributary =>
    let (r, s') := executeTributary caps node s
    pure (r, s', mem)
  | .delta => pure (executeDelta node s, s, mem)
  | .sediment => pure (executeSediment node s mem now)
  | .gate =>
    let (r, s') := executeGate node s
    pure (r, s', mem)
  | .decision =>
    let (r, s') := executeDecision node s
    pure (r, s', mem)
  | .terminal =>
    let (r, s') := executeTerminal node s
    pure (r, s', mem)

/-- `controller.py::BrainController._execute_edge_action`. -/
def executeEdgeAction (action : EdgeAction) (s : State) : State :=
  if action.action = "analyze_failure" then
    let ctxData := Value.obj [("current_approach", (s.get "approach").getD (.str ""))]
    let msg := "Consider adjusting approach after verification failure"
    { s with signals := s.signals.record_improvement msg ctxData }
  else if action.action = "adjust_approach" then
    s.set "needs_approach_adjustment" (.bool true)
  else if action.action = "ask_user" then
    let questions := (lookupField action.parameters "questions").getD (.arr [])
    s.set "pending_questions" questions
  else s

/-- `controller.py::BrainController._check_dependencies`. -/
def checkDependencies (dep : DependencyConfig) (s : State) : Bool :=
  let completed := s.counters.node_visits.map Prod.fst
  let nodesOk :=
    if dep.require_all then dep.required_nodes.all (fun n => n ∈ completed)
    else dep.required_nodes.any (fun n => n ∈ completed)
  nodesOk && dep.required_state.all (fun p =>
    ((s.get p.1).getD Value.null) == p.2)

/-- `controller.py::BrainController._check_decomposition_ready`.  A
non-list value stored under `task_children` would make the Python `len`
call raise; that unreachable-by-configuration path is modelled as an
empty child list. -/
def checkDecompositionReady (dec : DecompositionConfig) (s : State) : Bool :=
  let parent_status := (s.get ("task_status." ++ dec.parent_id)).getD (.str "pending")
  let statusOk :=
    parent_status == Value.str "ready" || parent_status == Value.str "decomposing" ||
      parent_status == Value.str "pending"
  if !statusOk then false
  else
    let existing_children := match s.get ("task_children." ++ dec.parent_id) with
      | some (.arr l) => l
      | _ => []
    decide ((existing_children.length : Int) < dec.max_children)

/-- Accept an edge during generic selection: run its on-traverse
actions, bump its success statistic and record a success learning
signal (`_choose_next_edge`, acceptance branch). -/
def acceptEdge (node : Node) (e : Edge) (s : State) (g : Graph) :
    Option Edge × State × Graph :=
  let s := e.on_traverse.foldl (fun s a => executeEdgeAction a s) s
  let g := g.update_edge_stats e.id true
  let s := { s with signals := s.signals.record_success node.id e.id }
  (some e, s, g)

/-- The priority-ordered scan of `_choose_next_edge`: skip `DEPENDS_ON`
edges with unmet dependencies and `DECOMPOSES_INTO` edges not ready,
skip edges whose guard is false, and for turbulent edges skip when
`edge.max_retries` is truthy (non-zero) and the recorded retry count has
reached it, else consume one retry; the first surviving edge is
accepted.  The guard context is computed once before the scan, exactly
as in the source. -/
def scanEdges (node : Node) (ctx : Value) :
    Graph → State → List Edge → Option Edge × State × Graph
  | g, s, [] => (none, s, g)
  | g, s, e :: rest =>
    if e.type = EdgeType.depends ∧ e.dependency.isSome ∧
        !(checkDependencies (e.dependency.getD {}) s) then
      scanEdges node ctx g s rest
    else if e.type = EdgeType.decomposes ∧ e.decomposition.isSome ∧
        !(checkDecompositionReady (e.decomposition.getD {}) s) then
      scanEdges node ctx g s rest
    else if e.guard.evaluate ctx then
      if e.type = EdgeType.turbulent then
        let retries := s.counters.get_retries e.id
        let ceilingReached : Bool := match e.max_retries with
          | some r => r ≠ 0 && decide ((retries : Int) ≥ r)
          | none => false
        if ceilingReached then scanEdges node ctx g s rest
        else
          let s := { s with counters := s.counters.add_retry e.id }
          acceptEdge node e s g
      else acceptEdge node e s g
    else scanEdges node ctx g s rest

/-- Find the first outgoing edge whose target equals the recorded
decision target (the Decision fast path of `_choose_next_edge`). -/
def findEdgeTo (edges : List Edge) (target : Value) : Option Edge :=
  edges.find? (fun e => Value.str e.to_node == target)

/-- `controller.py::BrainController._choose_next_edge`.  Returns the
accepted edge (the source returns `edge.to_node`; the accepted edge
determines it) together with the updated state and graph. -/
def chooseNextEdge (g : Graph) (node : Node) (s : State) :
    Option Edge × State × Graph :=
  let ctx := s.to_context
  let outgoing := g.get_outgoing_edges node.id
  let generic := scanEdges node ctx g s outgoing
  if node.type = NodeType.decision ∧ node.decision.isSome then
    match s.get "decision_target" with
    | some dt =>
      if dt.truthy then
        match findEdgeTo outgoing dt with
        | some e =>
          let g := g.update_edge_stats e.id true
          let s := { s with signals := s.signals.record_success node.id e.id }
          (some e, s, g)
        | none => generic
      else generic
    | none => generic
  else generic

/-- `controller.py::BrainController._determine_terminal_outcome`. -/
def determineTerminalOutcome (g : Graph) (node_id : String) : RunOutcome :=
  if node_id = "success" then .success
  else if node_id = "failure" then .failure
  else if node_id = "escalate" then .escalated
  else match g.getNode node_id with
    | some node => fromActions node.on_reach
    | none => .success
where
  fromActions : List (List (String × Value)) → RunOutcome
    | [] => .success
    | action :: rest =>
      if (lookupField action "outcome").getD Value.null == Value.str "success" then
        .success
      else if (lookupField action "outcome").getD Value.null == Value.str "failure" then
        .failure
      else fromActions rest

/-- The shared mutable context of one controller run: the graph, the
memory store, the run state, and a clock supplying `utcnow` instants. -/
structure Ctrl where
  graph : Graph
  memory : MemoryStore
  state : State
  clock : Nat := 0

/-- Result of one iteration of the controller's main loop: halt with an
outcome, or continue with the updated context. -/
inductive StepRes where
  | halt (outcome : RunOutcome) (c : Ctrl)
  | next (c : Ctrl)

/-- `controller.py::BrainController._handle_parallel_tasks`: spawn each
declared task and, when a skill executor is configured and the task
names a skill, execute it immediately.  The `uuid4` fallback task id is
a placeholder. -/
def handleParallelTasks (caps : Capabilities) (tasks : List Value) (s : State) : State :=
  tasks.foldl (fun s task_config =>
    let fields := match task_config with
      | .obj fields => fields
      | _ => []
    let task_id := match lookupField fields "task_id" with
      | some (.str t) => t
      | _ => "generated-task-id"
    let skill := match lookupField fields "skill" with
      | some (.str sk) => sk
      | _ => ""
    let instruction := match lookupField fields "instruction" with
      | some (.str i) => i
      | _ => ""
    let s := { s with
      parallel := s.parallel.spawn_task task_id skill instruction,
      counters := { s.counters with
        parallel_tasks_spawned := s.counters.parallel_tasks_spawned + 1 } }
    match caps.skill_execute with
    | some exec =>
      if skill ≠ "" then
        let s := { s with parallel := s.parallel.start_task task_id }
        match exec skill instruction s.to_context [] with
        | .ok result =>
          { s with
            parallel := s.parallel.complete_task task_id result,
            counters := { s.counters with
              parallel_tasks_completed := s.counters.parallel_tasks_completed + 1 } }
        | .error e => { s with parallel := s.parallel.fail_task task_id e }
      else s
    | none => s) s

/-- `controller.py::BrainController._handle_memory_writes`: write facts
surfaced by a node to the memory store with conflict checking on,
recording an observation when conflicts were reported. -/
def handleMemoryWrites (facts : List MemFact) (s : State) (node : Node)
    (mem : MemoryStore) (now : Nat) : State × MemoryStore :=
  if facts.isEmpty then (s, mem)
  else
    let (mem', written, conflicts) := mem.write facts s.run_id node.id true now
    let s := { s with counters :=
      { s.counters with memory_writes := s.counters.memory_writes + written.length } }
    if !conflicts.isEmpty then
      let conflictData := Value.obj [("conflicts", .arr (conflicts.map Value.str))]
      ({ s with signals :=
          s.signals.record_observation "Memory conflicts during write" conflictData },
       mem')
    else (s, mem')

/-- One iteration of the main loop of `BrainController.run` (lines
158–237 of `controller.py`), entered with the step budget not yet
exhausted: terminal-node checks at the top, node lookup, visit
bookkeeping, node execution with its try/except, result application,
audit, and edge selection. -/
def runStep (caps : Capabilities) (c : Ctrl) : StepRes :=
  let s := c.state
  let current := s.current_node
  if current ∈ c.graph.terminal_nodes ∧
      ((s.get "done").getD (.bool false)).truthy then
    .halt (determineTerminalOutcome c.graph current) c
  else if current ∈ c.graph.terminal_nodes ∧ getCount s.counters.node_visits current > 0 then
    .halt (determineTerminalOutcome c.graph current) c
  else
    match c.graph.getNode current with
    | none =>
      let s := s.add_audit current "error" ("Node not found: " ++ current)
      .halt RunOutcome.error { c with state := s }
    | some node =>
      let s := { s with counters := s.counters.visit_node current, stage := node.stage }
      match executeNode caps node s c.memory c.clock with
      | .error e =>
        let s := s.add_audit current "error" ("Node execution error: " ++ e)
        let s := { s with signals := s.signals.record_failure current e }
        .halt RunOutcome.error { c with state := s, clock := c.clock + 1 }
      | .ok (result, s, mem) =>
        let s := if result.state_patch.truthy then s.apply_patch result.state_patch else s
        let s := if !result.parallel_tasks.isEmpty then
            handleParallelTasks caps result.parallel_tasks s
          else s
        let (s, mem) := if !result.memory_writes.isEmpty then
            handleMemoryWrites result.memory_writes s node mem c.clock
          else (s, mem)
        let summary := match lookupField result.signals "summary" with
          | some (.str x) => x
          | _ => node.type.toStr ++ " completed"
        let s := s.add_audit current ("executed_" ++ node.type.toStr) summary
          (.obj result.signals)
        let (chosen, s, g) := chooseNextEdge c.graph node s
        match chosen with
        | none =>
          let s := s.add_audit current "no_valid_edge" "No valid outgoing edge found"
          let s := { s with signals := s.signals.record_failure current "No valid outgoing edge" }
          .halt RunOutcome.failure { c with graph := g, memory := mem, state := s, clock := c.clock + 1 }
        | some e =>
          let s := { s with current_node := e.to_node }
          let s := if s.counters.total_steps % 10 = 0 then { s with audit := [] } else s
          .next { c with graph := g, memory := mem, state := s, clock := c.clock + 1 }

/-- While-loop exit of `BrainController.run` (the `while ... else`
branch): the step budget is exhausted. -/
def maxStepsExit (c : Ctrl) : RunOutcome × Ctrl :=
  let s := { c.state with signals :=
    c.state.signals.record_failure c.state.current_node "Max steps exceeded" }
  (RunOutcome.max_steps, { c with state := s })

/-- The main loop of `BrainController.run`, driven by fuel.  Each
continuing iteration increments `total_steps` by exactly one, so calling
with `fuel ≥ max_steps - total_steps` (as `runMain` does) makes the
fuel-exhaustion branch coincide with the `total_steps < max_steps` test
ever becoming false. -/
def runAux (caps : Capabilities) (max_steps : Nat) : Nat → Ctrl → RunOutcome × Ctrl
  | 0, c => maxStepsExit c
  | fuel + 1, c =>
    if c.state.counters.total_steps < max_steps then
      match runStep caps c with
      | .halt outcome c' => (outcome, c')
      | .next c' => runAux caps max_steps fuel c'
    else maxStepsExit c

/-- Entry point of the main loop (after state initialization and graph
validation in `BrainController.run`). -/
def runMain (caps : Capabilities) (max_steps : Nat) (c : Ctrl) : RunOutcome × Ctrl :=
  runAux caps max_steps (max_steps - c.state.counters.total_steps) c

/-! ## Graph serialization (`graph.py` `to_dict` / `from_dict`)

In the source, guard and criterion expressions are stored as opaque
strings inside the serialized dicts and are never inspected by the
serializer.  The model represents these opaque expression payloads by a
canonical `Value` encoding of the `PyExpr` AST (`exprToValue` /
`valueToExpr`), which round-trips exactly, as the opaque strings do. -/

def CmpOp.toStr : CmpOp → String
  | .lt => "lt"
  | .le => "le"
  | .gt => "gt"
  | .ge => "ge"

def CmpOp.fromStr : String → Option CmpOp
  | "lt" => some .lt
  | "le" => some .le
  | "gt" => some .gt
  | "ge" => some .ge
  | _ => none

/-- Canonical serialization of an expression payload (a tagged array,
which round-trips exactly, as the opaque strings in the source do). -/
def exprToValue : PyExpr → Value
  | .lit v => .arr [.str "lit", v]
  | .var n => .arr [.str "var", .str n]
  | .attr a f => .arr [.str "attr", exprToValue a, .str f]
  | .cmp op a b => .arr [.str "cmp", .str op.toStr, exprToValue a, exprToValue b]
  | .eqE a b => .arr [.str "eq", exprToValue a, exprToValue b]
  | .neE a b => .arr [.str "ne", exprToValue a, exprToValue b]
  | .andE a b => .arr [.str "and", exprToValue a, exprToValue b]
  | .orE a b => .arr [.str "or", exprToValue a, exprToValue b]
  | .notE a => .arr [.str "not", exprToValue a]
  | .lenE a => .arr [.str "len", exprToValue a]
  | .divE a b => .arr [.str "div", exprToValue a, exprToValue b]

/-- Deserialization of an expression payload. -/
def valueToExpr : Value → Option PyExpr
  | .arr [.str "lit", v] => some (.lit v)
  | .arr [.str "var", .str n] => some (.var n)
  | .arr [.str "attr", a, .str f] => (valueToExpr a).map (.attr · f)
  | .arr [.str "cmp", .str o, a, b] => do
    let op ← CmpOp.fromStr o
    let ea ← valueToExpr a
    let eb ← valueToExpr b
    pure (.cmp op ea eb)
  | .arr [.str "eq", a, b] => do
    let ea ← valueToExpr a
    let eb ← valueToExpr b
    pure (.eqE ea eb)
  | .arr [.str "ne", a, b] => do
    let ea ← valueToExpr a
    let eb ← valueToExpr b
    pure (.neE ea eb)
  | .arr [.str "and", a, b] => do
    let ea ← valueToExpr a
    let eb ← valueToExpr b
    pure (.andE ea eb)
  | .arr [.str "or", a, b] => do
    let ea ← valueToExpr a
    let eb ← valueToExpr b
    pure (.orE ea eb)
  | .arr [.str "not", a] => (valueToExpr a).map .notE
  | .arr [.str "len", a] => (valueToExpr a).map .lenE
  | .arr [.str "div", a, b] => do
    let ea ← valueToExpr a
    let eb ← valueToExpr b
    pure (.divE ea eb)
  | _ => none

/-- Remove a key from an object's field list (`dict.pop`). -/
def removeField : List (String × Value) → String → List (String × Value)
  | [], _ => []
  | (k, v) :: rest, key =>
    if k = key then rest else (k, v) :: removeField rest key

/-- `graph.py::Node.to_dict`. -/
def Node.to_dict (n : Node) : Value :=
  .obj (
    [("id", .str n.id),
     ("type", .str n.type.toStr),
     ("stage", .str n.stage.toStr),
     ("purpose", .str n.purpose)] ++
    (if n.prompt ≠ "" then [("prompt", .str n.prompt)] else []) ++
    (match n.output_schema with
     | some os =>
       [("output_schema", .obj [
          ("type", .str os.type),
          ("required", .arr (os.required.map Value.str)),
          ("properties", .obj os.properties)])]
     | none => []) ++
    (match n.skill_name with
     | some sn =>
       if sn ≠ "" then
         [("skill_name", .str sn), ("skill_config", .obj n.skill_config)]
       else []
     | none => []) ++
    (if !n.state_writes.isEmpty then
       [("state_writes", .arr (n.state_writes.map (fun sw =>
          .obj [("path", .str sw.path), ("from", .str sw.from_),
                ("transform", match sw.transform with
                  | some t => .str t
                  | none => .null)])))]
     else []) ++
    [("memory", .obj [
       ("dredge", .arr n.memory.dredge),
       ("write", .bool n.memory.write),
       ("source", match n.memory.source with
         | some src => .str src
         | none => .null),
       ("conflict_action", .str n.memory.conflict_action)])] ++
    [("parallel", .obj [
       ("spawn", .bool n.parallel.spawn),
       ("max_concurrent", .num n.parallel.max_concurrent),
       ("strategy", .str n.parallel.strategy)])] ++
    (match n.gate with
     | some gc =>
       [("gate_config", .obj [
          ("criteria", .arr (gc.criteria.map (fun c =>
            .obj [("name", .str c.1), ("check", exprToValue c.2)]))),
          ("on_pass", .str gc.on_pass),
          ("on_fail", .str gc.on_fail),
          ("max_retries", .num gc.max_retries)])]
     | none => []) ++
    (match n.decision with
     | some dc =>
       [("decision_config", .obj [
          ("variable", .str dc.variable_),
          ("rules", .arr (dc.rules.map Value.obj)),
          ("precondition", match dc.precondition with
            | some p => exprToValue p
            | none => .null),
          ("description", .str dc.description)])]
     | none => []) ++
    (if !n.on_reach.isEmpty then
       [("on_reach", .arr (n.on_reach.map Value.obj))]
     else []))

/-- Read a string field with a default. -/
def strOrD (fields : List (String × Value)) (key : String) (d : String) : String :=
  match lookupField fields key with
  | some (.str s) => s
  | _ => d

/-- Read an optional string field (`dict.get`, `None` for absent or
null). -/
def strOptD (fields : List (String × Value)) (key : String) : Option String :=
  match lookupField fields key with
  | some (.str s) => some s
  | _ => none

/-- Read an integer field with a default (serialized numbers carrying
integers exactly; a non-integral rational takes its numerator, a shape
unreachable from `to_dict` output). -/
def intOrD (fields : List (String × Value)) (key : String) (d : Int) : Int :=
  match lookupField fields key with
  | some (.num q) => q.num
  | _ => d

/-- Read a rational field with a default. -/
def numOrD (fields : List (String × Value)) (key : String) (d : Rat) : Rat :=
  match lookupField fields key with
  | some (.num q) => q
  | _ => d

/-- Read a boolean field with a default. -/
def boolOrD (fields : List (String × Value)) (key : String) (d : Bool) : Bool :=
  match lookupField fields key with
  | some (.bool b) => b
  | _ => d

/-- Read a list field with `[]` default. -/
def arrOrD (fields : List (String × Value)) (key : String) : List Value :=
  match lookupField fields key with
  | some (.arr l) => l
  | _ => []

/-- Read an object field with `{}` default. -/
def objOrD (fields : List (String × Value)) (key : String) : List (String × Value) :=
  match lookupField fields key with
  | some (.obj l) => l
  | _ => []

/-- Read a list of strings. -/
def strListOrD (fields : List (String × Value)) (key : String) : List String :=
  (arrOrD fields key).filterMap (fun v =>
    match v with
    | .str s => some s
    | _ => none)

/-- Read a list of objects, failing on a non-object entry (where the
Python loader would raise on a malformed record). -/
def objListOrD (fields : List (String × Value)) (key : String) :
    Option (List (List (String × Value))) :=
  (arrOrD fields key).mapM (fun v =>
    match v with
    | .obj o => some o
    | _ => none)

/-- The `output_schema` section of `Node.from_dict`. -/
def nodeOutputSchemaOfDict (d : List (String × Value)) : Option OutputSchema :=
  match lookupField d "output_schema" with
  | some (.obj os) =>
    some { type := strOrD os "type" "object",
           required := strListOrD os "required",
           properties := objOrD os "properties" }
  | _ => none

/-- The `memory` section of `Node.from_dict`. -/
def nodeMemoryOfDict (d : List (String × Value)) : MemoryOperation :=
  let memory_data := objOrD d "memory"
  { dredge := arrOrD memory_data "dredge",
    write := boolOrD memory_data "write" false,
    source := strOptD memory_data "source",
    conflict_action := strOrD memory_data "conflict_action" "flag" }

/-- The `parallel` section of `Node.from_dict`. -/
def nodeParallelOfDict (d : List (String × Value)) : ParallelConfig :=
  let parallel_data := objOrD d "parallel"
  { spawn := boolOrD parallel_data "spawn" false,
    max_concurrent := intOrD parallel_data "max_concurrent" 3,
    strategy := strOrD parallel_data "strategy" "all" }

/-- The `gate_config` section of `Node.from_dict`. -/
def nodeGateOfDict (d : List (String × Value)) : Option (Option GateConfig) :=
  match lookupField d "gate_config" with
  | some (.obj gc) => do
    let criteria ← (arrOrD gc "criteria").mapM (fun c =>
      match c with
      | .obj cf => do
        let check ← match lookupField cf "check" with
          | some cv => valueToExpr cv
          | none => some (.lit (.bool true))
        pure (strOrD cf "name" "unnamed", check)
      | _ => none)
    pure (some ({ criteria := criteria,
                  on_pass := strOrD gc "on_pass" "",
                  on_fail := strOrD gc "on_fail" "",
                  max_retries := intOrD gc "max_retries" 3 } : GateConfig))
  | _ => pure none

/-- The `decision_config` section of `Node.from_dict`. -/
def nodeDecisionOfDict (d : List (String × Value)) : Option (Option DecisionConfig) :=
  match lookupField d "decision_config" with
  | some (.obj dc) => do
    let rules ← objListOrD dc "rules"
    let precondition ← match lookupField dc "precondition" with
      | some .null | none => some none
      | some pv => (valueToExpr pv).map some
    pure (some ({ variable_ := strOrD dc "variable" "",
                  rules := rules,
                  precondition := precondition,
                  description := strOrD dc "description" "" } : DecisionConfig))
  | _ => pure none

/-- The `state_writes` section of `Node.from_dict`. -/
def nodeStateWritesOfDict (d : List (String × Value)) : List StateWrite :=
  (arrOrD d "state_writes").filterMap (fun sw =>
    match sw with
    | .obj swf =>
      some ({ path := strOrD swf "path" "",
              from_ := strOrD swf "from" "",
              transform := strOptD swf "transform" } : StateWrite)
    | _ => none)

/-- The `skill_name` section of `Node.from_dict` (with the legacy
`skill` fallback key). -/
def nodeSkillNameOfDict (d : List (String × Value)) : Option String :=
  match lookupField d "skill_name" with
  | some (.str sn) =>
    if sn ≠ "" then some sn else strOptD d "skill"
  | _ => strOptD d "skill"

/-- `graph.py::Node.from_dict`.  `none` models the `ValueError` raised by
`NodeType(...)` on an unknown type tag (or a malformed expression
payload in the modelled encoding).  The per-section readers above
mirror the corresponding blocks of the source verbatim. -/
def Node.from_dict (v : Value) : Option Node :=
  match v with
  | .obj d => do
    let type ← NodeType.fromStr (strOrD d "type" "flow")
    let gate ← nodeGateOfDict d
    let decision ← nodeDecisionOfDict d
    let on_reach ← objListOrD d "on_reach"
    pure {
      id := strOrD d "id" "generated-node-id",
      type := type,
      stage := Stage.fromStrOrDefault (strOrD d "stage" "execution"),
      purpose := strOrD d "purpose" "",
      prompt := strOrD d "prompt" "",
      output_schema := nodeOutputSchemaOfDict d,
      skill_name := nodeSkillNameOfDict d,
      skill_config := objOrD d "skill_config",
      state_writes := nodeStateWritesOfDict d,
      memory := nodeMemoryOfDict d,
      parallel := nodeParallelOfDict d,
      gate := gate,
      decision := decision,
      on_reach := on_reach }
  | _ => none

/-- `graph.py::Edge.to_dict`.  The source builds each on-traverse entry
as `{"action": ..., **parameters}`; in Python a parameters key `action`
would override the action value, while the model keeps the action entry
first and `lookupField` reads the first binding, which coincides with
the source whenever no parameter uses that key. -/
def Edge.to_dict (e : Edge) : Value :=
  .obj (
    [("id", .str e.id),
     ("from", .str e.from_node),
     ("to", .str e.to_node),
     ("type", .str e.type.toStr),
     ("guard", exprToValue e.guard.expression),
     ("priority", .num e.priority)] ++
    (match e.max_retries with
     | some r => [("max_retries", .num r)]
     | none => []) ++
    (match e.dependency with
     | some dep =>
       [("dependency_config", .obj [
          ("required_nodes", .arr (dep.required_nodes.map Value.str)),
          ("require_all", .bool dep.require_all),
          ("required_state", .obj dep.required_state)])]
     | none => []) ++
    (match e.decomposition with
     | some dec =>
       [("decomposition_config", .obj [
          ("parent_id", .str dec.parent_id),
          ("decomposition_type", .str dec.decomposition_type),
          ("max_children", .num dec.max_children),
          ("require_all_children", .bool dec.require_all_children)])]
     | none => []) ++
    (if !e.on_traverse.isEmpty then
       [("on_traverse", .arr (e.on_traverse.map (fun a =>
          .obj (("action", .str a.action) :: a.parameters))))]
     else []) ++
    [("_learning", .obj [
       ("success_count", .num e.success_count),
       ("failure_count", .num e.failure_count),
       ("weight", .num e.weight)])])

/-- The `guard` section of `Edge.from_dict`. -/
def edgeGuardOfDict (d : List (String × Value)) : Option PyExpr :=
  match lookupField d "guard" with
  | some gv => valueToExpr gv
  | none => some (.lit (.bool true))

/-- The `on_traverse` section of `Edge.from_dict`. -/
def edgeOnTraverseOfDict (d : List (String × Value)) : Option (List EdgeAction) :=
  (arrOrD d "on_traverse").mapM (fun a =>
    match a with
    | .obj af =>
      some ({ action := strOrD af "action" "unknown",
              parameters := removeField af "action" } : EdgeAction)
    | _ => none)

/-- The `dependency_config` section of `Edge.from_dict`. -/
def edgeDependencyOfDict (d : List (String × Value)) : Option DependencyConfig :=
  match lookupField d "dependency_config" with
  | some (.obj dc) =>
    some { required_nodes := strListOrD dc "required_nodes",
           require_all := boolOrD dc "require_all" true,
           required_state := objOrD dc "required_state" }
  | _ => none

/-- The `decomposition_config` section of `Edge.from_dict`. -/
def edgeDecompositionOfDict (d : List (String × Value)) : Option DecompositionConfig :=
  match lookupField d "decomposition_config" with
  | some (.obj dc) =>
    some { parent_id := strOrD dc "parent_id" "",
           decomposition_type := strOrD dc "decomposition_type" "sequential",
           max_children := intOrD dc "max_children" 4,
           require_all_children := boolOrD dc "require_all_children" true }
  | _ => none

/-- The `max_retries` section of `Edge.from_dict`. -/
def edgeMaxRetriesOfDict (d : List (String × Value)) : Option Int :=
  match lookupField d "max_retries" with
  | some (.num q) => some q.num
  | _ => none

/-- `graph.py::Edge.from_dict`.  The per-section readers above mirror
the corresponding blocks of the source verbatim. -/
def Edge.from_dict (v : Value) : Option Edge :=
  match v with
  | .obj d => do
    let type ← EdgeType.fromStr (strOrD d "type" "laminar")
    let learning := objOrD d "_learning"
    let guardExpr ← edgeGuardOfDict d
    let on_traverse ← edgeOnTraverseOfDict d
    pure {
      id := strOrD d "id" "generated-edge-id",
      from_node := strOrD d "from" "",
      to_node := strOrD d "to" "",
      type := type,
      guard := { expression := guardExpr },
      priority := intOrD d "priority" 1,
      max_retries := edgeMaxRetriesOfDict d,
      dependency := edgeDependencyOfDict d,
      decomposition := edgeDecompositionOfDict d,
      on_traverse := on_traverse,
      success_count := intOrD learning "success_count" 0,
      failure_count := intOrD learning "failure_count" 0,
      weight := numOrD learning "weight" 1 }
  | _ => none

/-- `graph.py::Graph.to_dict`. -/
def Graph.to_dict (g : Graph) : Value :=
  .obj [
    ("graph", .obj [("name", .str g.name), ("version", .str g.version)]),
    ("start_node", .str g.start_node),
    ("terminal_nodes", .arr (g.terminal_nodes.map Value.str)),
    ("nodes", .arr (g.nodes.map (fun p => p.2.to_dict))),
    ("edges", .arr (g.edges.map Edge.to_dict)),
    ("relationships", .arr (g.relationships.map (fun r =>
      .obj [
        ("id", .str r.id),
        ("from", .str r.from_concept),
        ("to", .str r.to_concept),
        ("type", .str r.type.toStr),
        ("weight", .num r.weight),
        ("observations", .arr (r.observations.map Value.str))])))]

/-- Insert a node into the node dict (`graph.nodes[node.id] = node`). -/
def insertNode (nodes : List (String × Node)) (n : Node) : List (String × Node) :=
  match nodes with
  | [] => [(n.id, n)]
  | (k, m) :: rest => if k = n.id then (k, n) :: rest else (k, m) :: insertNode rest n

/-- The per-entry relationship parser of `Graph.from_dict`. -/
def relationshipFromDict (rv : Value) : Option Relationship :=
  match rv with
  | .obj rf => do
    let rtype ← RelationType.fromStr (strOrD rf "type" "correlates")
    pure ({ id := strOrD rf "id" "generated-relationship-id",
            from_concept := strOrD rf "from" "",
            to_concept := strOrD rf "to" "",
            type := rtype,
            weight := numOrD rf "weight" 1,
            observations := strListOrD rf "observations" } : Relationship)
  | _ => none

/-- `graph.py::Graph.from_dict`.  `none` models a `ValueError` escaping
from an enum constructor on malformed data. -/
def Graph.from_dict (v : Value) : Option Graph :=
  match v with
  | .obj d => do
    let graph_meta := objOrD d "graph"
    let top_start := strOrD d "start_node" ""
    let start_node := if top_start ≠ "" then top_start
      else strOrD graph_meta "start_node" ""
    let top_terminals := strListOrD d "terminal_nodes"
    let terminal_nodes := if !top_terminals.isEmpty then top_terminals
      else strListOrD graph_meta "terminal_nodes"
    let nodeList ← (arrOrD d "nodes").mapM Node.from_dict
    let edges ← (arrOrD d "edges").mapM Edge.from_dict
    let relationships ← (arrOrD d "relationships").mapM relationshipFromDict
    pure {
      name := strOrD graph_meta "name" "",
      version := strOrD graph_meta "version" "1.0.0",
      start_node := start_node,
      terminal_nodes := terminal_nodes,
      nodes := nodeList.foldl insertNode [],
      edges := edges,
      relationships := relationships }
  | _ => none

/-! ## Learning engine (`src/core/learning.py`) -/

/-- `learning.py::ChangeType`. -/
inductive ChangeType where
  | update_edge_priority | update_edge_weight | update_guard | update_prompt
  | add_edge | remove_edge | add_node | add_relationship | update_relationship
  | update_max_retries
deriving DecidableEq, Repr

/-- `learning.py::Change` (uuid/change timestamps modelled by
placeholders; they are irrelevant to every property proved here). -/
structure Change where
  change_id : String := "generated-change-id"
  type : ChangeType
  target : String
  description : String := ""
  reason : String := ""
  old_value : Value := .null
  new_value : Value := .null
  auto_apply : Bool := false
  requires_approval : Bool := true
  risk_level : String := "low"
  applied : Bool := false

/-- `learning.py::Proposal`. -/
structure Proposal where
  proposal_id : String := "generated-proposal-id"
  based_on_runs : List String := []
  changes : List Change
  summary : String := ""
  confidence : Rat := mkRat 1 2
  status : String := "pending"

/-- `learning.py::RunAnalysis`. -/
structure RunAnalysis where
  run_id : String
  outcome : RunOutcome
  total_steps : Nat
  duration_seconds : Rat
  path_taken : List String := []
  retries_by_edge : List (String × Nat) := []
  visits_by_node : List (String × Nat) := []
  successes : List SuccessSignal := []
  failures : List FailureSignal := []
  observations : List ObservationSignal := []
  improvements : List ImprovementSignal := []
  bottleneck_nodes : List String := []
  underused_edges : List String := []
  overused_edges : List String := []

/-- The default `auto_apply_config` of `LearningEngine.__init__`. -/
def defaultAutoApplyConfig : List (String × Bool) :=
  [("edge_priorities", true), ("edge_weights", true), ("relationship_weights", true),
   ("max_retries", true), ("guard_thresholds", false), ("prompts", false),
   ("add_edges", false), ("remove_edges", false), ("add_nodes", false)]

/-- `dict.get(key, default)` over the auto-apply config. -/
def cfgGet (cfg : List (String × Bool)) (key : String) (d : Bool) : Bool :=
  match cfg.find? (fun p => p.1 = key) with
  | some (_, b) => b
  | none => d

/-- Append a count to a string-keyed list-of-counts dict. -/
def pushKey : List (String × List Nat) → String → Nat → List (String × List Nat)
  | [], k, v => [(k, [v])]
  | (k', l) :: rest, k, v =>
    if k' = k then (k', l ++ [v]) :: rest else (k', l) :: pushKey rest k v

/-- The aggregate dict built by `LearningEngine._aggregate_analyses`,
modelled as a structure with one field per key. -/
structure Aggregate where
  total_runs : Nat
  success_count : Nat
  failure_count : Nat
  avg_steps : Rat
  avg_duration : Rat
  edge_successes : List (String × Nat)
  edge_failures : List (String × Nat)
  node_visit_counts : List (String × List Nat)
  bottleneck_frequency : List (String × Nat)
  retry_totals : List (String × List Nat)
  all_improvements : List ImprovementSignal
  all_failures : List FailureSignal

/-- `learning.py::LearningEngine._aggregate_analyses`. -/
def aggregateAnalyses (analyses : List RunAnalysis) : Aggregate :=
  let base : Aggregate :=
    { total_runs := analyses.length,
      success_count := (analyses.filter (fun a => a.outcome = RunOutcome.success)).length,
      failure_count := (analyses.filter (fun a => a.outcome = RunOutcome.failure)).length,
      avg_steps := ((analyses.map (fun a => (a.total_steps : Rat))).sum) /
        (max analyses.length 1 : Nat),
      avg_duration := ((analyses.map RunAnalysis.duration_seconds).sum) /
        (max analyses.length 1 : Nat),
      edge_successes := [], edge_failures := [], node_visit_counts := [],
      bottleneck_frequency := [], retry_totals := [],
      all_improvements := [], all_failures := [] }
  analyses.foldl (fun agg analysis =>
    let agg := analysis.successes.foldl (fun agg success =>
      if success.edge_id ≠ "" then
        { agg with edge_successes := bumpCount agg.edge_successes success.edge_id }
      else agg) agg
    let agg := analysis.failures.foldl (fun agg failure =>
      if failure.node_id ≠ "" then
        { agg with edge_failures := bumpCount agg.edge_failures failure.node_id }
      else agg) agg
    let agg := analysis.visits_by_node.foldl (fun agg p =>
      { agg with node_visit_counts := pushKey agg.node_visit_counts p.1 p.2 }) agg
    let agg := analysis.bottleneck_nodes.foldl (fun agg node_id =>
      { agg with bottleneck_frequency := bumpCount agg.bottleneck_frequency node_id }) agg
    let agg := analysis.retries_by_edge.foldl (fun agg p =>
      { agg with retry_totals := pushKey agg.retry_totals p.1 p.2 }) agg
    { agg with
      all_improvements := agg.all_improvements ++ analysis.improvements,
      all_failures := agg.all_failures ++ analysis.failures }) base

/-- `learning.py::LearningEngine._propose_priority_changes`: propose
lowering the priority value of edges whose historical success rate is
above 0.7 and whose priority is above 2.  (The numeric formatting inside
the source's `reason` string is not reproduced.) -/
def proposePriorityChanges (g : Graph) (cfg : List (String × Bool))
    (agg : Aggregate) (min_confidence : Rat) : List Proposal :=
  let changes := g.edges.filterMap (fun edge =>
    let success_count := getCount agg.edge_successes edge.id
    if success_count > 0 ∧ agg.total_runs > 0 then
      let success_rate := mkRat success_count agg.total_runs
      if success_rate > mkRat 7 10 ∧ edge.priority > 2 then
        let confidence := min (mkRat 9 10) success_rate
        if confidence ≥ min_confidence then
          some ({ type := ChangeType.update_edge_priority,
                  target := edge.id,
                  description := "Lower priority (higher precedence) for edge " ++ edge.id,
                  reason := "Edge succeeds often but has priority " ++ toString edge.priority,
                  old_value := .num edge.priority,
                  new_value := .num (max 1 (edge.priority - 1)),
                  auto_apply := cfgGet cfg "edge_priorities" true,
                  requires_approval := !cfgGet cfg "edge_priorities" true } : Change)
        else none
      else none
    else none)
  if !changes.isEmpty then
    [{ changes := changes,
       summary := "Adjust " ++ toString changes.length ++
         " edge priorities based on success patterns",
       confidence := mkRat 7 10 }]
  else []

/-- `learning.py::LearningEngine._propose_retry_changes`. -/
def proposeRetryChanges (g : Graph) (cfg : List (String × Bool))
    (agg : Aggregate) (_min_confidence : Rat) : List Proposal :=
  let changes := agg.retry_totals.filterMap (fun p =>
    let (edge_id, retry_counts) := p
    if retry_counts.isEmpty then none
    else
      let avg_retries := mkRat retry_counts.sum retry_counts.length
      let max_retries_seen := retry_counts.foldl max 0
      match g.edges.find? (fun e => e.id = edge_id) with
      | none => none
      | some edge =>
        if edge.type ≠ EdgeType.turbulent then none
        else
          match edge.max_retries with
          | some r =>
            if r ≠ 0 ∧ (max_retries_seen : Int) ≥ r then
              some ({ type := ChangeType.update_max_retries,
                      target := edge_id,
                      description := "Increase max_retries for edge " ++ edge_id,
                      reason := "Edge frequently hits retry limit",
                      old_value := .num r,
                      new_value := .num (r + 1),
                      auto_apply := cfgGet cfg "max_retries" true,
                      requires_approval := !cfgGet cfg "max_retries" true } : Change)
            else if r ≠ 0 ∧ avg_retries < mkRat 1 2 ∧ r > 1 then
              some ({ type := ChangeType.update_max_retries,
                      target := edge_id,
                      description := "Decrease max_retries for edge " ++ edge_id,
                      reason := "Retries rarely needed",
                      old_value := .num r,
                      new_value := .num (max 1 (r - 1)),
                      auto_apply := cfgGet cfg "max_retries" true,
                      requires_approval := !cfgGet cfg "max_retries" true } : Change)
            else none
          | none => none)
  if !changes.isEmpty then
    [{ changes := changes,
       summary := "Adjust " ++ toString changes.length ++
         " retry limits based on usage patterns",
       confidence := mkRat 13 20 }]
  else []

/-- `learning.py::LearningEngine._propose_relationship_updates`.  The
source iterates `set(failure_nodes)` in unspecified hash order; the
model iterates distinct failure nodes in first-occurrence order. -/
def proposeRelationshipUpdates (g : Graph) (cfg : List (String × Bool))
    (agg : Aggregate) (_min_confidence : Rat) : List Proposal :=
  let failure_nodes := agg.all_failures.filterMap (fun f =>
    if f.node_id ≠ "" then some f.node_id else none)
  let changes := failure_nodes.dedup.filterMap (fun node_id =>
    let failure_count := (failure_nodes.filter (fun n => n = node_id)).length
    if failure_count ≥ 2 then
      let existing := g.relationships.find? (fun rel =>
        rel.to_concept = node_id && decide ("failure".data <:+: rel.type.toStr.data))
      match existing with
      | some rel =>
        some ({ type := ChangeType.update_relationship,
                target := rel.id,
                description := "Increase failure relationship weight for " ++ node_id,
                reason := "Node failed " ++ toString failure_count ++ " times",
                old_value := .num rel.weight,
                new_value := .num (min 2 (rel.weight + mkRat failure_count 10)),
                auto_apply := cfgGet cfg "relationship_weights" true,
                requires_approval := false } : Change)
      | none =>
        some ({ type := ChangeType.add_relationship,
                target := "failure_indicator_" ++ node_id,
                description := "Add failure indicator relationship for " ++ node_id,
                reason := "Node failed " ++ toString failure_count ++ " times across runs",
                old_value := .null,
                new_value := .obj [
                  ("from", .str "execution"),
                  ("to", .str node_id),
                  ("type", .str "indicates"),
                  ("weight", .num (mkRat (5 + failure_count) 10))],
                auto_apply := cfgGet cfg "relationship_weights" true,
                requires_approval := false } : Change)
    else none)
  if !changes.isEmpty then
    [{ changes := changes,
       summary := "Update " ++ toString changes.length ++
         " relationships based on observed patterns",
       confidence := mkRat 3 5 }]
  else []

/-- `learning.py::LearningEngine._propose_structural_changes`. -/
def proposeStructuralChanges (_g : Graph) (_cfg : List (String × Bool))
    (agg : Aggregate) (_min_confidence : Rat) : List Proposal :=
  let changes := agg.bottleneck_frequency.filterMap (fun p =>
    let (node_id, frequency) := p
    if (frequency : Rat) ≥ mkRat agg.total_runs 2 then
      some ({ type := ChangeType.add_edge,
              target := "bypass_" ++ node_id,
              description := "Consider adding bypass for bottleneck node " ++ node_id,
              reason := "Node is bottleneck in " ++ toString frequency ++ "/" ++
                toString agg.total_runs ++ " runs",
              old_value := .null,
              new_value := .obj [("suggestion",
                .str ("Add alternative path around " ++ node_id))],
              auto_apply := false,
              requires_approval := true,
              risk_level := "medium" } : Change)
    else none)
  if !changes.isEmpty then
    [{ changes := changes,
       summary := "Structural improvements for " ++ toString changes.length ++
         " bottleneck areas",
       confidence := mkRat 1 2,
       status := "pending" }]
  else []

/-- `learning.py::LearningEngine.generate_proposals` (the proposal
persistence to disk is omitted). -/
def generateProposals (g : Graph) (cfg : List (String × Bool))
    (analyses : List RunAnalysis) (min_confidence : Rat := mkRat 1 2) : List Proposal :=
  let aggregate := aggregateAnalyses analyses
  proposePriorityChanges g cfg aggregate min_confidence ++
  proposeRetryChanges g cfg aggregate min_confidence ++
  proposeRelationshipUpdates g cfg aggregate min_confidence ++
  proposeStructuralChanges g cfg aggregate min_confidence

/-! ## Concrete instances used by the claim theorems -/

/-- A relationship fixture between concepts "a" and "b". -/
def relAB : Relationship :=
  { id := "r1", from_concept := "a", to_concept := "b",
    type := RelationType.correlates }

/-- A graph holding just `relAB`. -/
def graphRelAB : Graph := { relationships := [relAB] }

/-- The decision rule table of the C4 scenario:
`[("> 0.8","A"), ("> 0.5","B"), ("default","C")]`. -/
def decisionRulesC4 : List (List (String × Value)) :=
  [[("condition", .str "> 0.8"), ("target", .str "A")],
   [("condition", .str "> 0.5"), ("target", .str "B")],
   [("condition", .str "default"), ("target", .str "C")]]

/-- A Decision node routing on `data.confidence` with the C4 rules. -/
def decisionNodeC4 : Node :=
  { id := "router", type := NodeType.decision, stage := Stage.execution,
    purpose := "route",
    decision := some { variable_ := "data.confidence", rules := decisionRulesC4 } }

/-- A run state whose working data holds `confidence = v`. -/
def stateC4 (v : Rat) : State :=
  { data := .obj [("confidence", .num v)] }

/-- The C4 decision config with a trivially-true precondition. -/
def decisionConfigC4Pre : DecisionConfig :=
  { variable_ := "data.confidence", rules := decisionRulesC4,
    precondition := some (.lit (.bool true)) }

/-- The C4 decision node with the precondition-bearing config. -/
def decisionNodeC4Pre : Node :=
  { decisionNodeC4 with decision := some decisionConfigC4Pre }

/-- The first rule of the C4 table. -/
def ruleA : List (String × Value) := [("condition", .str "> 0.8"), ("target", .str "A")]

/-- The remaining rules of the C4 table. -/
def rulesBC : List (List (String × Value)) :=
  [[("condition", .str "> 0.5"), ("target", .str "B")],
   [("condition", .str "default"), ("target", .str "C")]]

/-- The C4 precondition node with its precondition stripped. -/
def decisionNodeC4NoPre : Node :=
  { decisionNodeC4Pre with decision := some { decisionConfigC4Pre with precondition := none } }

/-- A single memory record fixture (id 0, valid from time 0). -/
def memRecordW : MemoryRecord :=
  { record_id := 0, fact := { fact_id := "f", text := "t" }, valid_from := 0 }

/-- A store holding just `memRecordW`. -/
def memStoreW : MemoryStore := { records := [memRecordW], next_id := 1 }

/-- `memStoreW` after invalidating record 0 at time 5. -/
def memStoreWInv : MemoryStore :=
  { records := [{ memRecordW with valid_to := some 5 }], next_id := 1 }

/-- Triplet fixture: (sky, color, blue). -/
def tripletBlue : Triplet := { subject := "sky", predicate := "color", object := "blue" }

/-- Triplet fixture: (sky, color, green). -/
def tripletGreen : Triplet := { subject := "sky", predicate := "color", object := "green" }

/-- A valid record asserting (sky, color, blue). -/
def memRecordBlue : MemoryRecord :=
  { record_id := 0,
    fact := { fact_id := "f0", text := "sky is blue", triplets := [tripletBlue] },
    valid_from := 0 }

/-- A store holding `memRecordBlue`, indexed. -/
def memStoreBlue : MemoryStore :=
  { records := [memRecordBlue],
    triplet_index := [(("sky", "color"), [0])],
    next_id := 1 }

/-- A fact contradicting `memRecordBlue` on (sky, color). -/
def factGreen : MemFact :=
  { fact_id := "f1", text := "sky is green", triplets := [tripletGreen] }

/-- C1 fixture: a Flow node with a single outgoing turbulent edge. -/
def nodeC1 : Node :=
  { id := "a", type := NodeType.flow, stage := Stage.intake, purpose := "start" }

/-- C1 counterexample fixture: turbulent edge declaring a retry ceiling
of `0` (falsy in Python, so the ceiling check is never applied). -/
def edgeC1 : Edge :=
  { id := "e0", from_node := "a", to_node := "b",
    type := EdgeType.turbulent,
    guard := { expression := PyExpr.lit (Value.bool true) },
    max_retries := some 0 }

def graphC1 : Graph :=
  { start_node := "a", terminal_nodes := ["b"],
    nodes := [("a", nodeC1)], edges := [edgeC1] }

def stateC1 : State := {}

/-- C1 witness fixture: the same edge with a truthy ceiling of `2`. -/
def edgeC1W : Edge := { edgeC1 with max_retries := some 2 }

def graphC1W : Graph := { graphC1 with edges := [edgeC1W] }

/-- C1 Decision-bypass fixture: a Decision node, so `_choose_next_edge`
takes its fast path when a decision target is recorded. -/
def nodeC1D : Node :=
  { id := "d", type := NodeType.decision, stage := Stage.intake,
    purpose := "route", decision := some { variable_ := "data.route" } }

/-- C1 Decision-bypass fixture: a turbulent edge with the truthy ceiling
`1`. -/
def edgeC1D : Edge :=
  { id := "e0", from_node := "d", to_node := "b",
    type := EdgeType.turbulent,
    guard := { expression := PyExpr.lit (Value.bool true) },
    max_retries := some 1 }

def graphC1D : Graph :=
  { start_node := "d", terminal_nodes := ["b"],
    nodes := [("d", nodeC1D)], edges := [edgeC1D] }

/-- C1 Decision-bypass fixture: a recorded decision target `"b"` and a
retry count for `"e0"` already at the declared ceiling `1`. -/
def stateC1D : State :=
  { data := Value.obj [("decision_target", Value.str "b")],
    counters := { retries := [("e0", 1)] } }

/-- C10 fixture: edge "e1" with current priority 3. -/
def edgeC10 : Edge :=
  { id := "e1", from_node := "x", to_node := "y", type := EdgeType.laminar,
    guard := { expression := PyExpr.lit (Value.bool true) }, priority := 3 }

def graphC10 : Graph := { edges := [edgeC10] }

/-- C10 fixture: one analyzed run whose edge "e1" recorded a success. -/
def analysisC10S (rid : String) : RunAnalysis :=
  { run_id := rid, outcome := RunOutcome.success, total_steps := 3,
    duration_seconds := 1,
    successes := [{ node_id := "x", edge_id := "e1" }] }

/-- C10 fixture: one analyzed run without a success on "e1". -/
def analysisC10F : RunAnalysis :=
  { run_id := "r5", outcome := RunOutcome.failure, total_steps := 3,
    duration_seconds := 1 }

/-- C10 fixture: 5 analyzed runs, 4 of which succeeded over "e1". -/
def analysesC10 : List RunAnalysis :=
  [analysisC10S "r1", analysisC10S "r2", analysisC10S "r3",
   analysisC10S "r4", analysisC10F]

/-- C6 fixture: a terminal node mapping to the SUCCESS outcome. -/
def nodeC6 : Node :=
  { id := "success", type := NodeType.terminal, stage := Stage.complete,
    purpose := "end" }

/-- C6 fixture: graph whose only node is the terminal "success", with no
edges at all. -/
def graphC6 : Graph :=
  { start_node := "success", terminal_nodes := ["success"],
    nodes := [("success", nodeC6)], edges := [] }

def capsC6 : Capabilities := { llm_complete := fun _ _ => .error "no llm" }

/-- C6 fixture: controller context sitting on the terminal node, not yet
visited and with the completion flag unset. -/
def ctrlC6 : Ctrl :=
  { graph := graphC6, memory := {}, state := { current_node := "success" } }

/-- C6 fixture: the same context after the completion flag was set. -/
def ctrlC6done : Ctrl :=
  { ctrlC6 with state :=
      { ctrlC6.state with data := Value.obj [("done", Value.bool true)] } }

/-- The node information actually reproduced by `from_dict ∘ to_dict`:
an empty-string skill name degrades to `none`, the skill configuration
survives only alongside a non-empty skill name, and the
`memory.require_triplets` / `parallel.wait_for_all` flags are not
serialized at all, so they revert to their defaults.
`normSkillName` drops an empty-string skill name. -/
def normSkillName : Option String → Option String
  | some sn => if sn ≠ "" then some sn else none
  | none => none

/-- The skill configuration surviving the round trip: kept only
alongside a non-empty skill name. -/
def normSkillConfig (cfg : List (String × Value)) : Option String → List (String × Value)
  | some sn => if sn ≠ "" then cfg else []
  | none => []

/-- The node information actually reproduced by the round trip. -/
def normalizeNode (n : Node) : Node :=
  { n with
    skill_name := normSkillName n.skill_name,
    skill_config := normSkillConfig n.skill_config n.skill_name,
    memory := { n.memory with require_triplets := false },
    parallel := { n.parallel with wait_for_all := true } }

/-- The edge information reproduced by the round trip: the guard
expression survives but its description does not. -/
def normalizeEdge (e : Edge) : Edge :=
  { e with guard := { expression := e.guard.expression } }

/-- C7 counterexample fixture: a node asking for triplet-bearing memory
writes. -/
def nodeC7 : Node :=
  { id := "n", type := NodeType.flow, stage := Stage.intake, purpose := "p",
    memory := { require_triplets := true } }

def graphC7 : Graph := { start_node := "n", nodes := [("n", nodeC7)] }

/-! ## Claims -/

/-- C5: for every guard expression and state context, evaluation never
propagates an error to the caller: whenever the underlying expression
evaluation fails, `Guard.evaluate` returns `false`, so guard evaluation
is a total Boolean function of (expression, context). -/
theorem C5_guard_evaluation_total (g : Guard) (state : Value) (msg : String)
    (herr : evalExpr g.expression (buildEvalEnv state) = .error msg) :
    g.evaluate state = false := by
  unfold Guard.evaluate
  rw [herr]

/-- Witness for C5 at a concrete failing guard (an unbound name in an
empty context). -/
theorem C5_guard_evaluation_total_witness :
    evalExpr (PyExpr.var "missing") (buildEvalEnv (.obj [])) =
      .error "NameError: name missing is not defined" ∧
    Guard.evaluate { expression := PyExpr.var "missing" } (.obj []) = false := by
  refine ⟨rfl, ?_⟩
  exact C5_guard_evaluation_total { expression := PyExpr.var "missing" } (.obj [])
    "NameError: name missing is not defined" rfl

/-- C9 counterexample: creating a relationship via
`update_relationship_weight` on a graph with no matching relationship
and delta 3/2 produces weight 5/2, outside [0, 2] — so the claim that
every weight lies in [0, 2] after any call is false. -/
theorem C9_relationship_weight_counterexample :
    ((Graph.update_relationship_weight {} "a" "b" (3/2) "obs").relationships.map
      Relationship.weight) = [5/2] ∧ ¬ ((5/2 : Rat) ≤ 2) := by
  constructor
  · show List.map Relationship.weight
      (updateRelationshipList "a" "b" (3/2) "obs" []) = [5/2]
    unfold updateRelationshipList
    norm_num
  · norm_num

/-- C9 amended: `Relationship.update_weight` always clamps to [0, 2], so
updating an existing relationship preserves the all-weights-in-[0,2]
invariant; but when no relationship between the two concepts exists, a
new one is created with the unclamped weight `1 + delta` (inside [0, 2]
only when `-1 ≤ delta ≤ 1`). -/
theorem C9_relationship_weight_amended :
    (∀ (r : Relationship) (delta : Rat) (obs : String),
      0 ≤ (r.update_weight delta obs).weight ∧ (r.update_weight delta obs).weight ≤ 2) ∧
    (∀ (g : Graph) (a b : String) (delta : Rat) (obs : String),
      (∃ r ∈ g.relationships, r.from_concept = a ∧ r.to_concept = b) →
      (∀ r ∈ g.relationships, 0 ≤ r.weight ∧ r.weight ≤ 2) →
      ∀ r ∈ (g.update_relationship_weight a b delta obs).relationships,
        0 ≤ r.weight ∧ r.weight ≤ 2) ∧
    (∀ (g : Graph) (a b : String) (delta : Rat) (obs : String),
      (∀ r ∈ g.relationships, ¬(r.from_concept = a ∧ r.to_concept = b)) →
      (g.update_relationship_weight a b delta obs).relationships.map
        Relationship.weight = g.relationships.map Relationship.weight ++ [1 + delta]) := by
  refine ⟨?_, ?_, ?_⟩
  · intro r delta obs
    unfold Relationship.update_weight
    exact ⟨le_max_left 0 _, max_le (by norm_num) (min_le_left 2 _)⟩
  · intro g a b delta obs
    have main : ∀ (l : List Relationship),
        (∃ r ∈ l, r.from_concept = a ∧ r.to_concept = b) →
        (∀ r ∈ l, 0 ≤ r.weight ∧ r.weight ≤ 2) →
        ∀ r ∈ updateRelationshipList a b delta obs l,
          0 ≤ r.weight ∧ r.weight ≤ 2 := by
      intro l
      induction l with
      | nil => intro hex _ _ _; simp at hex
      | cons x rest ih =>
        intro hex hall r hr
        unfold updateRelationshipList at hr
        by_cases hx : x.from_concept = a ∧ x.to_concept = b
        · rw [if_pos hx] at hr
          rcases List.mem_cons.mp hr with h | h
          · subst h
            exact ⟨le_max_left 0 _, max_le (by norm_num) (min_le_left 2 _)⟩
          · exact hall r (List.mem_cons_of_mem x h)
        · rw [if_neg hx] at hr
          rcases List.mem_cons.mp hr with h | h
          · rw [h]; exact hall x (List.mem_cons_self x rest)
          · rcases hex with ⟨r', hr', hr'2⟩
            rcases List.mem_cons.mp hr' with h' | h'
            · exact absurd (h' ▸ hr'2) hx
            · exact ih ⟨r', h', hr'2⟩
                (fun r'' hr'' => hall r'' (List.mem_cons_of_mem x hr'')) r h
    exact fun hex hall => main g.relationships hex hall
  · intro g a b delta obs
    have main : ∀ (l : List Relationship),
        (∀ r ∈ l, ¬(r.from_concept = a ∧ r.to_concept = b)) →
        (updateRelationshipList a b delta obs l).map Relationship.weight =
          l.map Relationship.weight ++ [1 + delta] := by
      intro l
      induction l with
      | nil => intro _; rfl
      | cons x rest ih =>
        intro hnone
        unfold updateRelationshipList
        rw [if_neg (hnone x (List.mem_cons_self x rest))]
        simp only [List.map_cons, List.cons_append, List.cons.injEq, true_and]
        exact ih (fun r hr => hnone r (List.mem_cons_of_mem x hr))
    exact fun hnone => main g.relationships hnone

/-- Witness for C9 amended at concrete inputs: an (a, b) relationship of
weight 1 updated with delta 5 stays in [0, 2]; on a graph with no
matching relationship, delta 1/2 creates weight 1 + 1/2. -/
theorem C9_relationship_weight_amended_witness :
    (0 ≤ (relAB.update_weight 5 "obs").weight ∧
      (relAB.update_weight 5 "obs").weight ≤ 2) ∧
    (∀ r ∈ (graphRelAB.update_relationship_weight "a" "b" 5 "obs").relationships,
      0 ≤ r.weight ∧ r.weight ≤ 2) ∧
    ((Graph.update_relationship_weight {} "a" "b" (1/2) "obs").relationships.map
      Relationship.weight = [] ++ [1 + 1/2]) := by
  refine ⟨?_, ?_, ?_⟩
  · exact C9_relationship_weight_amended.1 relAB 5 "obs"
  · exact C9_relationship_weight_amended.2.1 graphRelAB "a" "b" 5 "obs"
      ⟨relAB, List.mem_singleton_self _, rfl, rfl⟩
      (by intro r hr
          rw [show graphRelAB.relationships = [relAB] from rfl, List.mem_singleton] at hr
          subst hr
          constructor <;> norm_num [relAB])
  · exact C9_relationship_weight_amended.2.2 {} "a" "b" (1/2) "obs"
      (by intro r hr; simp at hr)

/-- A guarded `filterMap` is empty iff no element satisfies the guard. -/
theorem filterMapIte_eq_nil {α β : Type} (p : α → Bool) (f : α → β) (l : List α) :
    l.filterMap (fun x => if p x then some (f x) else none) = [] ↔
      ∀ x ∈ l, p x = false := by
  induction l with
  | nil => simp
  | cons x rest ih =>
    cases hp : p x <;> simp [List.filterMap_cons, hp, ih]

/-- A guarded `filterMap` emits one entry per element satisfying the
guard. -/
theorem filterMapIte_length {α β : Type} (p : α → Bool) (f : α → β) (l : List α) :
    (l.filterMap (fun x => if p x then some (f x) else none)).length = l.countP p := by
  induction l with
  | nil => simp
  | cons x rest ih =>
    cases hp : p x <;> simp [List.filterMap_cons, hp, ih, List.countP_cons]

/-- A two-guard `flatMap` is empty iff no element satisfies either
guard. -/
theorem flatMapPair_eq_nil {α β : Type} (p q : α → Bool) (f h : α → β) (l : List α) :
    (l.flatMap (fun x =>
      (if p x then [f x] else []) ++ (if q x then [h x] else []))) = [] ↔
      ∀ x ∈ l, p x = false ∧ q x = false := by
  induction l with
  | nil => simp
  | cons x rest ih =>
    cases hp : p x <;> cases hq : q x <;>
      simp [List.flatMap_cons, hp, hq, ih]

/-- A two-guard `flatMap` emits one entry per satisfied guard. -/
theorem flatMapPair_length {α β : Type} (p q : α → Bool) (f h : α → β) (l : List α) :
    (l.flatMap (fun x =>
      (if p x then [f x] else []) ++ (if q x then [h x] else []))).length =
      l.countP p + l.countP q := by
  induction l with
  | nil => simp
  | cons x rest ih =>
    cases hp : p x <;> cases hq : q x <;>
      simp [List.flatMap_cons, hp, hq, ih, List.countP_cons] <;> omega

/-- C2: `validate` returns the empty list exactly when the start node
exists, every declared terminal exists, every edge's source is the
wildcard or an existing node and its target an existing node, every
turbulent edge declares a retry ceiling, and every non-terminal node has
an outgoing edge; and it returns one entry per violation (never stopping
at the first). -/
theorem C2_validate_complete (g : Graph) :
    (g.validate = [] ↔
      (g.hasNode g.start_node = true ∧
       (∀ t ∈ g.terminal_nodes, g.hasNode t = true) ∧
       (∀ e ∈ g.edges, (e.from_node = "*" ∨ g.hasNode e.from_node = true) ∧
         g.hasNode e.to_node = true) ∧
       (∀ e ∈ g.edges, e.type = EdgeType.turbulent → e.max_retries ≠ none) ∧
       (∀ p ∈ g.nodes, p.1 ∉ g.terminal_nodes → g.get_outgoing_edges p.1 ≠ []))) ∧
    g.validate.length =
      (if g.hasNode g.start_node then 0 else 1) +
      g.terminal_nodes.countP (fun t => !g.hasNode t) +
      g.edges.countP (fun e => e.from_node != "*" && !g.hasNode e.from_node) +
      g.edges.countP (fun e => !g.hasNode e.to_node) +
      g.edges.countP (fun e => e.type == EdgeType.turbulent && e.max_retries.isNone) +
      (g.nodes.map Prod.fst).countP (fun nid =>
        !g.terminal_nodes.contains nid && (g.get_outgoing_edges nid).isEmpty) := by
  constructor
  · unfold Graph.validate
    simp only [List.append_eq_nil, filterMapIte_eq_nil, flatMapPair_eq_nil]
    have hA : ((if !g.hasNode g.start_node then
        ["Start node " ++ g.start_node ++ " not found in nodes"] else []) =
          ([] : List String)) ↔ g.hasNode g.start_node = true := by
      cases h : g.hasNode g.start_node <;> simp [h]
    rw [hA]
    constructor
    · rintro ⟨⟨⟨⟨h1, h2⟩, h3⟩, h4⟩, h5⟩
      refine ⟨h1, ?_, ?_, ?_, ?_⟩
      · intro t ht
        have := h2 t ht
        simpa using this
      · intro e he
        have hft := h3 e he
        constructor
        · by_cases hw : e.from_node = "*"
          · exact Or.inl hw
          · right
            have hf := hft.1
            rw [Bool.and_eq_false_iff] at hf
            rcases hf with hf | hf
            · exact absurd (by simpa using hf) hw
            · simpa using hf
        · simpa using hft.2
      · intro e he htype
        have := h4 e he
        simp only [htype, beq_self_eq_true, Bool.true_and, Bool.and_eq_false_iff] at this
        intro hnone
        rw [hnone] at this
        simp at this
      · intro p hp hterm
        have := h5 p.1 (List.mem_map.mpr ⟨p, hp, rfl⟩)
        simp only [Bool.and_eq_false_iff, Bool.not_eq_false] at this
        rcases this with h | h
        · exact absurd (by simpa using h) hterm
        · intro hnil
          rw [hnil] at h
          simp at h
    · rintro ⟨h1, h2, h3, h4, h5⟩
      refine ⟨⟨⟨⟨h1, ?_⟩, ?_⟩, ?_⟩, ?_⟩
      · intro t ht
        simp [h2 t ht]
      · intro e he
        constructor
        · rcases (h3 e he).1 with hw | hn
          · simp [hw]
          · simp [hn]
        · simp [(h3 e he).2]
      · intro e he
        by_cases htype : e.type = EdgeType.turbulent
        · have := h4 e he htype
          cases hmr : e.max_retries with
          | none => exact absurd hmr this
          | some r => simp [hmr]
        · simp [htype]
      · intro nid hnid
        rcases List.mem_map.mp hnid with ⟨p, hp, rfl⟩
        by_cases hterm : p.1 ∈ g.terminal_nodes
        · have : g.terminal_nodes.contains p.1 = true := by simpa using hterm
          simp only [this, Bool.not_true, Bool.false_and]
        · have hout := h5 p hp hterm
          have : g.terminal_nodes.contains p.1 = false := by simpa using hterm
          simp [this, List.isEmpty_iff, hout]
  · unfold Graph.validate
    rw [List.length_append, List.length_append, List.length_append, List.length_append]
    rw [filterMapIte_length, flatMapPair_length, filterMapIte_length, filterMapIte_length]
    cases h : g.hasNode g.start_node <;> simp [h] <;> omega

/-- C4: Decision nodes whose precondition holds evaluate the ordered rule
list against the single named state variable — the precondition only
gates rule evaluation; the first rule whose condition is satisfied or is
the literal `default` is the match; an unsatisfied rule is skipped; a
rule whose condition fails to evaluate is skipped with a logged
observation; the matched rule's target is recorded in the state patch;
and on the example table, v = 0.9 ↦ "A", v = 0.6 ↦ "B", v = 0.1 ↦ "C". -/
theorem C4_decision_routing :
    (∀ (node : Node) (s : State) (config : DecisionConfig) (p : PyExpr) (v : Value),
      node.decision = some config → config.precondition = some p →
      evalExpr p (buildEvalEnv s.to_context) = .ok v → v.truthy = true →
      executeDecision node s =
        executeDecision { node with decision := some { config with precondition := none } } s) ∧
    (∀ (value : Value) (rule : List (String × Value))
        (rest : List (List (String × Value))) (cond : String),
      lookupField rule "condition" = some (.str cond) →
      ((cond = "default" → evalRules value (rule :: rest) = (some rule, [])) ∧
       (cond ≠ "default" → evalCondition cond value = .ok true →
         evalRules value (rule :: rest) = (some rule, [])) ∧
       (cond ≠ "default" → evalCondition cond value = .ok false →
         evalRules value (rule :: rest) = evalRules value rest) ∧
       (∀ msg, cond ≠ "default" → evalCondition cond value = .error msg →
         evalRules value (rule :: rest) =
           ((evalRules value rest).1,
            { observation := "Decision rule evaluation error: " ++ msg,
              data := .obj [("rule", .obj rule)] } :: (evalRules value rest).2)))) ∧
    (∀ (node : Node) (s : State) (config : DecisionConfig),
      node.decision = some config → config.precondition = none →
      getPath (executeDecision node s).1.state_patch "decision_target" =
        some (match (evalRules (getNestedValue (buildEvalEnv s.to_context) config.variable_)
            config.rules).1 with
          | some rule =>
            match lookupField rule "target" with
            | some (.str t) => Value.str t
            | _ => Value.str ""
          | none => Value.null)) ∧
    (getPath (executeDecision decisionNodeC4 (stateC4 (mkRat 9 10))).1.state_patch
        "decision_target" = some (.str "A") ∧
     getPath (executeDecision decisionNodeC4 (stateC4 (mkRat 6 10))).1.state_patch
        "decision_target" = some (.str "B") ∧
     getPath (executeDecision decisionNodeC4 (stateC4 (mkRat 1 10))).1.state_patch
        "decision_target" = some (.str "C")) := by
  refine ⟨?_, ?_, ?_, ?_, ?_, ?_⟩
  · intro node s config p v hdec hpre hev htr
    simp only [executeDecision, hdec, hpre, hev, htr]
  · intro value rule rest cond hcond
    refine ⟨?_, ?_, ?_, ?_⟩
    · intro hdef
      simp [evalRules, hcond, hdef]
    · intro hnd hok
      simp only [evalRules, hcond, if_neg hnd, hok]
    · intro hnd hok
      simp only [evalRules, hcond, if_neg hnd, hok]
    · intro msg hnd herr
      simp only [evalRules, hcond, if_neg hnd, herr]
  · intro node s config hdec hpre
    cases hm : (evalRules (getNestedValue (buildEvalEnv s.to_context) config.variable_)
        config.rules) with
    | mk matched obs =>
      cases matched with
      | none =>
        simp only [executeDecision, hdec, hpre, hm]
        rfl
      | some rule =>
        simp only [executeDecision, hdec, hpre, hm, Option.map_some']
        cases ht : lookupField rule "target" with
        | none => simp only [ht]; rfl
        | some tv => cases tv <;> simp only [ht] <;> rfl
  · rfl
  · rfl
  · rfl

/-- Witness for C4 at concrete inputs: the satisfied precondition gates
nothing, the first rule of the example table matches at value 9/10, and
the decision target recorded in the state patch follows the rule loop. -/
theorem C4_decision_routing_witness :
    (executeDecision decisionNodeC4Pre (stateC4 (mkRat 9 10)) =
      executeDecision decisionNodeC4NoPre (stateC4 (mkRat 9 10))) ∧
    evalRules (.num (mkRat 9 10)) (ruleA :: rulesBC) = (some ruleA, []) ∧
    getPath (executeDecision decisionNodeC4 (stateC4 (mkRat 9 10))).1.state_patch
      "decision_target" =
      some (match (evalRules (getNestedValue
          (buildEvalEnv (stateC4 (mkRat 9 10)).to_context) "data.confidence")
          decisionRulesC4).1 with
        | some rule =>
          match lookupField rule "target" with
          | some (.str t) => Value.str t
          | _ => Value.str ""
        | none => Value.null) := by
  refine ⟨?_, ?_, ?_⟩
  · exact C4_decision_routing.1 decisionNodeC4Pre (stateC4 (mkRat 9 10))
      decisionConfigC4Pre (.lit (.bool true)) (.bool true) rfl rfl rfl rfl
  · exact (C4_decision_routing.2.1 (.num (mkRat 9 10)) ruleA rulesBC "> 0.8"
      rfl).2.1 (by decide) rfl
  · exact C4_decision_routing.2.2.1 decisionNodeC4 (stateC4 (mkRat 9 10))
      { variable_ := "data.confidence", rules := decisionRulesC4 } rfl rfl

/-- Successful invalidation scan: some currently-valid record with the
id sits at position `i`, and the output only closes that record's
validity window. -/
theorem invalidateScan_eq_some (rid now : Nat) :
    ∀ (l l' : List MemoryRecord), invalidateScan rid now l = some l' →
      ∃ i r, l[i]? = some r ∧ r.record_id = rid ∧ r.is_valid now = true ∧
        l' = l.set i { r with valid_to := some now } := by
  intro l
  induction l with
  | nil => intro l' h; simp [invalidateScan] at h
  | cons x rest ih =>
    intro l' h
    unfold invalidateScan at h
    by_cases hx : x.record_id = rid ∧ x.is_valid now = true
    · rw [if_pos hx] at h
      refine ⟨0, x, by simp, hx.1, hx.2, ?_⟩
      simpa using h.symm
    · rw [if_neg hx] at h
      cases hrec : invalidateScan rid now rest with
      | none => rw [hrec] at h; exact absurd h (by simp)
      | some rest' =>
        rw [hrec] at h
        rcases ih rest' hrec with ⟨i, r, hget, hid, hval, hset⟩
        refine ⟨i + 1, r, by simpa using hget, hid, hval, ?_⟩
        have hl' := Option.some.inj h
        rw [List.set_cons_succ, ← hl', hset]

/-- The invalidation scan fails exactly when no currently-valid record
carries the id. -/
theorem invalidateScan_eq_none (rid now : Nat) :
    ∀ (l : List MemoryRecord),
      invalidateScan rid now l = none ↔
        ∀ r ∈ l, ¬(r.record_id = rid ∧ r.is_valid now = true) := by
  intro l
  induction l with
  | nil => simp [invalidateScan]
  | cons x rest ih =>
    unfold invalidateScan
    by_cases hx : x.record_id = rid ∧ x.is_valid now = true
    · rw [if_pos hx]
      simp only [List.mem_cons]
      constructor
      · intro h; exact absurd h (by simp)
      · intro h; exact absurd hx (h x (Or.inl rfl))
    · rw [if_neg hx]
      cases hrec : invalidateScan rid now rest with
      | none =>
        simp only [List.mem_cons]
        constructor
        · intro _ r hr
          rcases hr with h | h
          · subst h; exact hx
          · exact (ih.mp hrec) r h
        · intro _; trivial
      | some rest' =>
        simp only [List.mem_cons]
        constructor
        · intro h; exact absurd h (by simp)
        · intro h
          have := ih.mpr (fun r hr => h r (Or.inr hr))
          rw [hrec] at this
          exact absurd this (by simp)

/-- C8: a successful `invalidate` only closes the validity window of the
single matched currently-valid record — its fact and every other record
and the index are untouched; invoking it when no currently-valid record
carries the id returns `False` and leaves the store unchanged; a record
invalidated at time `now` is rejected by a second `invalidate` at any
strictly later time; and a currently-valid record with the id guarantees
success. -/
theorem C8_invalidate_frame :
    (∀ (m : MemoryStore) (rid now : Nat) (m' : MemoryStore),
      m.invalidate rid now = (true, m') →
      m'.triplet_index = m.triplet_index ∧ m'.next_id = m.next_id ∧
      ∃ i r, m.records[i]? = some r ∧ r.record_id = rid ∧ r.is_valid now = true ∧
        m'.records = m.records.set i { r with valid_to := some now }) ∧
    (∀ (m : MemoryStore) (rid now : Nat),
      (∀ r ∈ m.records, ¬(r.record_id = rid ∧ r.is_valid now = true)) →
      m.invalidate rid now = (false, m)) ∧
    (∀ (m : MemoryStore) (rid now : Nat),
      (∃ r ∈ m.records, r.record_id = rid ∧ r.is_valid now = true) →
      (m.invalidate rid now).1 = true) ∧
    (∀ (m : MemoryStore) (rid now now' : Nat) (m' : MemoryStore),
      (m.records.map MemoryRecord.record_id).Nodup →
      m.invalidate rid now = (true, m') → now < now' →
      m'.invalidate rid now' = (false, m')) := by
  have hsucc : ∀ (m : MemoryStore) (rid now : Nat) (m' : MemoryStore),
      m.invalidate rid now = (true, m') →
      m'.triplet_index = m.triplet_index ∧ m'.next_id = m.next_id ∧
      ∃ i r, m.records[i]? = some r ∧ r.record_id = rid ∧ r.is_valid now = true ∧
        m'.records = m.records.set i { r with valid_to := some now } := by
    intro m rid now m' h
    unfold MemoryStore.invalidate at h
    cases hscan : invalidateScan rid now m.records with
    | none => rw [hscan] at h; exact absurd h (by simp)
    | some records' =>
      rw [hscan] at h
      have hm' : m' = { m with records := records' } := by
        have := congrArg Prod.snd h
        simpa using this.symm
      subst hm'
      rcases invalidateScan_eq_some rid now m.records records' hscan with
        ⟨i, r, hget, hid, hval, hset⟩
      exact ⟨rfl, rfl, i, r, hget, hid, hval, hset⟩
  have hfail : ∀ (m : MemoryStore) (rid now : Nat),
      (∀ r ∈ m.records, ¬(r.record_id = rid ∧ r.is_valid now = true)) →
      m.invalidate rid now = (false, m) := by
    intro m rid now h
    unfold MemoryStore.invalidate
    rw [(invalidateScan_eq_none rid now m.records).mpr h]
  refine ⟨hsucc, hfail, ?_, ?_⟩
  · intro m rid now hex
    unfold MemoryStore.invalidate
    cases hscan : invalidateScan rid now m.records with
    | none =>
      rcases hex with ⟨r, hr, hid, hval⟩
      exact absurd ⟨hid, hval⟩ ((invalidateScan_eq_none rid now m.records).mp hscan r hr)
    | some records' => rfl
  · intro m rid now now' m' hnodup hinv hlt
    rcases hsucc m rid now m' hinv with ⟨_, _, i, r, hget, hid, hval, hset⟩
    apply hfail
    intro rec hrec
    rintro ⟨hrecid, hrecval⟩
    rw [hset] at hrec
    rcases List.mem_iff_getElem?.mp hrec with ⟨j, hj⟩
    rcases List.getElem?_eq_some_iff.mp hget with ⟨hilen, _⟩
    by_cases hji : j = i
    · subst hji
      have hjlen : j < m.records.length := hilen
      rw [List.getElem?_set_self hjlen] at hj
      have hrec_eq := Option.some.inj hj
      have hvt : rec.valid_to = some now := by rw [← hrec_eq]
      unfold MemoryRecord.is_valid at hrecval
      rw [hvt] at hrecval
      by_cases hfrom : now' < rec.valid_from
      · rw [if_pos hfrom] at hrecval; exact absurd hrecval (by simp)
      · rw [if_neg hfrom] at hrecval
        simp only [Bool.not_eq_true'] at hrecval
        simp only [decide_eq_false_iff_not, not_lt] at hrecval
        omega
    · rw [List.getElem?_set_ne (Ne.symm hji)] at hj
      have hmapj : (m.records.map MemoryRecord.record_id)[j]? = some rid := by
        rw [List.getElem?_map, hj]
        simp [hrecid]
      have hmapi : (m.records.map MemoryRecord.record_id)[i]? = some rid := by
        rw [List.getElem?_map, hget]
        simp [hid]
      rcases List.getElem?_eq_some_iff.mp hj with ⟨hjlen, _⟩
      exact hji (List.getElem?_inj (by simpa using hjlen) hnodup (by rw [hmapj, hmapi]))

/-- Witness for C8 at a concrete store: invalidating record 0 at time 5
succeeds and only closes its window; a second invalidation at time 6 is
rejected and leaves the store unchanged. -/
theorem C8_invalidate_frame_witness :
    (memStoreWInv.triplet_index = memStoreW.triplet_index ∧
      memStoreWInv.next_id = memStoreW.next_id ∧
      ∃ i r, memStoreW.records[i]? = some r ∧ r.record_id = 0 ∧
        r.is_valid 5 = true ∧
        memStoreWInv.records = memStoreW.records.set i { r with valid_to := some 5 }) ∧
    (memStoreW.invalidate 0 5).1 = true ∧
    memStoreWInv.invalidate 0 6 = (false, memStoreWInv) := by
  refine ⟨?_, ?_, ?_⟩
  · exact C8_invalidate_frame.1 memStoreW 0 5 memStoreWInv rfl
  · exact C8_invalidate_frame.2.2.1 memStoreW 0 5
      ⟨memRecordW, by simp [memStoreW], rfl, rfl⟩
  · exact C8_invalidate_frame.2.2.2 memStoreW 0 5 6 memStoreWInv
      (by simp [memStoreW]) rfl (by omega)

/-- Under distinct ids, `find?` retrieves exactly the member record
with a given id. -/
theorem find_record_of_mem (l : List MemoryRecord)
    (hnd : (l.map MemoryRecord.record_id).Nodup)
    (r : MemoryRecord) (hr : r ∈ l) :
    l.find? (fun x => x.record_id = r.record_id) = some r := by
  induction l with
  | nil => simp at hr
  | cons x rest ih =>
    simp only [List.map_cons, List.nodup_cons] at hnd
    rcases List.mem_cons.mp hr with h | h
    · subst h
      exact List.find?_cons_of_pos rest (by simp)
    · have hne : x.record_id ≠ r.record_id := by
        intro he
        exact hnd.1 (he ▸ List.mem_map_of_mem MemoryRecord.record_id h)
      rw [List.find?_cons_of_neg rest (by simpa using hne)]
      exact ih hnd.2 h

/-- Under distinct record ids, `_get_record` retrieves exactly the
member record with that id. -/
theorem get_record_of_mem (m : MemoryStore)
    (hnd : (m.records.map MemoryRecord.record_id).Nodup)
    (r : MemoryRecord) (hr : r ∈ m.records) :
    m.get_record r.record_id = some r :=
  find_record_of_mem m.records hnd r hr

/-- `indexInsert` preserves existing index memberships. -/
theorem indexInsert_mono (idx : List ((String × String) × List Nat))
    (key key' : String × String) (rid x : Nat) (rids : List Nat)
    (hfind : indexFind idx key = some rids) (hx : x ∈ rids) :
    ∃ rids', indexFind (indexInsert idx key' rid) key = some rids' ∧ x ∈ rids' := by
  induction idx generalizing rids with
  | nil => simp [indexFind] at hfind
  | cons e rest ih =>
    obtain ⟨k, l⟩ := e
    unfold indexFind at hfind
    unfold indexInsert
    by_cases hk : k = key'
    · subst hk
      rw [if_pos rfl]
      by_cases hk2 : k = key
      · rw [if_pos hk2] at hfind
        unfold indexFind
        rw [if_pos hk2]
        refine ⟨l ++ [rid], rfl, ?_⟩
        simp only [Option.some.injEq] at hfind
        exact List.mem_append_left _ (hfind ▸ hx)
      · rw [if_neg hk2] at hfind
        unfold indexFind
        rw [if_neg hk2]
        exact ⟨rids, hfind, hx⟩
    · rw [if_neg hk]
      by_cases hk2 : k = key
      · rw [if_pos hk2] at hfind
        unfold indexFind
        rw [if_pos hk2]
        refine ⟨l, rfl, ?_⟩
        simp only [Option.some.injEq] at hfind
        exact hfind ▸ hx
      · rw [if_neg hk2] at hfind
        unfold indexFind
        rw [if_neg hk2]
        exact ih rids hfind hx

/-- After `indexInsert`, the inserted id is a member at its key. -/
theorem indexInsert_self (idx : List ((String × String) × List Nat))
    (key : String × String) (rid : Nat) :
    ∃ rids, indexFind (indexInsert idx key rid) key = some rids ∧ rid ∈ rids := by
  induction idx with
  | nil =>
    unfold indexInsert indexFind
    rw [if_pos rfl]
    exact ⟨[rid], rfl, by simp⟩
  | cons e rest ih =>
    obtain ⟨k, l⟩ := e
    unfold indexInsert
    by_cases hk : k = key
    · rw [if_pos hk]
      unfold indexFind
      rw [if_pos hk]
      exact ⟨l ++ [rid], rfl, by simp⟩
    · rw [if_neg hk]
      unfold indexFind
      rw [if_neg hk]
      exact ih

/-- After folding `indexInsert` over a triplet list, every previously
indexed membership survives. -/
theorem indexFold_mono (rid : Nat) (ts : List Triplet)
    (idx : List ((String × String) × List Nat)) (key : String × String)
    (x : Nat) (rids : List Nat)
    (hfind : indexFind idx key = some rids) (hx : x ∈ rids) :
    ∃ rids', indexFind
      (ts.foldl (fun acc t => indexInsert acc (t.subject, t.predicate) rid) idx) key =
        some rids' ∧ x ∈ rids' := by
  induction ts generalizing idx rids with
  | nil => exact ⟨rids, hfind, hx⟩
  | cons t rest ih =>
    rcases indexInsert_mono idx key (t.subject, t.predicate) rid x rids hfind hx with
      ⟨rids', hfind', hx'⟩
    exact ih (indexInsert idx (t.subject, t.predicate) rid) rids' hfind' hx'

/-- After folding `indexInsert` over a triplet list, the inserted id is
indexed at every triplet's key. -/
theorem indexFold_self (rid : Nat) (ts : List Triplet)
    (idx : List ((String × String) × List Nat)) (t : Triplet) (ht : t ∈ ts) :
    ∃ rids, indexFind
      (ts.foldl (fun acc t => indexInsert acc (t.subject, t.predicate) rid) idx)
        (t.subject, t.predicate) = some rids ∧ rid ∈ rids := by
  induction ts generalizing idx with
  | nil => simp at ht
  | cons t0 rest ih =>
    rcases List.mem_cons.mp ht with h | h
    · subst h
      rcases indexInsert_self idx (t.subject, t.predicate) rid with ⟨rids, hfind, hx⟩
      exact indexFold_mono rid rest _ _ rid rids hfind hx
    · exact ih (indexInsert idx (t0.subject, t0.predicate) rid) h

/-- If the conflict check returns no conflicts on a well-formed store,
then no currently-valid record holds a triplet contradicting the fact. -/
theorem check_conflicts_sound (m : MemoryStore) (fact : MemFact) (now : Nat)
    (hwf : storeWF m)
    (hempty : m.check_triplet_conflicts fact now = []) :
    ∀ r ∈ m.records, r.is_valid now = true →
      ∀ t ∈ fact.triplets, ∀ ex ∈ r.fact.triplets,
        ex.subject = t.subject → ex.predicate = t.predicate → ex.object = t.object := by
  intro r hr hval t ht ex hex hsub hpred
  by_contra hobj
  rcases hwf.1 r hr ex hex with ⟨rids, hfind, hmem⟩
  rw [hsub, hpred] at hfind
  unfold MemoryStore.check_triplet_conflicts at hempty
  rw [List.flatMap_eq_nil_iff] at hempty
  have h1 := hempty t ht
  rw [hfind] at h1
  rw [List.flatMap_eq_nil_iff] at h1
  have h2 := h1 r.record_id hmem
  rw [get_record_of_mem m hwf.2.2 r hr] at h2
  simp only [hval, if_true, List.filterMap_eq_nil_iff] at h2
  have h3 := h2 ex hex
  rw [if_pos ⟨hsub, hpred, hobj⟩] at h3
  exact absurd h3 (by simp)

/-- A record written at time `now` is valid at `now`. -/
theorem freshRecord_valid (rid : Nat) (fact : MemFact) (run node : String) (now : Nat) :
    MemoryRecord.is_valid
      { record_id := rid, fact := fact, valid_from := now,
        run_id := some run, node_id := some node } now = true := by
  unfold MemoryRecord.is_valid
  simp

/-- `writeOne` preserves store well-formedness. -/
theorem writeOne_wf (m : MemoryStore) (fact : MemFact) (run node : String) (now : Nat)
    (hwf : storeWF m) : storeWF (writeOne m fact run node now).1 := by
  unfold writeOne MemoryStore.index_record
  refine ⟨?_, ?_, ?_⟩
  · intro r hr t ht
    simp only [List.mem_append, List.mem_singleton] at hr
    rcases hr with hr | hr
    · rcases hwf.1 r hr t ht with ⟨rids, hfind, hmem⟩
      exact indexFold_mono m.next_id _ m.triplet_index _ r.record_id rids hfind hmem
    · subst hr
      exact indexFold_self m.next_id fact.triplets m.triplet_index t ht
  · intro r hr
    simp only [List.mem_append, List.mem_singleton] at hr
    rcases hr with hr | hr
    · exact Nat.lt_succ_of_lt (hwf.2.1 r hr)
    · subst hr
      exact Nat.lt_succ_self _
  · simp only [List.map_append, List.map_cons, List.map_nil]
    rw [List.nodup_append]
    refine ⟨hwf.2.2, by simp, ?_⟩
    intro a ha
    simp only [List.mem_singleton]
    rcases List.mem_map.mp ha with ⟨r, hr, hra⟩
    subst hra
    exact Nat.ne_of_lt (hwf.2.1 r hr)

/-- `writeOne` preserves the no-contradiction property when the fact has
no triplets or passed the conflict check. -/
theorem writeOne_nc (m : MemoryStore) (fact : MemFact) (run node : String) (now : Nat)
    (hwf : storeWF m) (hnc : noContradiction m now)
    (hok : fact.triplets = [] ∨ m.check_triplet_conflicts fact now = []) :
    noContradiction (writeOne m fact run node now).1 now := by
  have hsound : ∀ r ∈ m.records, r.is_valid now = true →
      ∀ t ∈ fact.triplets, ∀ ex ∈ r.fact.triplets,
        ex.subject = t.subject → ex.predicate = t.predicate → ex.object = t.object := by
    rcases hok with hok | hok
    · intro r _ _ t ht
      rw [hok] at ht
      simp at ht
    · exact check_conflicts_sound m fact now hwf hok
  intro r1 hr1 r2 hr2 hne hv1 hv2 t1 ht1 t2 ht2 hsub hpred
  unfold writeOne at hr1 hr2
  simp only [List.mem_append, List.mem_singleton, MemoryStore.index_record] at hr1 hr2
  rcases hr1 with hr1 | hr1 <;> rcases hr2 with hr2 | hr2
  · exact hnc r1 hr1 r2 hr2 hne hv1 hv2 t1 ht1 t2 ht2 hsub hpred
  · subst hr2
    exact (hsound r1 hr1 hv1 t2 ht2 t1 ht1 hsub hpred).symm ▸
      (hsound r1 hr1 hv1 t2 ht2 t1 ht1 hsub hpred)
  · subst hr1
    exact (hsound r2 hr2 hv2 t1 ht1 t2 ht2 hsub.symm hpred.symm).symm
  · subst hr1; subst hr2
    exact absurd rfl hne

/-- The write loop with conflict checking preserves well-formedness and
the no-contradiction property across all written facts. -/
theorem writeLoop_preserves (run node : String) (now : Nat) :
    ∀ (facts : List MemFact) (m : MemoryStore) (w : List Nat) (c : List String),
      storeWF m → noContradiction m now →
      storeWF (writeLoop run node true now m facts w c).1 ∧
      noContradiction (writeLoop run node true now m facts w c).1 now := by
  intro facts
  induction facts with
  | nil => intro m w c hwf hnc; exact ⟨hwf, hnc⟩
  | cons fact rest ih =>
    intro m w c hwf hnc
    unfold writeLoop
    by_cases hskip : (true = true) ∧ (!fact.triplets.isEmpty) = true ∧
        (!(m.check_triplet_conflicts fact now).isEmpty) = true
    · rw [if_pos hskip]
      exact ih m w (c ++ m.check_triplet_conflicts fact now) hwf hnc
    · rw [if_neg hskip]
      have hok : fact.triplets = [] ∨ m.check_triplet_conflicts fact now = [] := by
        by_cases h1 : fact.triplets.isEmpty
        · exact Or.inl (List.isEmpty_iff.mp h1)
        · by_cases h2 : (m.check_triplet_conflicts fact now).isEmpty
          · exact Or.inr (List.isEmpty_iff.mp h2)
          · exact absurd ⟨rfl, by simpa using h1, by simpa using h2⟩ hskip
      exact ih (writeOne m fact run node now).1 (w ++ [(writeOne m fact run node now).2]) c
        (writeOne_wf m fact run node now hwf)
        (writeOne_nc m fact run node now hwf hnc hok)

/-- C3: with conflict checking enabled, a fact carrying one triplet that
contradicts the single currently-valid indexed record triplet with the
same subject and predicate yields exactly one conflict message and is
skipped (no record appended, nothing written, store unchanged); and a
checked write never leaves the store with two currently-valid records
whose triplets share subject and predicate but disagree on object. -/
theorem C3_memory_conflict_detection :
    (∀ (m : MemoryStore) (fact : MemFact) (run node : String) (now : Nat)
        (t t' : Triplet) (rid : Nat) (r : MemoryRecord),
      fact.triplets = [t] →
      indexFind m.triplet_index (t.subject, t.predicate) = some [rid] →
      m.get_record rid = some r →
      r.is_valid now = true →
      r.fact.triplets = [t'] →
      t'.subject = t.subject → t'.predicate = t.predicate → t'.object ≠ t.object →
      (m.check_triplet_conflicts fact now).length = 1 ∧
      m.write [fact] run node true now = (m, [], m.check_triplet_conflicts fact now)) ∧
    (∀ (m : MemoryStore) (facts : List MemFact) (run node : String) (now : Nat),
      storeWF m → noContradiction m now →
      storeWF (m.write facts run node true now).1 ∧
      noContradiction (m.write facts run node true now).1 now) := by
  constructor
  · intro m fact run node now t t' rid r hfacts hfind hget hval htrip hsub hpred hobj
    have hcheck : m.check_triplet_conflicts fact now =
        ["Conflict: (" ++ t.subject ++ ", " ++ t.predicate ++ "): existing=" ++
          t'.object ++ " vs new=" ++ t.object] := by
      unfold MemoryStore.check_triplet_conflicts
      rw [hfacts]
      simp only [List.flatMap_cons, List.flatMap_nil, List.append_nil]
      rw [hfind]
      simp only [List.flatMap_cons, List.flatMap_nil, List.append_nil]
      rw [hget]
      simp only [hval, if_true]
      rw [htrip]
      simp only [List.filterMap_cons, List.filterMap_nil]
      rw [if_pos ⟨hsub, hpred, hobj⟩]
    constructor
    · rw [hcheck]; rfl
    · unfold MemoryStore.write writeLoop
      rw [if_pos ⟨rfl, by rw [hfacts]; simp, by rw [hcheck]; simp⟩]
      unfold writeLoop
      simp
  · intro m facts run node now hwf hnc
    exact writeLoop_preserves run node now facts m [] [] hwf hnc

/-- Witness for C3 at a concrete store: writing (sky, color, green)
against a currently-valid (sky, color, blue) record reports exactly one
conflict, skips the fact, and the checked write preserves both store
invariants. -/
theorem C3_memory_conflict_detection_witness :
    ((memStoreBlue.check_triplet_conflicts factGreen 3).length = 1 ∧
      memStoreBlue.write [factGreen] "run1" "node1" true 3 =
        (memStoreBlue, [], memStoreBlue.check_triplet_conflicts factGreen 3)) ∧
    (storeWF (memStoreBlue.write [factGreen] "run1" "node1" true 3).1 ∧
      noContradiction (memStoreBlue.write [factGreen] "run1" "node1" true 3).1 3) := by
  constructor
  · exact C3_memory_conflict_detection.1 memStoreBlue factGreen "run1" "node1" 3
      tripletGreen tripletBlue 0 memRecordBlue rfl rfl rfl rfl rfl rfl rfl (by decide)
  · refine C3_memory_conflict_detection.2 memStoreBlue [factGreen] "run1" "node1" 3
      ⟨?_, ?_, ?_⟩ ?_
    · intro r hr t ht
      rw [show memStoreBlue.records = [memRecordBlue] from rfl, List.mem_singleton] at hr
      subst hr
      rw [show memRecordBlue.fact.triplets = [tripletBlue] from rfl,
        List.mem_singleton] at ht
      subst ht
      exact ⟨[0], rfl, by decide⟩
    · intro r hr
      rw [show memStoreBlue.records = [memRecordBlue] from rfl, List.mem_singleton] at hr
      subst hr
      decide
    · decide
    · intro r1 hr1 r2 hr2 hne _ _
      rw [show memStoreBlue.records = [memRecordBlue] from rfl, List.mem_singleton] at hr1 hr2
      subst hr1; subst hr2
      exact absurd rfl hne

/-- Bumping a counter key increments its own count. -/
theorem getCount_bumpCount_self (l : List (String × Nat)) (k : String) :
    getCount (bumpCount l k) k = getCount l k + 1 := by
  induction l with
  | nil => simp [bumpCount, getCount]
  | cons p rest ih =>
    obtain ⟨k', n⟩ := p
    by_cases h : k' = k
    · simp [bumpCount, getCount, h]
    · simp [bumpCount, getCount, h, ih]

/-- Bumping one counter key leaves the others unchanged. -/
theorem getCount_bumpCount_ne (l : List (String × Nat)) (k k' : String)
    (h : k ≠ k') : getCount (bumpCount l k') k = getCount l k := by
  induction l with
  | nil => simp [bumpCount, getCount, Ne.symm h]
  | cons p rest ih =>
    obtain ⟨k0, n⟩ := p
    by_cases h0 : k0 = k'
    · simp [bumpCount, getCount, h0, Ne.symm h]
    · simp [bumpCount, getCount, h0, ih]

/-- Edge on-traverse actions never touch the counters. -/
theorem executeEdgeAction_counters (a : EdgeAction) (s : State) :
    (executeEdgeAction a s).counters = s.counters := by
  unfold executeEdgeAction State.set
  split
  · rfl
  · split
    · rfl
    · split
      · rfl
      · rfl

/-- A fold of on-traverse actions never touches the counters. -/
theorem foldActions_counters (l : List EdgeAction) (s : State) :
    (l.foldl (fun s a => executeEdgeAction a s) s).counters = s.counters := by
  induction l generalizing s with
  | nil => rfl
  | cons a rest ih =>
    rw [List.foldl_cons, ih, executeEdgeAction_counters]

/-- Accepting an edge does not modify the retry counters. -/
theorem acceptEdge_counters (node : Node) (e : Edge) (s : State) (g : Graph) :
    (acceptEdge node e s g).2.1.counters = s.counters := by
  unfold acceptEdge
  exact foldActions_counters e.on_traverse s

/-- Accepting an edge yields that edge. -/
theorem acceptEdge_fst (node : Node) (e : Edge) (s : State) (g : Graph) :
    (acceptEdge node e s g).1 = some e := rfl

/-- Retry bookkeeping of the edge scan, for a turbulent edge `e` with a
truthy declared ceiling `R` that is the only edge carrying its id: if
`e` is accepted its prior retry count was below `R` and exactly one
retry is consumed; if `e` is not accepted its retry count is unchanged. -/
theorem scanEdges_retry (node : Node) (ctx : Value) (e : Edge) (R : Int)
    (htype : e.type = EdgeType.turbulent) (hmax : e.max_retries = some R)
    (hR : R ≠ 0) :
    ∀ (edges : List Edge), (∀ x ∈ edges, x.id = e.id → x = e) →
    ∀ (g : Graph) (s : State),
    ((scanEdges node ctx g s edges).1 = some e →
      ((s.counters.get_retries e.id : Int) < R ∧
       (scanEdges node ctx g s edges).2.1.counters.get_retries e.id =
         s.counters.get_retries e.id + 1)) ∧
    ((scanEdges node ctx g s edges).1 ≠ some e →
      (scanEdges node ctx g s edges).2.1.counters.get_retries e.id =
        s.counters.get_retries e.id) := by
  intro edges
  induction edges with
  | nil =>
    intro _ g s
    refine ⟨fun hacc => absurd hacc (by simp [scanEdges]), fun _ => rfl⟩
  | cons x rest ih =>
    intro huniq g s
    have hx := huniq x (List.mem_cons_self x rest)
    have huniq' : ∀ y ∈ rest, y.id = e.id → y = e :=
      fun y hy => huniq y (List.mem_cons_of_mem x hy)
    simp only [scanEdges]
    split
    · exact ih huniq' g s
    · split
      · exact ih huniq' g s
      · split
        · split
          · split
            · exact ih huniq' g s
            · rename_i hguard hturb hceil
              by_cases hxe : x = e
              · subst hxe
                constructor
                · intro _
                  refine ⟨?_, ?_⟩
                  · simp only [hmax, ne_eq, Bool.and_eq_true, decide_eq_true_eq,
                      not_and, ge_iff_le, not_le] at hceil
                    exact hceil hR
                  · rw [acceptEdge_counters]
                    exact getCount_bumpCount_self _ _
                · intro hne
                  exact absurd (acceptEdge_fst node x _ g) hne
              · have hid : x.id ≠ e.id := fun h => hxe (hx h)
                constructor
                · intro hacc
                  rw [acceptEdge_fst] at hacc
                  exact absurd (Option.some.inj hacc) hxe
                · intro _
                  rw [acceptEdge_counters]
                  exact getCount_bumpCount_ne _ _ _ (Ne.symm hid)
          · rename_i hguard hnt
            have hxe : x ≠ e := fun h => hnt (by rw [h, htype])
            have hid : x.id ≠ e.id := fun h => hxe (hx h)
            constructor
            · intro hacc
              rw [acceptEdge_fst] at hacc
              exact absurd (Option.some.inj hacc) hxe
            · intro _
              rw [acceptEdge_counters]
        · exact ih huniq' g s

/-- For a non-Decision node, `_choose_next_edge` is exactly the generic
priority-ordered scan. -/
theorem chooseNextEdge_nondecision (g : Graph) (node : Node) (s : State)
    (hnode : node.type ≠ NodeType.decision) :
    chooseNextEdge g node s =
      scanEdges node s.to_context g s (g.get_outgoing_edges node.id) := by
  simp only [chooseNextEdge]
  rw [if_neg (fun h => hnode h.1)]

/-- C1 counterexample: the claim says a turbulent edge with declared
ceiling `R` is accepted at most `R` times, so with `max_retries = 0` it
should never be accepted; but `controller.py:722` tests
`if edge.max_retries and retries >= edge.max_retries`, where the Python
truthiness of `0` disables the check, and the edge is accepted even
though its retry count `0` has already reached the ceiling `0`. -/
theorem C1_bounded_retry_counterexample :
    edgeC1.type = EdgeType.turbulent ∧
    edgeC1.max_retries = some 0 ∧
    stateC1.counters.get_retries edgeC1.id = 0 ∧
    (chooseNextEdge graphC1 nodeC1 stateC1).1 = some edgeC1 := by
  have hout : graphC1.get_outgoing_edges nodeC1.id = [edgeC1] := by
    simp [Graph.get_outgoing_edges, graphC1, edgeC1, nodeC1]
  refine ⟨rfl, rfl, rfl, ?_⟩
  rw [chooseNextEdge_nondecision graphC1 nodeC1 stateC1 (by decide), hout]
  rfl

/-- C1 (amended): retry bookkeeping for turbulent edges holds only on the
generic edge scan.  For a non-Decision node and a turbulent edge `e` with
a declared non-zero (Python-truthy) ceiling `R`, where `e` is the only
outgoing edge bearing its id, edge selection consumes exactly one retry
on each acceptance of `e`, never accepts `e` once the recorded retry
count has reached `R`, and keeps the count at most `R` whenever it
starts at most `R` (first conjunct).  For a Decision node the fast path
of `_choose_next_edge` (controller.py:692-701) returns the edge matching
the recorded decision target with no ceiling check and no retry
consumed: the second conjunct exhibits a turbulent edge with ceiling `1`
that is accepted although its retry count already equals `1`, and whose
count is left unchanged.  With a declared ceiling of `0` the bound is
void even on the generic path, as the counterexample shows. -/
theorem C1_bounded_retry_amended :
    (∀ (g : Graph) (node : Node) (s : State) (e : Edge) (R : Int),
      node.type ≠ NodeType.decision →
      e.type = EdgeType.turbulent →
      e.max_retries = some R → R ≠ 0 →
      (∀ x ∈ g.get_outgoing_edges node.id, x.id = e.id → x = e) →
      ((chooseNextEdge g node s).1 = some e →
         ((s.counters.get_retries e.id : Int) < R ∧
          (chooseNextEdge g node s).2.1.counters.get_retries e.id =
            s.counters.get_retries e.id + 1)) ∧
      ((chooseNextEdge g node s).1 ≠ some e →
         (chooseNextEdge g node s).2.1.counters.get_retries e.id =
           s.counters.get_retries e.id) ∧
      (((s.counters.get_retries e.id : Int) ≥ R →
         (chooseNextEdge g node s).1 ≠ some e) ∧
       ((s.counters.get_retries e.id : Int) ≤ R →
         ((chooseNextEdge g node s).2.1.counters.get_retries e.id : Int) ≤ R))) ∧
    (nodeC1D.type = NodeType.decision ∧
     edgeC1D.type = EdgeType.turbulent ∧
     edgeC1D.max_retries = some 1 ∧
     stateC1D.counters.get_retries edgeC1D.id = 1 ∧
     (chooseNextEdge graphC1D nodeC1D stateC1D).1 = some edgeC1D ∧
     (chooseNextEdge graphC1D nodeC1D stateC1D).2.1.counters.get_retries
       edgeC1D.id = 1) := by
  constructor
  · intro g node s e R hnode htype hmax hR huniq
    rw [chooseNextEdge_nondecision g node s hnode]
    obtain ⟨hacc, hnacc⟩ :=
      scanEdges_retry node s.to_context e R htype hmax hR
        (g.get_outgoing_edges node.id) huniq g s
    refine ⟨hacc, hnacc, ?_, ?_⟩
    · intro hge hsome
      exact absurd hge (not_le.mpr (hacc hsome).1)
    · intro hle
      by_cases hsome :
          (scanEdges node s.to_context g s (g.get_outgoing_edges node.id)).1 = some e
      · obtain ⟨hlt, heq⟩ := hacc hsome
        rw [heq]
        push_cast
        omega
      · rw [hnacc hsome]
        exact hle
  · have hout : graphC1D.get_outgoing_edges nodeC1D.id = [edgeC1D] := by
      simp [Graph.get_outgoing_edges, graphC1D, edgeC1D, nodeC1D]
    refine ⟨rfl, rfl, rfl, rfl, ?_, ?_⟩ <;>
      · simp only [chooseNextEdge, hout]
        rw [if_pos ⟨rfl, rfl⟩]
        rfl

/-- C1 amended, witnessed on the concrete ceiling-2 fixture: the edge is
accepted from a fresh state and one retry is consumed. -/
theorem C1_bounded_retry_amended_witness :
    (chooseNextEdge graphC1W nodeC1 stateC1).1 = some edgeC1W ∧
    (chooseNextEdge graphC1W nodeC1 stateC1).2.1.counters.get_retries edgeC1W.id = 1 := by
  have hout : graphC1W.get_outgoing_edges nodeC1.id = [edgeC1W] := by
    simp [Graph.get_outgoing_edges, graphC1W, graphC1, edgeC1W, edgeC1, nodeC1]
  have huniq : ∀ x ∈ graphC1W.get_outgoing_edges nodeC1.id,
      x.id = edgeC1W.id → x = edgeC1W := by
    rw [hout]
    intro x hx _
    simpa using hx
  have h := C1_bounded_retry_amended.1 graphC1W nodeC1 stateC1 edgeC1W 2
    (by decide) rfl rfl (by decide) huniq
  have hsome : (chooseNextEdge graphC1W nodeC1 stateC1).1 = some edgeC1W := by
    rw [chooseNextEdge_nondecision graphC1W nodeC1 stateC1 (by decide), hout]
    rfl
  exact ⟨hsome, ((h.1 hsome).2).trans rfl⟩

/-- C10: over 5 analyzed runs in which edge "e1" (current priority 3)
recorded a traversal success in 4 of the 5, `generate_proposals` with
its default minimum confidence produces an `update_edge_priority` change
for "e1" from old value 3 to new value 2, inside a proposal whose
confidence is at least 0.7. -/
theorem C10_priority_proposal :
    analysesC10.length = 5 ∧
    (aggregateAnalyses analysesC10).edge_successes = [("e1", 4)] ∧
    edgeC10.priority = 3 ∧
    ∃ p ∈ generateProposals graphC10 defaultAutoApplyConfig analysesC10,
      p.confidence ≥ mkRat 7 10 ∧
      ∃ c ∈ p.changes,
        c.type = ChangeType.update_edge_priority ∧ c.target = "e1" ∧
        c.old_value = Value.num 3 ∧ c.new_value = Value.num 2 := by
  refine ⟨rfl, rfl, rfl, ?_⟩
  refine ⟨_, List.mem_cons_self _ _, le_refl _,
    _, List.mem_cons_self _ _, rfl, rfl, ?_, ?_⟩
  · exact congrArg Value.num (by norm_num [edgeC10])
  · refine congrArg Value.num ?_
    rw [show ((edgeC10.priority : Rat) - 1) = 2 by norm_num [edgeC10]]
    exact max_eq_right (by norm_num)

/-- Setting a field makes it readable. -/
theorem lookupField_setField_self (l : List (String × Value)) (k : String)
    (v : Value) : lookupField (setField l k v) k = some v := by
  induction l with
  | nil => simp [setField, lookupField]
  | cons p rest ih =>
    obtain ⟨k0, w⟩ := p
    by_cases h : k0 = k
    · simp [setField, lookupField, h]
    · simp [setField, lookupField, h, ih]

/-- Deep-merging a single boolean-valued key is a plain field update. -/
theorem deepMergeObj_singleton_bool (base : List (String × Value))
    (k : String) (b : Bool) :
    deepMergeObj base [(k, Value.bool b)] = setField base k (Value.bool b) := by
  cases h : lookupField base k with
  | none => simp [deepMergeObj, h]
  | some v => cases v <;> simp [deepMergeObj, deepMergeVal, h]

/-- If every guard is false in the scan context, the edge scan accepts
nothing and leaves state and graph untouched. -/
theorem scanEdges_none (node : Node) (ctx : Value) :
    ∀ (edges : List Edge), (∀ e ∈ edges, e.guard.evaluate ctx = false) →
    ∀ (g : Graph) (s : State), scanEdges node ctx g s edges = (none, s, g) := by
  intro edges
  induction edges with
  | nil => intro _ g s; rfl
  | cons x rest ih =>
    intro h g s
    have hx := h x (List.mem_cons_self x rest)
    have h' : ∀ e ∈ rest, e.guard.evaluate ctx = false :=
      fun e he => h e (List.mem_cons_of_mem x he)
    simp only [scanEdges]
    split
    · exact ih h' g s
    · split
      · exact ih h' g s
      · split
        · rename_i hguard
          rw [hx] at hguard
          cases hguard
        · exact ih h' g s

/-- Executing a terminal node only records observation signals: the
working data is untouched. -/
theorem executeTerminal_snd_data (node : Node) (s : State) :
    (executeTerminal node s).2.data = s.data := by
  unfold executeTerminal
  generalize node.on_reach = l
  induction l generalizing s with
  | nil => rfl
  | cons a rest ih =>
    rw [List.foldl_cons]
    rw [ih]
    split <;> rfl

/-- Node dispatch on a terminal node runs `_execute_terminal` and keeps
the memory store. -/
theorem executeNode_terminal (caps : Capabilities) (node : Node) (s : State)
    (mem : MemoryStore) (clk : Nat) (htype : node.type = NodeType.terminal)
    (r : NodeResult) (sE : State) (hET : executeTerminal node s = (r, sE)) :
    executeNode caps node s mem clk = Except.ok (r, sE, mem) := by
  simp only [executeNode, htype]
  rw [hET]
  rfl

/-- The dot-free path "done" splits into a single component. -/
theorem splitDots_done : splitDots "done" = ["done"] := by decide

/-- C6: after the first execution of a terminal node (which patches the
completion flag `done` into the working data), the controller still
performs edge selection from the terminal node; when every outgoing
guard is unsatisfied (in particular when the terminal has no outgoing or
wildcard edge at all), the iteration halts with outcome FAILURE and
records a "No valid outgoing edge" failure signal and a `no_valid_edge`
audit event.  The terminal's mapped outcome is only returned when an
iteration re-enters the terminal node at the top of the loop with the
done flag set (second conjunct). -/
theorem C6_terminal_failure (caps : Capabilities) (c : Ctrl)
    (node : Node) (fields : List (String × Value))
    (hterm : c.state.current_node ∈ c.graph.terminal_nodes)
    (hnode : c.graph.getNode c.state.current_node = some node)
    (hid : node.id = c.state.current_node)
    (htype : node.type = NodeType.terminal)
    (hfresh : getCount c.state.counters.node_visits c.state.current_node = 0)
    (hnotdone : ((c.state.get "done").getD (Value.bool false)).truthy = false)
    (hfields : c.state.data = Value.obj fields)
    (hguards : ∀ e ∈ c.graph.get_outgoing_edges c.state.current_node,
      ∀ ctx, e.guard.evaluate ctx = false) :
    (∃ c', runStep caps c = StepRes.halt RunOutcome.failure c' ∧
       c'.state.get "done" = some (Value.bool true) ∧
       c'.state.signals.failures.getLast? =
         some { node_id := c.state.current_node,
                reason := "No valid outgoing edge", details := Value.obj [] } ∧
       (c'.state.audit.getLast?).map AuditEvent.action = some "no_valid_edge") ∧
    (∀ c2 : Ctrl, c2.state.current_node ∈ c2.graph.terminal_nodes →
       ((c2.state.get "done").getD (Value.bool false)).truthy = true →
       runStep caps c2 =
         StepRes.halt (determineTerminalOutcome c2.graph c2.state.current_node) c2) := by
  constructor
  · have hndec : node.type ≠ NodeType.decision := by
      rw [htype]
      intro h
      cases h
    have hchoose : ∀ s' : State, chooseNextEdge c.graph node s' = (none, s', c.graph) := by
      intro s'
      rw [chooseNextEdge_nondecision c.graph node s' hndec]
      exact scanEdges_none node s'.to_context (c.graph.get_outgoing_edges node.id)
        (fun e he => by
          rw [hid] at he
          exact hguards e he s'.to_context) c.graph s'
    rcases hET : executeTerminal node
        { c.state with
            counters := c.state.counters.visit_node c.state.current_node,
            stage := node.stage } with ⟨r, sE⟩
    have hr : r =
        { success := true,
          state_patch := Value.obj [("done", Value.bool true)],
          signals := [("summary",
            Value.str ("Reached terminal node: " ++ node.id))] } :=
      (congrArg Prod.fst hET).symm
    have hdE : sE.data = c.state.data := by
      have h0 := executeTerminal_snd_data node
        { c.state with
            counters := c.state.counters.visit_node c.state.current_node,
            stage := node.stage }
      rw [hET] at h0
      exact h0
    subst hr
    have hrun : runStep caps c = StepRes.halt RunOutcome.failure
        { c with
          state :=
            { (((sE.apply_patch (Value.obj [("done", Value.bool true)])).add_audit
                  c.state.current_node ("executed_" ++ node.type.toStr)
                  ("Reached terminal node: " ++ node.id)
                  (Value.obj [("summary",
                    Value.str ("Reached terminal node: " ++ node.id))])).add_audit
                  c.state.current_node "no_valid_edge" "No valid outgoing edge found") with
              signals :=
                (((sE.apply_patch (Value.obj [("done", Value.bool true)])).add_audit
                  c.state.current_node ("executed_" ++ node.type.toStr)
                  ("Reached terminal node: " ++ node.id)
                  (Value.obj [("summary",
                    Value.str ("Reached terminal node: " ++ node.id))])).add_audit
                  c.state.current_node "no_valid_edge"
                  "No valid outgoing edge found").signals.record_failure
                  c.state.current_node "No valid outgoing edge" },
          clock := c.clock + 1 } := by
      simp only [runStep]
      rw [if_neg (fun h => by simp [hnotdone] at h)]
      rw [if_neg (fun h => by
        have h2 := h.2
        rw [hfresh] at h2
        exact Nat.lt_irrefl 0 h2)]
      simp only [hnode]
      simp only [executeNode_terminal caps node _ c.memory c.clock htype _ _ hET]
      rw [hchoose]
      rfl
    refine ⟨_, hrun, ?_, ?_, ?_⟩
    · show getPath (applyPatchData sE.data (Value.obj [("done", Value.bool true)]))
        "done" = some (Value.bool true)
      rw [hdE, hfields]
      show getParts (Value.obj (deepMergeObj fields [("done", Value.bool true)]))
        (splitDots "done") = some (Value.bool true)
      rw [splitDots_done, deepMergeObj_singleton_bool]
      simp [getParts, lookupField_setField_self]
    · exact List.getLast?_concat _
    · exact (congrArg (Option.map AuditEvent.action) (List.getLast?_concat _)).trans rfl
  · intro c2 ht hd
    simp only [runStep]
    rw [if_pos ⟨ht, hd⟩]

/-- C6 witnessed on a concrete edge-less terminal "success": the first
visit halts with FAILURE (not the mapped SUCCESS), recording the failure
signal and audit event, while re-entry with the done flag set yields the
mapped SUCCESS outcome. -/
theorem C6_terminal_failure_witness :
    (∃ c', runStep capsC6 ctrlC6 = StepRes.halt RunOutcome.failure c' ∧
       c'.state.get "done" = some (Value.bool true) ∧
       c'.state.signals.failures.getLast? =
         some { node_id := "success", reason := "No valid outgoing edge",
                details := Value.obj [] } ∧
       (c'.state.audit.getLast?).map AuditEvent.action = some "no_valid_edge") ∧
    runStep capsC6 ctrlC6done = StepRes.halt RunOutcome.success ctrlC6done := by
  have h := C6_terminal_failure capsC6 ctrlC6 nodeC6 []
    (by decide) rfl rfl rfl rfl rfl rfl
    (by
      intro e he ctx
      rw [show ctrlC6.graph.get_outgoing_edges ctrlC6.state.current_node =
          ([] : List Edge) from by
        simp [Graph.get_outgoing_edges, ctrlC6, graphC6]] at he
      exact absurd he (List.not_mem_nil e))
  exact ⟨h.1, h.2 ctrlC6done (by decide) rfl⟩

/-- Type tags round-trip through their string form. -/
theorem nodeType_fromStr_toStr (t : NodeType) : NodeType.fromStr t.toStr = some t := by
  cases t <;> rfl

/-- Edge-type tags round-trip through their string form. -/
theorem edgeType_fromStr_toStr (t : EdgeType) : EdgeType.fromStr t.toStr = some t := by
  cases t <;> rfl

/-- Stage tags round-trip through their string form. -/
theorem stage_fromStrOrDefault_toStr (s : Stage) : Stage.fromStrOrDefault s.toStr = s := by
  cases s <;> rfl

/-- Relation-type tags round-trip through their string form. -/
theorem relationType_fromStr_toStr (t : RelationType) :
    RelationType.fromStr t.toStr = some t := by
  cases t <;> rfl

/-- Comparison-operator tags round-trip through their string form. -/
theorem cmpOp_fromStr_toStr (op : CmpOp) : CmpOp.fromStr op.toStr = some op := by
  cases op <;> rfl

/-- The expression payload encoding round-trips exactly. -/
theorem valueToExpr_exprToValue : ∀ e : PyExpr, valueToExpr (exprToValue e) = some e
  | .lit v => rfl
  | .var n => rfl
  | .attr a f => by
    show Option.map (fun x => PyExpr.attr x f) (valueToExpr (exprToValue a)) =
      some (PyExpr.attr a f)
    rw [valueToExpr_exprToValue a]
    rfl
  | .cmp op a b => by
    show (do
      let o ← CmpOp.fromStr op.toStr
      let ea ← valueToExpr (exprToValue a)
      let eb ← valueToExpr (exprToValue b)
      pure (PyExpr.cmp o ea eb) : Option PyExpr) = some (PyExpr.cmp op a b)
    rw [cmpOp_fromStr_toStr, valueToExpr_exprToValue a, valueToExpr_exprToValue b]
    rfl
  | .eqE a b => by
    show (do
      let ea ← valueToExpr (exprToValue a)
      let eb ← valueToExpr (exprToValue b)
      pure (PyExpr.eqE ea eb) : Option PyExpr) = some (PyExpr.eqE a b)
    rw [valueToExpr_exprToValue a, valueToExpr_exprToValue b]
    rfl
  | .neE a b => by
    show (do
      let ea ← valueToExpr (exprToValue a)
      let eb ← valueToExpr (exprToValue b)
      pure (PyExpr.neE ea eb) : Option PyExpr) = some (PyExpr.neE a b)
    rw [valueToExpr_exprToValue a, valueToExpr_exprToValue b]
    rfl
  | .andE a b => by
    show (do
      let ea ← valueToExpr (exprToValue a)
      let eb ← valueToExpr (exprToValue b)
      pure (PyExpr.andE ea eb) : Option PyExpr) = some (PyExpr.andE a b)
    rw [valueToExpr_exprToValue a, valueToExpr_exprToValue b]
    rfl
  | .orE a b => by
    show (do
      let ea ← valueToExpr (exprToValue a)
      let eb ← valueToExpr (exprToValue b)
      pure (PyExpr.orE ea eb) : Option PyExpr) = some (PyExpr.orE a b)
    rw [valueToExpr_exprToValue a, valueToExpr_exprToValue b]
    rfl
  | .notE a => by
    show Option.map PyExpr.notE (valueToExpr (exprToValue a)) = some (PyExpr.notE a)
    rw [valueToExpr_exprToValue a]
    rfl
  | .lenE a => by
    show Option.map PyExpr.lenE (valueToExpr (exprToValue a)) = some (PyExpr.lenE a)
    rw [valueToExpr_exprToValue a]
    rfl
  | .divE a b => by
    show (do
      let ea ← valueToExpr (exprToValue a)
      let eb ← valueToExpr (exprToValue b)
      pure (PyExpr.divE ea eb) : Option PyExpr) = some (PyExpr.divE a b)
    rw [valueToExpr_exprToValue a, valueToExpr_exprToValue b]
    rfl

/-- Every encoded expression is an array. -/
theorem exprToValue_isArr (p : PyExpr) : ∃ l, exprToValue p = Value.arr l := by
  cases p <;> exact ⟨_, rfl⟩

/-- `mapM` over an encoding map recovers the original elements when a
pointwise round trip holds. -/
theorem mapM_map_pointwise {α β γ : Type} (g : α → β) (h : β → Option γ) (k : α → γ) :
    ∀ l : List α, (∀ a ∈ l, h (g a) = some (k a)) →
    (l.map g).mapM h = some (l.map k) := by
  intro l
  induction l with
  | nil => intro _; rfl
  | cons a rest ih =>
    intro hpt
    have ha := hpt a (List.mem_cons_self a rest)
    have hr := ih (fun x hx => hpt x (List.mem_cons_of_mem a hx))
    rw [List.map_cons, List.mapM_cons, ha, hr]
    rfl

/-- `filterMap` over an encoding map recovers the original elements when
a pointwise round trip holds. -/
theorem filterMap_map_pointwise {α β γ : Type} (g : α → β) (h : β → Option γ) (k : α → γ) :
    ∀ l : List α, (∀ a ∈ l, h (g a) = some (k a)) →
    (l.map g).filterMap h = l.map k := by
  intro l
  induction l with
  | nil => intro _; rfl
  | cons a rest ih =>
    intro hpt
    have ha := hpt a (List.mem_cons_self a rest)
    have hr := ih (fun x hx => hpt x (List.mem_cons_of_mem a hx))
    simp [List.filterMap_cons, ha, hr]

/-- Lookup skips a leading segment holding no binding for the key. -/
theorem lookupField_skip (l1 l2 : List (String × Value)) (k : String)
    (h : ∀ p ∈ l1, p.1 ≠ k) : lookupField (l1 ++ l2) k = lookupField l2 k := by
  induction l1 with
  | nil => rfl
  | cons p rest ih =>
    obtain ⟨k0, v⟩ := p
    have hk0 : k0 ≠ k := h (k0, v) (List.mem_cons_self _ _)
    simp only [List.cons_append, lookupField, if_neg hk0]
    exact ih (fun q hq => h q (List.mem_cons_of_mem _ hq))

/-- A list whose keys all differ from `k` holds no binding for `k`. -/
theorem lookupField_none_of_dom (l : List (String × Value)) (k : String)
    (h : ∀ p ∈ l, p.1 ≠ k) : lookupField l k = none := by
  induction l with
  | nil => rfl
  | cons p rest ih =>
    obtain ⟨k0, v⟩ := p
    have hk0 : k0 ≠ k := h (k0, v) (List.mem_cons_self _ _)
    simp only [lookupField, if_neg hk0]
    exact ih (fun q hq => h q (List.mem_cons_of_mem _ hq))

/-- Lookup confined to a leading segment when the tail holds no binding. -/
theorem lookupField_tail_none (l1 l2 : List (String × Value)) (k : String)
    (h : lookupField l2 k = none) : lookupField (l1 ++ l2) k = lookupField l1 k := by
  induction l1 with
  | nil => simpa using h
  | cons p rest ih =>
    obtain ⟨k0, v⟩ := p
    by_cases hk : k0 = k
    · simp only [List.cons_append, lookupField, if_pos hk]
    · simp only [List.cons_append, lookupField, if_neg hk]
      exact ih

/-- String lists round-trip through their serialized array form. -/
theorem strList_roundtrip (l : List String) :
    (l.map Value.str).filterMap (fun v => match v with
      | Value.str s => some s
      | _ => none) = l := by
  have h := filterMap_map_pointwise Value.str (fun v => match v with
    | Value.str s => some s
    | _ => none) id l (fun a _ => rfl)
  simpa using h

/-- Raw-object lists round-trip through their serialized array form. -/
theorem objList_roundtrip (l : List (List (String × Value))) :
    (l.map Value.obj).mapM (fun v => match v with
      | Value.obj o => some o
      | _ => none) = some l := by
  have h := mapM_map_pointwise Value.obj (fun v => match v with
    | Value.obj o => some o
    | _ => none) id l (fun a _ => rfl)
  simpa using h

/-- State-write declarations round-trip through their serialized form. -/
theorem stateWrites_roundtrip (l : List StateWrite) :
    (l.map (fun sw => Value.obj [("path", Value.str sw.path), ("from", Value.str sw.from_),
        ("transform", match sw.transform with
          | some t => Value.str t
          | none => Value.null)])).filterMap (fun sw =>
      match sw with
      | Value.obj swf =>
        some ({ path := strOrD swf "path" "",
                from_ := strOrD swf "from" "",
                transform := strOptD swf "transform" } : StateWrite)
      | _ => none) = l := by
  have h := filterMap_map_pointwise
    (fun sw : StateWrite => Value.obj [("path", Value.str sw.path), ("from", Value.str sw.from_),
        ("transform", match sw.transform with
          | some t => Value.str t
          | none => Value.null)])
    (fun sw => match sw with
      | Value.obj swf =>
        some ({ path := strOrD swf "path" "",
                from_ := strOrD swf "from" "",
                transform := strOptD swf "transform" } : StateWrite)
      | _ => none) id l ?_
  · simpa using h
  · intro a _
    obtain ⟨p, f, tr⟩ := a
    cases tr <;> rfl

/-- Gate criteria round-trip through their serialized form. -/
theorem criteria_roundtrip (l : List (String × PyExpr)) :
    (l.map (fun c => Value.obj [("name", Value.str c.1), ("check", exprToValue c.2)])).mapM
      (fun c => match c with
        | Value.obj cf => do
          let check ← match lookupField cf "check" with
            | some cv => valueToExpr cv
            | none => some (PyExpr.lit (Value.bool true))
          pure (strOrD cf "name" "unnamed", check)
        | _ => none) = some l := by
  have h := mapM_map_pointwise
    (fun c : String × PyExpr => Value.obj [("name", Value.str c.1), ("check", exprToValue c.2)])
    (fun c => match c with
      | Value.obj cf => do
        let check ← match lookupField cf "check" with
          | some cv => valueToExpr cv
          | none => some (PyExpr.lit (Value.bool true))
        pure (strOrD cf "name" "unnamed", check)
      | _ => none) id l ?_
  · simpa using h
  · intro a _
    show (do
      let check ← valueToExpr (exprToValue a.2)
      pure (strOrD [("name", Value.str a.1), ("check", exprToValue a.2)] "name" "unnamed",
        check) : Option (String × PyExpr)) = some a
    rw [valueToExpr_exprToValue]
    rfl

/-- Lookup distributes over append: first hit wins. -/
theorem lookupField_append (l1 l2 : List (String × Value)) (k : String) :
    lookupField (l1 ++ l2) k =
      (match lookupField l1 k with
       | some v => some v
       | none => lookupField l2 k) := by
  induction l1 with
  | nil => simp [lookupField]
  | cons p rest ih =>
    obtain ⟨k0, v⟩ := p
    by_cases h : k0 = k
    · simp [lookupField, h]
    · simp [lookupField, h, ih]

/-- `mapM` over an encoding map is the identity list when the decoder
inverts the encoder pointwise. -/
theorem mapM_map_id {α β : Type} (g : α → β) (h : β → Option α) (l : List α)
    (hpt : ∀ a ∈ l, h (g a) = some a) : (l.map g).mapM h = some l := by
  have h2 := mapM_map_pointwise g h id l (by simpa using hpt)
  simpa using h2

/-- `filterMap` over an encoding map is the identity list when the
decoder inverts the encoder pointwise. -/
theorem filterMap_map_id {α β : Type} (g : α → β) (h : β → Option α) (l : List α)
    (hpt : ∀ a ∈ l, h (g a) = some a) : (l.map g).filterMap h = l := by
  have h2 := filterMap_map_pointwise g h id l (by simpa using hpt)
  simpa using h2

/-- A serialized string list reads back as itself. -/
theorem strListOrD_of_map (fields : List (String × Value)) (k : String)
    (l : List String) (h : lookupField fields k = some (Value.arr (l.map Value.str))) :
    strListOrD fields k = l := by
  simp only [strListOrD, arrOrD, h]
  exact filterMap_map_id Value.str _ l (fun a _ => rfl)

/-- A serialized object list reads back as itself. -/
theorem objListOrD_of_map (fields : List (String × Value)) (k : String)
    (l : List (List (String × Value)))
    (h : lookupField fields k = some (Value.arr (l.map Value.obj))) :
    objListOrD fields k = some l := by
  simp only [objListOrD, arrOrD, h]
  exact mapM_map_id Value.obj _ l (fun a _ => rfl)

/-- An absent object-list key reads back as the empty list. -/
theorem objListOrD_absent (fields : List (String × Value)) (k : String)
    (h : lookupField fields k = none) : objListOrD fields k = some [] := by
  simp only [objListOrD, arrOrD, h]
  rfl

/-- Eta for an option match. -/
theorem match_option_eta (o : Option Value) :
    (match o with
     | some v => some v
     | none => (none : Option Value)) = o := by
  cases o <;> rfl

/-- A node's serialized dict deserializes back to the node up to the
documented normalization. -/
theorem node_from_to (n : Node) :
    Node.from_dict (Node.to_dict n) = some (normalizeNode n) := by
  obtain ⟨nid, ntype, nstage, npurpose, nprompt, nos, nsn, nsc, nsw, nmem, npar, ngate,
    ndec, nor⟩ := n
  obtain ⟨mdr, mw, msrc, mrt, mca⟩ := nmem
  obtain ⟨psp, pmc, pst, pwfa⟩ := npar
  simp only [Node.to_dict]
  set MV := (match msrc with
    | some src => Value.str src
    | none => Value.null) with hMV
  set S2 := (if nprompt ≠ "" then [("prompt", Value.str nprompt)]
    else ([] : List (String × Value))) with hS2
  set S3 := (match nos with
    | some os => [("output_schema", Value.obj [
        ("type", Value.str os.type),
        ("required", Value.arr (os.required.map Value.str)),
        ("properties", Value.obj os.properties)])]
    | none => ([] : List (String × Value))) with hS3
  set S4 := (match nsn with
    | some sn =>
      if sn ≠ "" then
        [("skill_name", Value.str sn), ("skill_config", Value.obj nsc)]
      else []
    | none => ([] : List (String × Value))) with hS4
  set S5 := (if !nsw.isEmpty then
      [("state_writes", Value.arr (nsw.map (fun sw =>
        Value.obj [("path", Value.str sw.path), ("from", Value.str sw.from_),
              ("transform", match sw.transform with
                | some t => Value.str t
                | none => Value.null)])))]
    else ([] : List (String × Value))) with hS5
  set S8 := (match ngate with
    | some gc =>
      [("gate_config", Value.obj [
         ("criteria", Value.arr (gc.criteria.map (fun c : String × PyExpr =>
           Value.obj [("name", Value.str c.1), ("check", exprToValue c.2)]))),
         ("on_pass", Value.str gc.on_pass),
         ("on_fail", Value.str gc.on_fail),
         ("max_retries", Value.num gc.max_retries)])]
    | none => ([] : List (String × Value))) with hS8
  set S9 := (match ndec with
    | some dc =>
      [("decision_config", Value.obj [
         ("variable", Value.str dc.variable_),
         ("rules", Value.arr (dc.rules.map Value.obj)),
         ("precondition", match dc.precondition with
           | some p => exprToValue p
           | none => Value.null),
         ("description", Value.str dc.description)])]
    | none => ([] : List (String × Value))) with hS9
  set S10 := (if !nor.isEmpty then [("on_reach", Value.arr (nor.map Value.obj))]
    else ([] : List (String × Value))) with hS10
  simp only [List.cons_append, List.nil_append, List.append_assoc]
  set L := ("id", Value.str nid) :: ("type", Value.str ntype.toStr) ::
    ("stage", Value.str nstage.toStr) :: ("purpose", Value.str npurpose) ::
    (S2 ++ (S3 ++ (S4 ++ (S5 ++ (("memory", Value.obj [("dredge", Value.arr mdr),
      ("write", Value.bool mw),
      ("source", MV),
      ("conflict_action", Value.str mca)]) ::
      ("parallel", Value.obj [("spawn", Value.bool psp),
        ("max_concurrent", Value.num pmc),
        ("strategy", Value.str pst)]) :: (S8 ++ (S9 ++ S10)))))))
    with hL
  clear_value MV S2 S3 S4 S5 S8 S9 S10 L
  have d2 : ∀ p ∈ S2, p.1 = "prompt" := by
    rw [hS2]; split <;> simp
  have d3 : ∀ p ∈ S3, p.1 = "output_schema" := by
    rw [hS3]; cases nos <;> simp
  have d4 : ∀ p ∈ S4, p.1 = "skill_name" ∨ p.1 = "skill_config" := by
    rw [hS4]
    rcases nsn with _ | sn
    · simp
    · by_cases h : sn = ""
      · simp [h]
      · simp [h]
  have d5 : ∀ p ∈ S5, p.1 = "state_writes" := by
    rw [hS5]; split <;> simp
  have d8 : ∀ p ∈ S8, p.1 = "gate_config" := by
    rw [hS8]; cases ngate <;> simp
  have d9 : ∀ p ∈ S9, p.1 = "decision_config" := by
    rw [hS9]; cases ndec <;> simp
  have d10 : ∀ p ∈ S10, p.1 = "on_reach" := by
    rw [hS10]; split <;> simp
  have n2 : ∀ k, k ≠ "prompt" → lookupField S2 k = none := fun k hk =>
    lookupField_none_of_dom _ _ (fun p hp => by rw [d2 p hp]; exact Ne.symm hk)
  have n3 : ∀ k, k ≠ "output_schema" → lookupField S3 k = none := fun k hk =>
    lookupField_none_of_dom _ _ (fun p hp => by rw [d3 p hp]; exact Ne.symm hk)
  have n4 : ∀ k, k ≠ "skill_name" → k ≠ "skill_config" → lookupField S4 k = none :=
    fun k h1 h2 => lookupField_none_of_dom _ _ (fun p hp => by
      rcases d4 p hp with h | h
      · rw [h]; exact Ne.symm h1
      · rw [h]; exact Ne.symm h2)
  have n5 : ∀ k, k ≠ "state_writes" → lookupField S5 k = none := fun k hk =>
    lookupField_none_of_dom _ _ (fun p hp => by rw [d5 p hp]; exact Ne.symm hk)
  have n8 : ∀ k, k ≠ "gate_config" → lookupField S8 k = none := fun k hk =>
    lookupField_none_of_dom _ _ (fun p hp => by rw [d8 p hp]; exact Ne.symm hk)
  have n9 : ∀ k, k ≠ "decision_config" → lookupField S9 k = none := fun k hk =>
    lookupField_none_of_dom _ _ (fun p hp => by rw [d9 p hp]; exact Ne.symm hk)
  have n10 : ∀ k, k ≠ "on_reach" → lookupField S10 k = none := fun k hk =>
    lookupField_none_of_dom _ _ (fun p hp => by rw [d10 p hp]; exact Ne.symm hk)
  have hkid : lookupField L "id" = some (Value.str nid) := by
    rw [hL]; simp only [lookupField, String.reduceEq, reduceIte]
  have hktype : lookupField L "type" = some (Value.str ntype.toStr) := by
    rw [hL]; simp only [lookupField, String.reduceEq, reduceIte]
  have hkstage : lookupField L "stage" = some (Value.str nstage.toStr) := by
    rw [hL]; simp only [lookupField, String.reduceEq, reduceIte]
  have hkpurpose : lookupField L "purpose" = some (Value.str npurpose) := by
    rw [hL]; simp only [lookupField, String.reduceEq, reduceIte]
  have hkprompt : lookupField L "prompt" = lookupField S2 "prompt" := by
    rw [hL]
    simp only [lookupField, String.reduceEq, reduceIte, lookupField_append,
      n3 "prompt" (by decide), n4 "prompt" (by decide) (by decide),
      n5 "prompt" (by decide), n8 "prompt" (by decide), n9 "prompt" (by decide),
      n10 "prompt" (by decide), match_option_eta]
  have hkos : lookupField L "output_schema" = lookupField S3 "output_schema" := by
    rw [hL]
    simp only [lookupField, String.reduceEq, reduceIte, lookupField_append,
      n2 "output_schema" (by decide), n4 "output_schema" (by decide) (by decide),
      n5 "output_schema" (by decide), n8 "output_schema" (by decide),
      n9 "output_schema" (by decide), n10 "output_schema" (by decide), match_option_eta]
  have hkskn : lookupField L "skill_name" = lookupField S4 "skill_name" := by
    rw [hL]
    simp only [lookupField, String.reduceEq, reduceIte, lookupField_append,
      n2 "skill_name" (by decide), n3 "skill_name" (by decide),
      n5 "skill_name" (by decide), n8 "skill_name" (by decide),
      n9 "skill_name" (by decide), n10 "skill_name" (by decide), match_option_eta]
  have hkskc : lookupField L "skill_config" = lookupField S4 "skill_config" := by
    rw [hL]
    simp only [lookupField, String.reduceEq, reduceIte, lookupField_append,
      n2 "skill_config" (by decide), n3 "skill_config" (by decide),
      n5 "skill_config" (by decide), n8 "skill_config" (by decide),
      n9 "skill_config" (by decide), n10 "skill_config" (by decide), match_option_eta]
  have hkskill : lookupField L "skill" = none := by
    rw [hL]
    simp only [lookupField, String.reduceEq, reduceIte, lookupField_append,
      n2 "skill" (by decide), n3 "skill" (by decide),
      n4 "skill" (by decide) (by decide), n5 "skill" (by decide),
      n8 "skill" (by decide), n9 "skill" (by decide), n10 "skill" (by decide),
      match_option_eta]
  have hksw : lookupField L "state_writes" = lookupField S5 "state_writes" := by
    rw [hL]
    simp only [lookupField, String.reduceEq, reduceIte, lookupField_append,
      n2 "state_writes" (by decide), n3 "state_writes" (by decide),
      n4 "state_writes" (by decide) (by decide), n8 "state_writes" (by decide),
      n9 "state_writes" (by decide), n10 "state_writes" (by decide), match_option_eta]
  have hkmem : lookupField L "memory" = some (Value.obj [("dredge", Value.arr mdr),
      ("write", Value.bool mw),
      ("source", MV),
      ("conflict_action", Value.str mca)]) := by
    rw [hL]
    simp only [lookupField, String.reduceEq, reduceIte, lookupField_append,
      n2 "memory" (by decide), n3 "memory" (by decide),
      n4 "memory" (by decide) (by decide), n5 "memory" (by decide)]
  have hkpar : lookupField L "parallel" = some (Value.obj [("spawn", Value.bool psp),
      ("max_concurrent", Value.num pmc), ("strategy", Value.str pst)]) := by
    rw [hL]
    simp only [lookupField, String.reduceEq, reduceIte, lookupField_append,
      n2 "parallel" (by decide), n3 "parallel" (by decide),
      n4 "parallel" (by decide) (by decide), n5 "parallel" (by decide)]
  have hkgate : lookupField L "gate_config" = lookupField S8 "gate_config" := by
    rw [hL]
    simp only [lookupField, String.reduceEq, reduceIte, lookupField_append,
      n2 "gate_config" (by decide), n3 "gate_config" (by decide),
      n4 "gate_config" (by decide) (by decide), n5 "gate_config" (by decide),
      n9 "gate_config" (by decide), n10 "gate_config" (by decide), match_option_eta]
  have hkdec : lookupField L "decision_config" = lookupField S9 "decision_config" := by
    rw [hL]
    simp only [lookupField, String.reduceEq, reduceIte, lookupField_append,
      n2 "decision_config" (by decide), n3 "decision_config" (by decide),
      n4 "decision_config" (by decide) (by decide), n5 "decision_config" (by decide),
      n8 "decision_config" (by decide), n10 "decision_config" (by decide),
      match_option_eta]
  have hkor : lookupField L "on_reach" = lookupField S10 "on_reach" := by
    rw [hL]
    simp only [lookupField, String.reduceEq, reduceIte, lookupField_append,
      n2 "on_reach" (by decide), n3 "on_reach" (by decide),
      n4 "on_reach" (by decide) (by decide), n5 "on_reach" (by decide),
      n8 "on_reach" (by decide), n9 "on_reach" (by decide), match_option_eta]
  have fid : strOrD L "id" "generated-node-id" = nid := by
    simp only [strOrD, hkid]
  have htypeBind : NodeType.fromStr (strOrD L "type" "flow") = some ntype := by
    simp only [strOrD, hktype]
    exact nodeType_fromStr_toStr ntype
  have fstage : Stage.fromStrOrDefault (strOrD L "stage" "execution") = nstage := by
    simp only [strOrD, hkstage]
    exact stage_fromStrOrDefault_toStr nstage
  have fpurpose : strOrD L "purpose" "" = npurpose := by
    simp only [strOrD, hkpurpose]
  have fprompt : strOrD L "prompt" "" = nprompt := by
    simp only [strOrD, hkprompt]
    rw [hS2]
    by_cases h : nprompt = ""
    · simp [h, lookupField]
    · simp [h, lookupField]
  have fos : nodeOutputSchemaOfDict L = nos := by
    simp only [nodeOutputSchemaOfDict, hkos]
    rw [hS3]
    rcases nos with _ | ⟨ot, oreq, oprop⟩
    · rfl
    · simp only [lookupField, String.reduceEq, reduceIte]
      rw [strListOrD_of_map _ _ oreq (by simp [lookupField])]
      rfl
  have fskill : nodeSkillNameOfDict L = normSkillName nsn := by
    have hnone : strOptD L "skill" = none := by simp only [strOptD, hkskill]
    simp only [nodeSkillNameOfDict, hkskn, hnone]
    rw [hS4]
    rcases nsn with _ | sn
    · rfl
    · by_cases h : sn = ""
      · simp [h, lookupField, normSkillName]
      · simp [h, lookupField, normSkillName]
  have fskillcfg : objOrD L "skill_config" = normSkillConfig nsc nsn := by
    simp only [objOrD, hkskc]
    rw [hS4]
    rcases nsn with _ | sn
    · rfl
    · by_cases h : sn = ""
      · simp [h, lookupField, normSkillConfig]
      · simp [h, lookupField, normSkillConfig]
  have fsw : nodeStateWritesOfDict L = nsw := by
    simp only [nodeStateWritesOfDict, arrOrD, hksw]
    rw [hS5]
    rcases nsw with _ | ⟨sw0, swr⟩
    · rfl
    · simp only [List.isEmpty_cons, Bool.not_false, reduceIte, lookupField,
        String.reduceEq]
      exact filterMap_map_id _ _ (sw0 :: swr) (fun a _ => by
        obtain ⟨p, f, tr⟩ := a
        cases tr <;> rfl)
  have fmem : nodeMemoryOfDict L =
      { dredge := mdr, write := mw, source := msrc, require_triplets := false,
        conflict_action := mca } := by
    simp only [nodeMemoryOfDict, objOrD, hkmem, hMV]
    rcases msrc with _ | s <;> rfl
  have fpar : nodeParallelOfDict L =
      { spawn := psp, max_concurrent := pmc, strategy := pst, wait_for_all := true } := by
    simp only [nodeParallelOfDict, objOrD, hkpar]
    rfl
  have hgate : nodeGateOfDict L = some ngate := by
    simp only [nodeGateOfDict, hkgate]
    rw [hS8]
    rcases ngate with _ | ⟨gcrit, gonp, gonf, gmr⟩
    · rfl
    · simp only [lookupField, String.reduceEq, reduceIte, arrOrD]
      rw [mapM_map_id]
      · rfl
      · intro a _
        simp only [lookupField, String.reduceEq, reduceIte, valueToExpr_exprToValue]
        try rfl
  have hdec : nodeDecisionOfDict L = some ndec := by
    simp only [nodeDecisionOfDict, hkdec]
    rw [hS9]
    rcases ndec with _ | ⟨dv, dr, dp, dd⟩
    · rfl
    · simp only [lookupField, String.reduceEq, reduceIte]
      rw [objListOrD_of_map _ _ dr (by simp [lookupField])]
      rcases dp with _ | p
      · rfl
      · obtain ⟨pl, hpl⟩ := exprToValue_isArr p
        have hvp : (valueToExpr (Value.arr pl)).map some = some (some p) := by
          rw [← hpl, valueToExpr_exprToValue]
          rfl
        simp only [hpl, hvp]
        rfl
  have honreach : objListOrD L "on_reach" = some nor := by
    rcases nor with _ | ⟨o0, orr⟩
    · have h0 : lookupField L "on_reach" = none := by
        rw [hkor, hS10]
        rfl
      rw [objListOrD_absent _ _ h0]
    · have h0 : lookupField L "on_reach" =
          some (Value.arr ((o0 :: orr).map Value.obj)) := by
        rw [hkor, hS10]
        simp [lookupField]
      exact objListOrD_of_map _ _ (o0 :: orr) h0
  simp only [Node.from_dict]
  rw [htypeBind, hgate, hdec, honreach]
  show some
      ({ id := strOrD L "id" "generated-node-id",
         type := ntype,
         stage := Stage.fromStrOrDefault (strOrD L "stage" "execution"),
         purpose := strOrD L "purpose" "",
         prompt := strOrD L "prompt" "",
         output_schema := nodeOutputSchemaOfDict L,
         skill_name := nodeSkillNameOfDict L,
         skill_config := objOrD L "skill_config",
         state_writes := nodeStateWritesOfDict L,
         memory := nodeMemoryOfDict L,
         parallel := nodeParallelOfDict L,
         gate := ngate,
         decision := ndec,
         on_reach := nor } : Node) =
    some
      (normalizeNode
        { id := nid, type := ntype, stage := nstage, purpose := npurpose,
          prompt := nprompt, output_schema := nos, skill_name := nsn, skill_config := nsc,
          state_writes := nsw,
          memory := { dredge := mdr, write := mw, source := msrc, require_triplets := mrt,
                      conflict_action := mca },
          parallel := { spawn := psp, max_concurrent := pmc, strategy := pst,
                        wait_for_all := pwfa },
          gate := ngate, decision := ndec, on_reach := nor })
  rw [fid, fstage, fpurpose, fprompt, fos, fskill, fskillcfg, fsw, fmem, fpar]
  rfl

/-- An edge's serialized dict deserializes back to the edge up to the
documented normalization (the guard description is not serialized). -/
theorem edge_from_to (e : Edge) :
    Edge.from_dict (Edge.to_dict e) = some (normalizeEdge e) := by
  obtain ⟨eid, efrom, eto, etype, eguard, eprio, emaxr, edep, edecomp, etrav,
    esucc, efail, ewt⟩ := e
  obtain ⟨gexpr, gdesc⟩ := eguard
  simp only [Edge.to_dict]
  set E2 := (match emaxr with
    | some r => [("max_retries", Value.num r)]
    | none => ([] : List (String × Value))) with hE2
  set E3 := (match edep with
    | some dep =>
      [("dependency_config", Value.obj [
         ("required_nodes", Value.arr (dep.required_nodes.map Value.str)),
         ("require_all", Value.bool dep.require_all),
         ("required_state", Value.obj dep.required_state)])]
    | none => ([] : List (String × Value))) with hE3
  set E4 := (match edecomp with
    | some dec =>
      [("decomposition_config", Value.obj [
         ("parent_id", Value.str dec.parent_id),
         ("decomposition_type", Value.str dec.decomposition_type),
         ("max_children", Value.num dec.max_children),
         ("require_all_children", Value.bool dec.require_all_children)])]
    | none => ([] : List (String × Value))) with hE4
  set E5 := (if !etrav.isEmpty then
      [("on_traverse", Value.arr (etrav.map (fun a =>
        Value.obj (("action", Value.str a.action) :: a.parameters))))]
    else ([] : List (String × Value))) with hE5
  simp only [List.cons_append, List.nil_append, List.append_assoc]
  set L := ("id", Value.str eid) :: ("from", Value.str efrom) :: ("to", Value.str eto) ::
    ("type", Value.str etype.toStr) :: ("guard", exprToValue gexpr) ::
    ("priority", Value.num eprio) ::
    (E2 ++ (E3 ++ (E4 ++ (E5 ++ [("_learning", Value.obj [
      ("success_count", Value.num esucc),
      ("failure_count", Value.num efail),
      ("weight", Value.num ewt)])])))) with hL
  clear_value E2 E3 E4 E5 L
  have d2 : ∀ p ∈ E2, p.1 = "max_retries" := by
    rw [hE2]; cases emaxr <;> simp
  have d3 : ∀ p ∈ E3, p.1 = "dependency_config" := by
    rw [hE3]; cases edep <;> simp
  have d4 : ∀ p ∈ E4, p.1 = "decomposition_config" := by
    rw [hE4]; cases edecomp <;> simp
  have d5 : ∀ p ∈ E5, p.1 = "on_traverse" := by
    rw [hE5]; split <;> simp
  have n2 : ∀ k, k ≠ "max_retries" → lookupField E2 k = none := fun k hk =>
    lookupField_none_of_dom _ _ (fun p hp => by rw [d2 p hp]; exact Ne.symm hk)
  have n3 : ∀ k, k ≠ "dependency_config" → lookupField E3 k = none := fun k hk =>
    lookupField_none_of_dom _ _ (fun p hp => by rw [d3 p hp]; exact Ne.symm hk)
  have n4 : ∀ k, k ≠ "decomposition_config" → lookupField E4 k = none := fun k hk =>
    lookupField_none_of_dom _ _ (fun p hp => by rw [d4 p hp]; exact Ne.symm hk)
  have n5 : ∀ k, k ≠ "on_traverse" → lookupField E5 k = none := fun k hk =>
    lookupField_none_of_dom _ _ (fun p hp => by rw [d5 p hp]; exact Ne.symm hk)
  have hkid : lookupField L "id" = some (Value.str eid) := by
    rw [hL]; simp only [lookupField, String.reduceEq, reduceIte]
  have hkfrom : lookupField L "from" = some (Value.str efrom) := by
    rw [hL]; simp only [lookupField, String.reduceEq, reduceIte]
  have hkto : lookupField L "to" = some (Value.str eto) := by
    rw [hL]; simp only [lookupField, String.reduceEq, reduceIte]
  have hktype : lookupField L "type" = some (Value.str etype.toStr) := by
    rw [hL]; simp only [lookupField, String.reduceEq, reduceIte]
  have hkguard : lookupField L "guard" = some (exprToValue gexpr) := by
    rw [hL]; simp only [lookupField, String.reduceEq, reduceIte]
  have hkprio : lookupField L "priority" = some (Value.num eprio) := by
    rw [hL]; simp only [lookupField, String.reduceEq, reduceIte]
  have hkmaxr : lookupField L "max_retries" = lookupField E2 "max_retries" := by
    rw [hL]
    simp only [lookupField, String.reduceEq, reduceIte, lookupField_append,
      n3 "max_retries" (by decide), n4 "max_retries" (by decide),
      n5 "max_retries" (by decide), match_option_eta]
  have hkdep : lookupField L "dependency_config" = lookupField E3 "dependency_config" := by
    rw [hL]
    simp only [lookupField, String.reduceEq, reduceIte, lookupField_append,
      n2 "dependency_config" (by decide), n4 "dependency_config" (by decide),
      n5 "dependency_config" (by decide), match_option_eta]
  have hkdecomp : lookupField L "decomposition_config" =
      lookupField E4 "decomposition_config" := by
    rw [hL]
    simp only [lookupField, String.reduceEq, reduceIte, lookupField_append,
      n2 "decomposition_config" (by decide), n3 "decomposition_config" (by decide),
      n5 "decomposition_config" (by decide), match_option_eta]
  have hktrav : lookupField L "on_traverse" = lookupField E5 "on_traverse" := by
    rw [hL]
    simp only [lookupField, String.reduceEq, reduceIte, lookupField_append,
      n2 "on_traverse" (by decide), n3 "on_traverse" (by decide),
      n4 "on_traverse" (by decide), match_option_eta]
  have hklearn : lookupField L "_learning" = some (Value.obj [
      ("success_count", Value.num esucc),
      ("failure_count", Value.num efail),
      ("weight", Value.num ewt)]) := by
    rw [hL]
    simp only [lookupField, String.reduceEq, reduceIte, lookupField_append,
      n2 "_learning" (by decide), n3 "_learning" (by decide),
      n4 "_learning" (by decide), n5 "_learning" (by decide), match_option_eta]
  have ht : EdgeType.fromStr (strOrD L "type" "laminar") = some etype := by
    simp only [strOrD, hktype]
    exact edgeType_fromStr_toStr etype
  have hg : edgeGuardOfDict L = some gexpr := by
    simp only [edgeGuardOfDict, hkguard]
    exact valueToExpr_exprToValue gexpr
  have htrav : edgeOnTraverseOfDict L = some etrav := by
    simp only [edgeOnTraverseOfDict, arrOrD, hktrav]
    rw [hE5]
    rcases etrav with _ | ⟨a0, ar⟩
    · rfl
    · simp only [List.isEmpty_cons, Bool.not_false, reduceIte, lookupField,
        String.reduceEq]
      exact mapM_map_id _ _ (a0 :: ar) (fun a _ => rfl)
  have hdep : edgeDependencyOfDict L = edep := by
    simp only [edgeDependencyOfDict, hkdep]
    rw [hE3]
    rcases edep with _ | ⟨dn, da, ds⟩
    · rfl
    · simp only [lookupField, String.reduceEq, reduceIte]
      rw [strListOrD_of_map _ _ dn (by simp [lookupField])]
      rfl
  have hdecomp : edgeDecompositionOfDict L = edecomp := by
    simp only [edgeDecompositionOfDict, hkdecomp]
    rw [hE4]
    rcases edecomp with _ | ⟨dp, dt, dm, dr⟩ <;> rfl
  have hmaxr : edgeMaxRetriesOfDict L = emaxr := by
    simp only [edgeMaxRetriesOfDict, hkmaxr]
    rw [hE2]
    rcases emaxr with _ | r <;> rfl
  have fid : strOrD L "id" "generated-edge-id" = eid := by
    simp only [strOrD, hkid]
  have ffrom : strOrD L "from" "" = efrom := by
    simp only [strOrD, hkfrom]
  have fto : strOrD L "to" "" = eto := by
    simp only [strOrD, hkto]
  have fprio : intOrD L "priority" 1 = eprio := by
    simp only [intOrD, hkprio]
    exact Rat.num_intCast eprio
  have fsucc : intOrD (objOrD L "_learning") "success_count" 0 = esucc := by
    simp only [intOrD, objOrD, hklearn, lookupField, String.reduceEq, reduceIte]
    exact Rat.num_intCast esucc
  have ffail : intOrD (objOrD L "_learning") "failure_count" 0 = efail := by
    simp only [intOrD, objOrD, hklearn, lookupField, String.reduceEq, reduceIte]
    exact Rat.num_intCast efail
  have fwt : numOrD (objOrD L "_learning") "weight" 1 = ewt := by
    simp only [numOrD, objOrD, hklearn, lookupField, String.reduceEq, reduceIte]
  simp only [Edge.from_dict]
  rw [ht, hg, htrav]
  show some
      ({ id := strOrD L "id" "generated-edge-id",
         from_node := strOrD L "from" "",
         to_node := strOrD L "to" "",
         type := etype,
         guard := { expression := gexpr },
         priority := intOrD L "priority" 1,
         max_retries := edgeMaxRetriesOfDict L,
         dependency := edgeDependencyOfDict L,
         decomposition := edgeDecompositionOfDict L,
         on_traverse := etrav,
         success_count := intOrD (objOrD L "_learning") "success_count" 0,
         failure_count := intOrD (objOrD L "_learning") "failure_count" 0,
         weight := numOrD (objOrD L "_learning") "weight" 1 } : Edge) =
    some
      (normalizeEdge
        { id := eid, from_node := efrom, to_node := eto, type := etype,
          guard := { expression := gexpr, description := gdesc }, priority := eprio,
          max_retries := emaxr, dependency := edep, decomposition := edecomp,
          on_traverse := etrav, success_count := esucc, failure_count := efail,
          weight := ewt })
  rw [fid, ffrom, fto, fprio, hmaxr, hdep, hdecomp, fsucc, ffail, fwt]
  rfl

/-- A serialized relationship parses back to itself. -/
theorem rel_from_to (r : Relationship) :
    relationshipFromDict (Value.obj [
      ("id", Value.str r.id),
      ("from", Value.str r.from_concept),
      ("to", Value.str r.to_concept),
      ("type", Value.str r.type.toStr),
      ("weight", Value.num r.weight),
      ("observations", Value.arr (r.observations.map Value.str))]) = some r := by
  obtain ⟨rid, rfc, rtc, rty, rwt, robs⟩ := r
  simp only [relationshipFromDict, strOrD, lookupField, String.reduceEq, reduceIte,
    relationType_fromStr_toStr]
  rw [strListOrD_of_map _ _ robs (by simp [lookupField])]
  rfl

/-- Inserting a fresh key appends at the end (dict assignment). -/
theorem insertNode_not_mem (acc : List (String × Node)) (n : Node)
    (h : n.id ∉ acc.map Prod.fst) : insertNode acc n = acc ++ [(n.id, n)] := by
  induction acc with
  | nil => rfl
  | cons p rest ih =>
    obtain ⟨k, m⟩ := p
    simp only [List.map_cons, List.mem_cons] at h
    push_neg at h
    simp only [insertNode, if_neg (Ne.symm h.1), List.cons_append]
    rw [ih h.2]

/-- Folding fresh-keyed nodes into the node dict appends them in order. -/
theorem foldl_insertNode (l : List Node) :
    ∀ acc : List (String × Node),
    (∀ n ∈ l, n.id ∉ acc.map Prod.fst) →
    (l.map Node.id).Nodup →
    l.foldl insertNode acc = acc ++ l.map (fun n => (n.id, n)) := by
  induction l with
  | nil => intro acc _ _; simp
  | cons n rest ih =>
    intro acc hacc hnd
    rw [List.foldl_cons, insertNode_not_mem acc n (hacc n (List.mem_cons_self n rest))]
    rw [ih (acc ++ [(n.id, n)]) ?fresh (List.Nodup.of_cons hnd)]
    · simp
    · intro m hm
      simp only [List.map_append, List.mem_append, List.map_cons, List.map_nil,
        List.mem_singleton, not_or]
      refine ⟨hacc m (List.mem_cons_of_mem n hm), ?_⟩
      have hne : m.id ≠ n.id := by
        intro he
        have : n.id ∈ rest.map Node.id := he ▸ List.mem_map_of_mem Node.id hm
        exact (List.nodup_cons.mp hnd).1 this
      simpa using hne

/-- A graph's serialized dict deserializes back to the graph up to the
documented node/edge normalization, provided the node-map keys are the
node ids and the ids are distinct (as `add_node` guarantees). -/
theorem graph_from_to (g : Graph)
    (hkeys : ∀ p ∈ g.nodes, p.1 = p.2.id)
    (hnodup : (g.nodes.map (fun p => p.2.id)).Nodup) :
    Graph.from_dict (Graph.to_dict g) = some
      { name := g.name, version := g.version, start_node := g.start_node,
        terminal_nodes := g.terminal_nodes,
        nodes := g.nodes.map (fun p => (p.1, normalizeNode p.2)),
        edges := g.edges.map normalizeEdge,
        relationships := g.relationships } := by
  obtain ⟨gname, gver, gstart, gterm, gnodes, gedges, grels⟩ := g
  simp only at hkeys hnodup
  simp only [Graph.to_dict]
  set D := [("graph", Value.obj [("name", Value.str gname), ("version", Value.str gver)]),
    ("start_node", Value.str gstart),
    ("terminal_nodes", Value.arr (gterm.map Value.str)),
    ("nodes", Value.arr (gnodes.map (fun p => p.2.to_dict))),
    ("edges", Value.arr (gedges.map Edge.to_dict)),
    ("relationships", Value.arr (grels.map (fun r =>
      Value.obj [
        ("id", Value.str r.id),
        ("from", Value.str r.from_concept),
        ("to", Value.str r.to_concept),
        ("type", Value.str r.type.toStr),
        ("weight", Value.num r.weight),
        ("observations", Value.arr (r.observations.map Value.str))])))] with hD
  clear_value D
  have hknodes : lookupField D "nodes" =
      some (Value.arr (gnodes.map (fun p => p.2.to_dict))) := by
    rw [hD]; simp only [lookupField, String.reduceEq, reduceIte]
  have hkedges : lookupField D "edges" =
      some (Value.arr (gedges.map Edge.to_dict)) := by
    rw [hD]; simp only [lookupField, String.reduceEq, reduceIte]
  have hkrels : lookupField D "relationships" = some (Value.arr (grels.map (fun r =>
      Value.obj [
        ("id", Value.str r.id),
        ("from", Value.str r.from_concept),
        ("to", Value.str r.to_concept),
        ("type", Value.str r.type.toStr),
        ("weight", Value.num r.weight),
        ("observations", Value.arr (r.observations.map Value.str))]))) := by
    rw [hD]; simp only [lookupField, String.reduceEq, reduceIte]
  have hkterm : lookupField D "terminal_nodes" =
      some (Value.arr (gterm.map Value.str)) := by
    rw [hD]; simp only [lookupField, String.reduceEq, reduceIte]
  have hkstart : lookupField D "start_node" = some (Value.str gstart) := by
    rw [hD]; simp only [lookupField, String.reduceEq, reduceIte]
  have hkmeta : lookupField D "graph" =
      some (Value.obj [("name", Value.str gname), ("version", Value.str gver)]) := by
    rw [hD]; simp only [lookupField, String.reduceEq, reduceIte]
  have hnodesM := mapM_map_pointwise _ Node.from_dict _ gnodes
    (fun p _ => node_from_to p.2)
  have hedgesM := mapM_map_pointwise _ Edge.from_dict _ gedges
    (fun e _ => edge_from_to e)
  have hrelsM := mapM_map_pointwise _ relationshipFromDict _ grels
    (fun r _ => rel_from_to r)
  have hterm : strListOrD D "terminal_nodes" = gterm :=
    strListOrD_of_map _ _ gterm hkterm
  have hstart : strOrD D "start_node" "" = gstart := by
    simp only [strOrD, hkstart]
  have hanodes : arrOrD D "nodes" = gnodes.map (fun p => p.2.to_dict) := by
    simp only [arrOrD, hknodes]
  have haedges : arrOrD D "edges" = gedges.map Edge.to_dict := by
    simp only [arrOrD, hkedges]
  have harels : arrOrD D "relationships" = grels.map (fun r =>
      Value.obj [
        ("id", Value.str r.id),
        ("from", Value.str r.from_concept),
        ("to", Value.str r.to_concept),
        ("type", Value.str r.type.toStr),
        ("weight", Value.num r.weight),
        ("observations", Value.arr (r.observations.map Value.str))]) := by
    simp only [arrOrD, hkrels]
  have hfold : (gnodes.map (fun p => normalizeNode p.2)).foldl insertNode [] =
      gnodes.map (fun p => (p.1, normalizeNode p.2)) := by
    rw [foldl_insertNode _ [] (by simp) ?nd]
    · rw [List.nil_append, List.map_map]
      refine List.map_congr_left (fun p hp => ?_)
      show ((normalizeNode p.2).id, normalizeNode p.2) = (p.1, normalizeNode p.2)
      rw [hkeys p hp]
      rfl
    · rw [List.map_map]
      exact hnodup
  simp only [Graph.from_dict]
  rw [hanodes, haedges, harels, hnodesM, hedgesM, hrelsM]
  simp only [List.map_id']
  show some
      ({ name := strOrD (objOrD D "graph") "name" "",
         version := strOrD (objOrD D "graph") "version" "1.0.0",
         start_node := if strOrD D "start_node" "" ≠ "" then strOrD D "start_node" ""
           else strOrD (objOrD D "graph") "start_node" "",
         terminal_nodes := if !(strListOrD D "terminal_nodes").isEmpty then
             strListOrD D "terminal_nodes"
           else strListOrD (objOrD D "graph") "terminal_nodes",
         nodes := (gnodes.map (fun p => normalizeNode p.2)).foldl insertNode [],
         edges := gedges.map normalizeEdge,
         relationships := grels } : Graph) =
    some
      { name := gname, version := gver, start_node := gstart, terminal_nodes := gterm,
        nodes := gnodes.map (fun p => (p.1, normalizeNode p.2)),
        edges := gedges.map normalizeEdge, relationships := grels }
  rw [hfold, hterm, hstart]
  have hmeta : objOrD D "graph" =
      [("name", Value.str gname), ("version", Value.str gver)] := by
    simp only [objOrD, hkmeta]
  rw [hmeta]
  rcases gterm with _ | ⟨t0, ts⟩ <;> by_cases hs : gstart = "" <;>
    simp [hs, lookupField, strOrD, strListOrD, arrOrD]

/-- C7 counterexample: saving and loading a graph whose single node asks
for triplet-bearing memory writes (`memory.require_triplets = true`)
yields a node with `require_triplets = false` — `Node.to_dict` never
serializes that flag, so `load(save(G))` is not identical to `G`. -/
theorem C7_round_trip_counterexample :
    nodeC7.memory.require_triplets = true ∧
    (Graph.from_dict (Graph.to_dict graphC7)).map
      (fun g => g.nodes.map (fun p => p.2.memory.require_triplets)) = some [false] := by
  exact ⟨rfl, rfl⟩

/-- C7 (amended): for every graph whose node-map keys are the node ids
and whose node ids are distinct (as `add_node` maintains), loading the
saved form reproduces the graph metadata, start node, terminal nodes,
relationships, and the edge list including the accumulated success
count, failure count and weight — but each node is reproduced only up
to `normalizeNode` (an empty-string skill name becomes `None`, the
skill config survives only with a non-empty skill name, and
`memory.require_triplets` / `parallel.wait_for_all` revert to their
defaults), and each edge loses its guard description (`normalizeEdge`). -/
theorem C7_round_trip_amended (g : Graph)
    (hkeys : ∀ p ∈ g.nodes, p.1 = p.2.id)
    (hnodup : (g.nodes.map (fun p => p.2.id)).Nodup) :
    Graph.from_dict (Graph.to_dict g) = some
      { name := g.name, version := g.version, start_node := g.start_node,
        terminal_nodes := g.terminal_nodes,
        nodes := g.nodes.map (fun p => (p.1, normalizeNode p.2)),
        edges := g.edges.map normalizeEdge,
        relationships := g.relationships } :=
  graph_from_to g hkeys hnodup

/-- C7 amended, witnessed on the concrete one-node fixture. -/
theorem C7_round_trip_amended_witness :
    Graph.from_dict (Graph.to_dict graphC7) = some
      { name := graphC7.name, version := graphC7.version,
        start_node := graphC7.start_node,
        terminal_nodes := graphC7.terminal_nodes,
        nodes := graphC7.nodes.map (fun p => (p.1, normalizeNode p.2)),
        edges := graphC7.edges.map normalizeEdge,
        relationships := graphC7.relationships } :=
  C7_round_trip_amended graphC7
    (by
      intro p hp
      simp only [graphC7, List.mem_singleton] at hp
      subst hp
      rfl)
    (by simp [graphC7])
